import Mathlib

/-!
The cooperative scheduler of `Source/application.cpp`.

A shallow embedding of `MsgSleep`, `IsCycleComplete`, `CheckScriptTimers` and the
interrupt-window timer procedures.  Program variables live in one `State` record.
The operating system is an explicit part of that record: a tick counter and the
stream of answers the message queue will give.  Collaborators whose code is not in
this file of the repository (the hotkey table, the statement interpreter, generic
window dispatch) are parameters gathered in `Env`.
-/

namespace Application

/-! ## Data model -/

inductive ResultType
  | FAIL
  | OK
deriving DecidableEq, Repr

inductive MessageMode
  | RETURN_AFTER_MESSAGES
  | WAIT_FOR_MESSAGES
deriving DecidableEq, Repr

abbrev HotkeyIDType := Nat
abbrev LabelRef := Nat
abbrev ActionTypeType := Nat

/-- Modelled from the spec: the declaration of `global_struct` (globaldata.h) is not in the
source tree.  The execution context holds the saved status text `ErrorLevel` (a bounded
`char` buffer), the paused flag, the window to restore focus to, and the per-thread option
defaults, kept here as an uninterpreted list of values. -/
structure global_struct where
  ErrorLevel : List Char
  IsPaused : Bool
  hWndToRestore : Nat
  settings : List Int
deriving DecidableEq, Repr

/-- Modelled from the spec: the declaration of `ScriptTimer` (script.h) is not in the source
tree.  One entry per timed subroutine: enabled flag, period in milliseconds, last-run tick,
active-instance count and the label to run.  The linked list `mFirstTimer`/`mNextTimer` is a
`List`; an entry is identified by its position, as list nodes are never unlinked. -/
structure ScriptTimer where
  mLabel : LabelRef
  mPeriod : Int
  mTimeLastRun : Nat
  mExistingThreads : Int
  mEnabled : Bool
deriving DecidableEq, Repr

/-- Modelled from the spec: the `Hotkey` class (hotkey.h) is not in the source tree.  A
trigger has a label to run, a type, the action type of the first line of its subroutine, a
per-trigger concurrency limit with the count of running instances, and the pending flag of
the coalesced re-fire. -/
structure Hotkey where
  mLabel : LabelRef
  mType : Nat
  mTypeOfFirstLine : ActionTypeType
  mMaxThreads : Int
  mExistingThreads : Int
  mRunAgainAfterFinished : Bool
deriving DecidableEq, Repr

/-- The message kinds `MsgSleep` switches on; every other kind is `other`. -/
inductive MessageKind
  | WM_QUIT
  | WM_TIMER
  | WM_HOTKEY
  | AHK_HOOK_HOTKEY
  | WM_KEYDOWN
  | other (code : Nat)
deriving DecidableEq, Repr

structure MSG where
  hwnd : Nat
  message : MessageKind
  wParam : Nat
  lParam : Nat
deriving DecidableEq, Repr

/-- What the operating system does next, in order: a message becomes available, the queue
is observed empty, `GetMessage` fails with -1, or some milliseconds pass. -/
inductive OsEvent
  | post (m : MSG)
  | empty
  | getError
  | elapse (ms : Nat)
deriving DecidableEq, Repr

/-- All process-wide variables the scheduler reads or writes (the `g_*` globals and the
members of `g_script`), together with the operating system's tick counter and the future
of the message queue. -/
structure State where
  g : global_struct
  g_default : global_struct
  g_ErrorLevel : List Char
  g_nThreads : Int
  g_nPausedThreads : Int
  g_MaxThreadsTotal : Int
  g_UnpauseWhenResumed : Bool
  g_AllowInterruption : Bool
  g_AllowInterruptionForSub : Bool
  g_MainTimerExists : Bool
  g_UninterruptibleTimerExists : Bool
  g_AutoExecTimerExists : Bool
  g_LastPerformedHotkeyType : Nat
  g_hWndEdit : Nat
  g_ClipboardIsOpen : Bool
  g_MainWindowIsShown : Bool
  mTimerEnabledCount : Int
  mLinesExecutedThisCycle : Int
  mLastScriptRest : Nat
  mPriorHotkeyLabel : Option LabelRef
  mThisHotkeyLabel : Option LabelRef
  mPriorHotkeyStartTime : Nat
  mThisHotkeyStartTime : Nat
  AutoExecSectionIsRunning : Bool
  mFirstTimer : List ScriptTimer
  hotkeys : List Hotkey
  tickCount : Nat
  msgQueue : List OsEvent
deriving DecidableEq, Repr

/-- Constants of the headers that are not in the source tree, taken as parameters. -/
structure Config where
  SLEEP_INTERVAL : Int
  SLEEP_INTERVAL_HALF : Int
  INTERVAL_UNSPECIFIED : Int
  MAX_THREADS_LIMIT : Int
  sizeof_ErrorLevel : Nat
  VK_ESCAPE : Nat

/-- What a subroutine run leaves behind: the states it passed through, in order, and the
state it returned in (`none` when it never returns). -/
structure Run where
  visited : List State
  final : Option State

/-- Collaborators outside `application.cpp`: the hotkey table, the statement interpreter,
shutdown and generic window dispatch. -/
structure Env where
  PerformID : HotkeyIDType → State → Run
  ExecUntil : LabelRef → State → Run
  ExitApp : State → State
  DispatchGeneric : MSG → State → State
  GetTypeOfFirstLine : HotkeyIDType → State → ActionTypeType
  ACT_IS_ALWAYS_ALLOWED : ActionTypeType → Bool
  PerformIsAllowed : HotkeyIDType → State → Bool
  RunAgainAfterFinished : HotkeyIDType → State → State
  GetLabel : HotkeyIDType → State → Option LabelRef
  GetType : HotkeyIDType → State → Nat
  global_clear_state : global_struct → global_struct

/-! ## Machine arithmetic and operating-system primitives -/

/-- The value of a 32-bit pattern read as `DWORD`. -/
def toDWORD (x : Int) : Nat := (x % 4294967296).toNat

/-- The value of a 32-bit pattern read as `int`. -/
def toInt32 (x : Int) : Int := (x + 2147483648) % 4294967296 - 2147483648

/-- The call `GetTickCount()`: the tick counter as a `DWORD`. -/
def GetTickCount (s : State) : Nat := s.tickCount % 4294967296

/-- The call `strlcpy(dst, src, size)`: at most `size - 1` characters are copied. -/
def strlcpy (src : List Char) (size : Nat) : List Char := src.take (size - 1)

/-- Non-blocking retrieval over the event stream: the message found, if any, the
milliseconds that passed, and the rest of the stream. -/
def peekScan : List OsEvent → Nat → Option MSG × Nat × List OsEvent
  | [], t => (none, t, [])
  | OsEvent.post m :: q, t => (some m, t, q)
  | OsEvent.empty :: q, t => (none, t, q)
  | OsEvent.getError :: q, t => peekScan q t
  | OsEvent.elapse d :: q, t => peekScan q (t + d)

/-- Blocking retrieval over the event stream.  The outer `none` means that no message ever
arrives; the inner `none` is the error value -1. -/
def getScan : List OsEvent → Nat → Option (Option MSG × Nat × List OsEvent)
  | [], _ => none
  | OsEvent.post m :: q, t => some (some m, t, q)
  | OsEvent.empty :: q, t => getScan q t
  | OsEvent.getError :: q, t => some (none, t, q)
  | OsEvent.elapse d :: q, t => getScan q (t + d)

/-- The call `PeekMessage(&msg, NULL, 0, MSG_FILTER_MAX, PM_REMOVE)`.  The filter decides
which queued messages the system hands out; the event stream stands for the messages it
does hand out. -/
def PeekMessage (s : State) : Option MSG × State :=
  let r := peekScan s.msgQueue s.tickCount
  (r.1, { s with tickCount := r.2.1, msgQueue := r.2.2 })

/-- The call `GetMessage(&msg, NULL, 0, MSG_FILTER_MAX)`. -/
def GetMessage (s : State) : Option (Option MSG × State) :=
  match getScan s.msgQueue s.tickCount with
  | none => none
  | some r => some (r.1, { s with tickCount := r.2.1, msgQueue := r.2.2 })

/-! ## The small state transitions written as preprocessor definitions in the headers -/

/-- Modelled from the spec: `INTERRUPTIBLE` is defined in a header that is not in the source
tree; the runtime is interruptible when both permission flags are set. -/
def INTERRUPTIBLE (s : State) : Bool := s.g_AllowInterruption && s.g_AllowInterruptionForSub

/-- Modelled from the spec: `SET_MAIN_TIMER` turns the periodic pulse on. -/
def SET_MAIN_TIMER (s : State) : State := { s with g_MainTimerExists := true }

/-- Modelled from the spec: `KILL_MAIN_TIMER` turns the periodic pulse off. -/
def KILL_MAIN_TIMER (s : State) : State := { s with g_MainTimerExists := false }

/-- Modelled from the spec: `KILL_AUTOEXEC_TIMER` kills the startup-section timer. -/
def KILL_AUTOEXEC_TIMER (s : State) : State := { s with g_AutoExecTimerExists := false }

/-- Modelled from the spec: `KILL_UNINTERRUPTIBLE_TIMER` kills the grace-window timer and
resets `g_UninterruptibleTimerExists`. -/
def KILL_UNINTERRUPTIBLE_TIMER (s : State) : State :=
  { s with g_UninterruptibleTimerExists := false }

/-- Modelled from the spec: `ENABLE_UNINTERRUPTIBLE_SUB` marks the run as uninterruptible for
a bounded grace window, arming the one-shot timer that ends it. -/
def ENABLE_UNINTERRUPTIBLE_SUB (s : State) : State :=
  { s with g_AllowInterruptionForSub := false, g_UninterruptibleTimerExists := true }

/-- Modelled from the spec: `DISABLE_UNINTERRUPTIBLE_SUB` clears uninterruptibility. -/
def DISABLE_UNINTERRUPTIBLE_SUB (s : State) : State :=
  KILL_UNINTERRUPTIBLE_TIMER { s with g_AllowInterruptionForSub := true }

/-- Modelled from the spec: `CLOSE_CLIPBOARD_IF_OPEN`. -/
def CLOSE_CLIPBOARD_IF_OPEN (s : State) : State := { s with g_ClipboardIsOpen := false }

/-- The body of `RESUME_UNDERLYING_THREAD` (lines 422-431); the tray icon is not part of the
state. -/
def RESUME_UNDERLYING_THREAD (global_saved : global_struct) (s : State) : State :=
  let s := { s with g := global_saved }
  let s := { s with g_ErrorLevel := s.g.ErrorLevel }
  if s.g_UnpauseWhenResumed && s.g.IsPaused then
    { s with g_UnpauseWhenResumed := false,
             g := { s.g with IsPaused := false },
             g_nPausedThreads := s.g_nPausedThreads - 1 }
  else s

/-! ## IsCycleComplete -/

/-- The expression `(int)(aSleepDuration - (tick_now - aStartTime))` of line 530: the inner
difference is a `DWORD`, the outer one is taken on 32-bit patterns and read as an `int`. -/
def remainingTime (aSleepDuration : Int) (tick_now aStartTime : Nat) : Int :=
  toInt32 (aSleepDuration - (toDWORD ((tick_now : Int) - (aStartTime : Int)) : Int))

/-- Lines 543-554 of `IsCycleComplete`: what is done before `OK` is returned. -/
def IsCycleComplete.complete (aSleepDuration : Int) (tick_now : Nat) (s : State) : State :=
  let s := if aSleepDuration ≥ 0 then
      { s with mLinesExecutedThisCycle := 0, mLastScriptRest := tick_now }
    else s
  if s.mTimerEnabledCount = 0 then KILL_MAIN_TIMER s else s

/-- The function `IsCycleComplete` (lines 522-557). -/
def IsCycleComplete (cfg : Config) (aSleepDuration : Int) (aStartTime : Nat)
    (aAllowEarlyReturn : Bool) (s : State) : ResultType × State :=
  let tick_now := GetTickCount s
  if !aAllowEarlyReturn
      && decide (remainingTime aSleepDuration tick_now aStartTime > cfg.SLEEP_INTERVAL_HALF) then
    (ResultType.FAIL, s)
  else (ResultType.OK, IsCycleComplete.complete aSleepDuration tick_now s)

/-! ## CheckScriptTimers -/

/-- A write `timer->field = ...` through the pointer to the entry at position `i` of the
linked list of timers: that entry is replaced by `f` of itself. -/
def modifyTimer (f : ScriptTimer → ScriptTimer) : Nat → List ScriptTimer → List ScriptTimer
  | _, [] => []
  | 0, t :: ts => f t :: ts
  | i + 1, t :: ts => t :: modifyTimer f i ts

/-- The test of lines 607-608 for a timer entry at tick `tick_start`. -/
def timerIsDue (timer : ScriptTimer) (tick_start : Nat) : Bool :=
  timer.mEnabled && decide (timer.mExistingThreads < 1)
    && decide (toDWORD ((tick_start : Int) - (timer.mTimeLastRun : Int)) ≥ toDWORD timer.mPeriod)

/-- One step of the loop of `CheckScriptTimers` as seen from outside: which entry was
looked at, how it was found, the tick counter then, and whether it was fired. -/
structure Visit where
  index : Nat
  timer : ScriptTimer
  tick : Nat
  fired : Bool
deriving DecidableEq, Repr

/-- The outcome of one call of `CheckScriptTimers`: its loop steps, every state passed
through (those of the subroutines included) and the state on return. -/
structure TimerPass where
  visits : List Visit
  visited : List State
  final : Option State

/-- Lines 622-627: what is done before the first subroutine of a call is launched. -/
def CheckScriptTimers.firstLaunch (cfg : Config) (s : State) : global_struct × State :=
  let s := { s with g_nThreads := s.g_nThreads + 1 }
  let s := { s with g := { s.g with ErrorLevel := strlcpy s.g_ErrorLevel cfg.sizeof_ErrorLevel } }
  (s.g, s)

/-- Lines 610-634: the `if (!n_ran_subroutines)` block, giving `global_saved` and the state
after it. -/
def CheckScriptTimers.prepare (cfg : Config) (n_ran_subroutines : Nat)
    (global_saved : Option global_struct) (s : State) : Option global_struct × State :=
  if n_ran_subroutines = 0 then
    (some (CheckScriptTimers.firstLaunch cfg s).1, (CheckScriptTimers.firstLaunch cfg s).2)
  else (global_saved, s)

/-- Lines 639-651: the state in which the subroutine of entry `i` is started. -/
def CheckScriptTimers.launch (i : Nat) (s : State) : State :=
  let s := { s with mLinesExecutedThisCycle := 0 }
  let s := { s with g := s.g_default }
  let s := ENABLE_UNINTERRUPTIBLE_SUB s
  let f := fun (t : ScriptTimer) => { t with mExistingThreads := t.mExistingThreads + 1 }
  { s with mFirstTimer := modifyTimer f i s.mFirstTimer }

/-- Lines 653-666: what is done when the subroutine of entry `i` has returned. -/
def CheckScriptTimers.finish (i : Nat) (tick_start : Nat) (s : State) : State :=
  let f := fun (t : ScriptTimer) => { t with mExistingThreads := t.mExistingThreads - 1 }
  let s := { s with mFirstTimer := modifyTimer f i s.mFirstTimer }
  let s := DISABLE_UNINTERRUPTIBLE_SUB s
  let h := fun (t : ScriptTimer) => { t with mTimeLastRun := tick_start }
  { s with mFirstTimer := modifyTimer h i s.mFirstTimer }

/-- Lines 670-674: the end of the call, after the loop. -/
def CheckScriptTimers.epilogue (n_ran_subroutines : Nat) (global_saved : Option global_struct)
    (s : State) : State :=
  if n_ran_subroutines ≠ 0 then
    let s := { s with g_nThreads := s.g_nThreads - 1 }
    match global_saved with
    | some saved => RESUME_UNDERLYING_THREAD saved s
    | none => s
  else s

/-- The loop of lines 603-668 followed by lines 670-674.  `i` is the position of `timer` in
the list, `global_saved` is `none` while the local of that name is unset.  The first
argument bounds the number of loop steps. -/
def CheckScriptTimers.loop (cfg : Config) (env : Env) :
    Nat → Nat → Nat → Option global_struct → State → TimerPass
  | 0, _, _, _, _ => ⟨[], [], none⟩
  | fuel + 1, i, n_ran_subroutines, global_saved, s =>
    match s.mFirstTimer[i]? with
    | none => ⟨[], [], some (CheckScriptTimers.epilogue n_ran_subroutines global_saved s)⟩
    | some timer =>
      let tick_start := GetTickCount s
      if timerIsDue timer tick_start then
        let p := CheckScriptTimers.prepare cfg n_ran_subroutines global_saved s
        let s1 := CheckScriptTimers.launch i p.2
        let r := env.ExecUntil timer.mLabel s1
        match r.final with
        | none => ⟨[⟨i, timer, tick_start, true⟩], s1 :: r.visited, none⟩
        | some s2 =>
          let s3 := CheckScriptTimers.finish i tick_start s2
          let rest := CheckScriptTimers.loop cfg env fuel (i + 1) (n_ran_subroutines + 1) p.1 s3
          ⟨⟨i, timer, tick_start, true⟩ :: rest.visits,
            s1 :: (r.visited ++ s3 :: rest.visited), rest.final⟩
      else
        let rest := CheckScriptTimers.loop cfg env fuel (i + 1) n_ran_subroutines global_saved s
        ⟨⟨i, timer, tick_start, false⟩ :: rest.visits, rest.visited, rest.final⟩

/-- The function `CheckScriptTimers` (lines 561-675). -/
def CheckScriptTimers (cfg : Config) (env : Env) (fuel : Nat) (s : State) : TimerPass :=
  if !INTERRUPTIBLE s || decide (s.g_nPausedThreads > 0)
      || decide (s.g_nThreads ≥ s.g_MaxThreadsTotal) then
    ⟨[], [], some s⟩
  else CheckScriptTimers.loop cfg env fuel 0 0 none s

/-- Modelled from the spec: `CHECK_SCRIPT_TIMERS_IF_NEEDED` is defined in a header that is
not in the source tree; the dispatcher is called only when at least one timer entry is
enabled. -/
def CHECK_SCRIPT_TIMERS_IF_NEEDED (cfg : Config) (env : Env) (fuel : Nat) (s : State) :
    TimerPass :=
  if s.mTimerEnabledCount ≠ 0 then CheckScriptTimers cfg env fuel s else ⟨[], [], some s⟩

/-! ## MsgSleep -/

/-- The parameters and locals of one call of `MsgSleep` that outlive a loop step. -/
structure Locals where
  aSleepDuration : Int
  aMode : MessageMode
  allow_early_return : Bool
  start_time : Nat
  we_turned_on_main_timer : Bool
  sleep0_was_done : Bool
  empty_the_queue_via_peek : Bool
deriving DecidableEq, Repr

/-- What one call of `MsgSleep` itself does, calls made by launched subroutines left out. -/
inductive PumpEv
  | getMessage
  | peekFound
  | peekEmpty
  | sleep0
  | perform (id : HotkeyIDType)
  | runAgain (id : HotkeyIDType)
deriving DecidableEq, Repr

/-- How a loop step ends: `continue`, `return`, or never (a blocking call or a subroutine
that does not come back). -/
inductive Next
  | cont (L : Locals) (s : State)
  | ret (r : ResultType) (s : State)
  | hang

structure Iter where
  events : List PumpEv
  visited : List State
  next : Next

/-- The outcome of one call of `MsgSleep`. -/
structure Pump where
  events : List PumpEv
  visited : List State
  result : Option (ResultType × State)

/-- Lines 342-401: from the admission of a trigger to `++g_nThreads`.  The first component
is `global_saved`, which the code sets in mode `RETURN_AFTER_MESSAGES` only. -/
def MsgSleep.launch (cfg : Config) (env : Env) (aMode : MessageMode) (msg : MSG) (s : State) :
    global_struct × State :=
  let s := if s.mTimerEnabledCount = 0 then KILL_MAIN_TIMER s else s
  let s := if aMode = MessageMode.RETURN_AFTER_MESSAGES then
      { s with g := { s.g with ErrorLevel := strlcpy s.g_ErrorLevel cfg.sizeof_ErrorLevel } }
    else s
  let global_saved := s.g
  let s := { s with g := s.g_default }
  let s := { s with mPriorHotkeyLabel := s.mThisHotkeyLabel }
  let s := { s with mPriorHotkeyStartTime := s.mThisHotkeyStartTime }
  let s := { s with mThisHotkeyLabel := env.GetLabel msg.wParam s }
  let s := ENABLE_UNINTERRUPTIBLE_SUB s
  let s := { s with mLinesExecutedThisCycle := 0 }
  let s := { s with mThisHotkeyStartTime := GetTickCount s, mLastScriptRest := GetTickCount s }
  (global_saved, { s with g_nThreads := s.g_nThreads + 1 })

/-- Lines 403-406: right after the subroutine has returned. -/
def MsgSleep.afterPerform (env : Env) (msg : MSG) (s : State) : State :=
  let s := { s with g_nThreads := s.g_nThreads - 1 }
  let s := DISABLE_UNINTERRUPTIBLE_SUB s
  { s with g_LastPerformedHotkeyType := env.GetType msg.wParam s }

/-- Lines 408-453: resuming the suspended thread and deciding how the loop goes on. -/
def MsgSleep.resume (cfg : Config) (L : Locals) (global_saved : global_struct) (s : State) :
    Next :=
  if L.aMode = MessageMode.RETURN_AFTER_MESSAGES then
    let s := RESUME_UNDERLYING_THREAD global_saved s
    let r := IsCycleComplete cfg L.aSleepDuration L.start_time L.allow_early_return s
    if r.1 = ResultType.OK then
      Next.cont { L with empty_the_queue_via_peek := true, allow_early_return := true } r.2
    else
      Next.cont L (if L.we_turned_on_main_timer then SET_MAIN_TIMER r.2 else r.2)
  else Next.cont L s

/-- The test of lines 304-306: the trigger is dropped. -/
def MsgSleep.overLimit (cfg : Config) (env : Env) (msg : MSG) (s : State) : Bool :=
  decide (s.g_nThreads ≥ s.g_MaxThreadsTotal)
    && !(env.ACT_IS_ALWAYS_ALLOWED (env.GetTypeOfFirstLine msg.wParam s)
          && decide (s.g_nThreads < cfg.MAX_THREADS_LIMIT))

/-- The cases `WM_HOTKEY` and `AHK_HOOK_HOTKEY` (lines 300-453). -/
def MsgSleep.hotkey (cfg : Config) (env : Env) (L : Locals) (msg : MSG) (s : State) : Iter :=
  if MsgSleep.overLimit cfg env msg s then ⟨[], [], Next.cont L s⟩
  else if !env.PerformIsAllowed msg.wParam s then
    ⟨[PumpEv.runAgain msg.wParam], [], Next.cont L (env.RunAgainAfterFinished msg.wParam s)⟩
  else
    let p := MsgSleep.launch cfg env L.aMode msg s
    let r := env.PerformID msg.wParam p.2
    match r.final with
    | none => ⟨[PumpEv.perform msg.wParam], p.2 :: r.visited, Next.hang⟩
    | some s1 =>
      let s2 := MsgSleep.afterPerform env msg s1
      let n := MsgSleep.resume cfg L p.1 s2
      ⟨[PumpEv.perform msg.wParam], p.2 :: (r.visited ++ [s2]), n⟩

/-- The `switch` of lines 254-483 with the generic handling of lines 485-516. -/
def MsgSleep.dispatch (cfg : Config) (env : Env) (fuel : Nat) (L : Locals) (msg : MSG)
    (s : State) : Iter :=
  match msg.message with
  | MessageKind.WM_QUIT => ⟨[], [], Next.cont L (env.ExitApp s)⟩
  | MessageKind.WM_TIMER =>
    if msg.lParam ≠ 0 then ⟨[], [], Next.cont L (env.DispatchGeneric msg s)⟩
    else
      let t := CHECK_SCRIPT_TIMERS_IF_NEEDED cfg env fuel s
      match t.final with
      | none => ⟨[], t.visited, Next.hang⟩
      | some s1 =>
        if L.aMode = MessageMode.WAIT_FOR_MESSAGES then ⟨[], t.visited, Next.cont L s1⟩
        else if L.aSleepDuration ≤ 0 then ⟨[], t.visited, Next.cont L s1⟩
        else
          let r := IsCycleComplete cfg L.aSleepDuration L.start_time L.allow_early_return s1
          if r.1 = ResultType.OK then ⟨[], t.visited, Next.ret ResultType.OK r.2⟩
          else ⟨[], t.visited, Next.cont L r.2⟩
  | MessageKind.WM_HOTKEY => MsgSleep.hotkey cfg env L msg s
  | MessageKind.AHK_HOOK_HOTKEY => MsgSleep.hotkey cfg env L msg s
  | MessageKind.WM_KEYDOWN =>
    if msg.hwnd = s.g_hWndEdit ∧ msg.wParam = cfg.VK_ESCAPE then
      ⟨[], [], Next.cont L { s with g_MainWindowIsShown := false }⟩
    else ⟨[], [], Next.cont L (env.DispatchGeneric msg s)⟩
  | MessageKind.other _ => ⟨[], [], Next.cont L (env.DispatchGeneric msg s)⟩

/-- One pass through the body of the `for (;;)` of lines 191-517. -/
def MsgSleep.iteration (cfg : Config) (env : Env) (fuel : Nat) (L : Locals) (s : State) : Iter :=
  if L.aSleepDuration > 0 ∧ L.empty_the_queue_via_peek = false then
    match GetMessage s with
    | none => ⟨[PumpEv.getMessage], [], Next.hang⟩
    | some (none, s1) => ⟨[PumpEv.getMessage], [], Next.cont L s1⟩
    | some (some msg, s1) =>
      let d := MsgSleep.dispatch cfg env fuel L msg s1
      ⟨PumpEv.getMessage :: d.events, d.visited, d.next⟩
  else
    match PeekMessage s with
    | (none, s1) =>
      if L.aSleepDuration = 0 ∧ L.sleep0_was_done = false then
        ⟨[PumpEv.peekEmpty, PumpEv.sleep0], [], Next.cont { L with sleep0_was_done := true } s1⟩
      else
        let r := IsCycleComplete cfg L.aSleepDuration L.start_time L.allow_early_return s1
        ⟨[PumpEv.peekEmpty], [], Next.ret r.1 r.2⟩
    | (some msg, s1) =>
      let d := MsgSleep.dispatch cfg env fuel L msg s1
      ⟨PumpEv.peekFound :: d.events, d.visited, d.next⟩

/-- The `for (;;)` of lines 191-517; the first argument bounds the number of passes. -/
def MsgSleep.loop (cfg : Config) (env : Env) : Nat → Locals → State → Pump
  | 0, _, _ => ⟨[], [], none⟩
  | fuel + 1, L, s =>
    let it := MsgSleep.iteration cfg env fuel L s
    match it.next with
    | Next.cont L1 s1 =>
      let p := MsgSleep.loop cfg env fuel L1 s1
      ⟨it.events ++ p.events, it.visited ++ s1 :: p.visited, p.result⟩
    | Next.ret r s1 => ⟨it.events, it.visited ++ [s1], some (r, s1)⟩
    | Next.hang => ⟨it.events, it.visited, none⟩

/-- Lines 113-130: the locals as they are before the first timer check. -/
def MsgSleep.init (cfg : Config) (aSleepDuration : Int) (aMode : MessageMode) (s : State) :
    Locals :=
  let d := if aSleepDuration = cfg.INTERVAL_UNSPECIFIED then cfg.SLEEP_INTERVAL
    else aSleepDuration
  let allow_early_return := if aSleepDuration = cfg.INTERVAL_UNSPECIFIED then true
    else decide (aSleepDuration ≤ cfg.SLEEP_INTERVAL_HALF)
  { aSleepDuration := d
    aMode := aMode
    allow_early_return := allow_early_return
    start_time := if allow_early_return then 0 else GetTickCount s
    we_turned_on_main_timer := false
    sleep0_was_done := false
    empty_the_queue_via_peek := false }

/-- The function `MsgSleep` (lines 25-518). -/
def MsgSleep (cfg : Config) (env : Env) (fuel : Nat) (aSleepDuration : Int)
    (aMode : MessageMode) (s : State) : Pump :=
  let s := CLOSE_CLIPBOARD_IF_OPEN s
  let L := MsgSleep.init cfg aSleepDuration aMode s
  let t := CHECK_SCRIPT_TIMERS_IF_NEEDED cfg env fuel s
  match t.final with
  | none => ⟨[], t.visited, none⟩
  | some s1 =>
    let we_turned_on_main_timer := decide (L.aSleepDuration > 0)
      && decide (aMode = MessageMode.RETURN_AFTER_MESSAGES) && !s1.g_MainTimerExists
    let s2 := if we_turned_on_main_timer then SET_MAIN_TIMER s1 else s1
    let p := MsgSleep.loop cfg env fuel
      { L with we_turned_on_main_timer := we_turned_on_main_timer } s2
    ⟨p.events, t.visited ++ s2 :: p.visited, p.result⟩

/-! ## The interrupt-window timer procedures -/

/-- The procedure `DialogTimeout` (lines 679-690): `EndDialog` and `KillTimer` act on the
dialog window only, which is outside the state. -/
def DialogTimeout (s : State) : State := s

/-- The procedure `AutoExecSectionTimeout` (lines 694-726). -/
def AutoExecSectionTimeout (env : Env) (s : State) : State :=
  let s := KILL_AUTOEXEC_TIMER s
  if !s.AutoExecSectionIsRunning then s
  else
    let s := { s with g_default := s.g }
    let s := { s with g_default := env.global_clear_state s.g_default }
    { s with g_AllowInterruptionForSub := true }

/-- The procedure `UninteruptibleTimeout` (lines 730-734). -/
def UninteruptibleTimeout (s : State) : State :=
  let s := KILL_UNINTERRUPTIBLE_TIMER s
  { s with g_AllowInterruptionForSub := true }

/-! ## Scripts whose subroutines re-enter the scheduler -/

/-- A write through the pointer to the trigger at position `i` of the hotkey table. -/
def modifyHotkey (f : Hotkey → Hotkey) : Nat → List Hotkey → List Hotkey
  | _, [] => []
  | 0, h :: hs => f h :: hs
  | i + 1, h :: hs => h :: modifyHotkey f i hs

/-- Modelled from the spec: `Hotkey::PerformIsAllowed` is not in the source tree; a trigger
is admitted while its per-trigger concurrency limit is not saturated. -/
def Hotkey.PerformIsAllowed (id : HotkeyIDType) (s : State) : Bool :=
  match s.hotkeys[id]? with
  | some hk => decide (hk.mExistingThreads < hk.mMaxThreads)
  | none => false

/-- Modelled from the spec: `Hotkey::RunAgainAfterFinished` is not in the source tree; it
marks the trigger to re-fire once more after the current run finishes. -/
def Hotkey.RunAgainAfterFinished (id : HotkeyIDType) (s : State) : State :=
  let f := fun (hk : Hotkey) => { hk with mRunAgainAfterFinished := true }
  { s with hotkeys := modifyHotkey f id s.hotkeys }

/-- Modelled from the spec: `Hotkey::GetTypeOfFirstLine` is not in the source tree. -/
def Hotkey.GetTypeOfFirstLine (id : HotkeyIDType) (s : State) : ActionTypeType :=
  match s.hotkeys[id]? with
  | some hk => hk.mTypeOfFirstLine
  | none => 0

/-- Modelled from the spec: `Hotkey::GetLabel` is not in the source tree. -/
def Hotkey.GetLabel (id : HotkeyIDType) (s : State) : Option LabelRef :=
  (s.hotkeys[id]?).map (fun hk => hk.mLabel)

/-- Modelled from the spec: `Hotkey::GetType` is not in the source tree. -/
def Hotkey.GetType (id : HotkeyIDType) (s : State) : Nat :=
  match s.hotkeys[id]? with
  | some hk => hk.mType
  | none => 0

/-- Modelled from the spec: a trigger's count of running instances goes up by one. -/
def Hotkey.enter (id : HotkeyIDType) (s : State) : State :=
  let f := fun (h : Hotkey) => { h with mExistingThreads := h.mExistingThreads + 1 }
  { s with hotkeys := modifyHotkey f id s.hotkeys }

/-- Modelled from the spec: a trigger's count of running instances goes down by one. -/
def Hotkey.leave (id : HotkeyIDType) (s : State) : State :=
  let f := fun (h : Hotkey) => { h with mExistingThreads := h.mExistingThreads - 1 }
  { s with hotkeys := modifyHotkey f id s.hotkeys }

/-- Modelled from the spec: the pending re-fire of a trigger is taken. -/
def Hotkey.clearRunAgain (id : HotkeyIDType) (s : State) : State :=
  let f := fun (h : Hotkey) => { h with mRunAgainAfterFinished := false }
  { s with hotkeys := modifyHotkey f id s.hotkeys }

/-- Modelled from the spec: whether a re-fire of the trigger is pending. -/
def Hotkey.runAgainPending (id : HotkeyIDType) (s : State) : Bool :=
  match s.hotkeys[id]? with
  | some hk => hk.mRunAgainAfterFinished
  | none => false

/-- Modelled from the spec: `Hotkey::PerformID` is not in the source tree.  The subroutine of
the trigger is run with the trigger's instance count raised; a trigger that was marked
meanwhile is run once more after the current run finishes.  The first argument bounds the
number of runs. -/
def Hotkey.PerformID (exec : LabelRef → State → Run) : Nat → HotkeyIDType → State → Run
  | 0, _, _ => ⟨[], none⟩
  | fuel + 1, id, s =>
    match s.hotkeys[id]? with
    | none => ⟨[], some s⟩
    | some hk =>
      let s1 := Hotkey.enter id s
      let r := exec hk.mLabel s1
      match r.final with
      | none => ⟨s1 :: r.visited, none⟩
      | some s2 =>
        let s3 := Hotkey.leave id s2
        if Hotkey.runAgainPending id s3 then
          let s4 := Hotkey.clearRunAgain id s3
          let again := Hotkey.PerformID exec fuel id s4
          ⟨s1 :: (r.visited ++ s4 :: again.visited), again.final⟩
        else ⟨s1 :: r.visited, some s3⟩

/-- What the body of a subroutine does, as far as the scheduler is concerned: it waits
(any command that sleeps or waits re-enters `MsgSleep`) or it has the timers checked. -/
inductive Stmt
  | MsgSleep (aSleepDuration : Int) (aMode : MessageMode)
  | CheckScriptTimers
deriving DecidableEq, Repr

/-- A loaded script: the body of every label, which action types are always allowed, and how
a context is cleared. -/
structure Script where
  body : LabelRef → List Stmt
  ACT_IS_ALWAYS_ALLOWED : ActionTypeType → Bool
  global_clear_state : global_struct → global_struct

/-- Modelled from the spec: generic dispatch of a message (lines 500-516) reaches the timer
procedures of this file through `WM_TIMER` messages that carry a procedure in `lParam`
(1 for `DialogTimeout`, 2 for `AutoExecSectionTimeout`, 3 for `UninteruptibleTimeout`); any
other message goes to a window and leaves the state alone. -/
def DispatchMessage (env : Env) (msg : MSG) (s : State) : State :=
  if msg.message = MessageKind.WM_TIMER then
    if msg.lParam = 1 then DialogTimeout s
    else if msg.lParam = 2 then AutoExecSectionTimeout env s
    else if msg.lParam = 3 then UninteruptibleTimeout s
    else s
  else s

/-- The collaborators of a loaded script, given the interpreter `exec` for its labels. -/
def scriptEnv (P : Script) (exec : LabelRef → State → Run) (fuel : Nat) : Env :=
  let base : Env :=
    { PerformID := Hotkey.PerformID exec fuel
      ExecUntil := exec
      ExitApp := fun s => s
      DispatchGeneric := fun _ s => s
      GetTypeOfFirstLine := Hotkey.GetTypeOfFirstLine
      ACT_IS_ALWAYS_ALLOWED := P.ACT_IS_ALWAYS_ALLOWED
      PerformIsAllowed := Hotkey.PerformIsAllowed
      RunAgainAfterFinished := Hotkey.RunAgainAfterFinished
      GetLabel := Hotkey.GetLabel
      GetType := Hotkey.GetType
      global_clear_state := P.global_clear_state }
  { base with DispatchGeneric := DispatchMessage base }

/-- One statement of a subroutine body. -/
def ExecStmt (cfg : Config) (env : Env) (fuel : Nat) (st : Stmt) (s : State) : Run :=
  match st with
  | Stmt.MsgSleep d m =>
    let p := MsgSleep cfg env fuel d m s
    ⟨p.visited, p.result.map Prod.snd⟩
  | Stmt.CheckScriptTimers =>
    let t := CheckScriptTimers cfg env fuel s
    ⟨t.visited, t.final⟩

/-- A sequence of statements, run in order. -/
def ExecStmts (cfg : Config) (env : Env) (fuel : Nat) : List Stmt → State → Run
  | [], s => ⟨[], some s⟩
  | st :: rest, s =>
    let r := ExecStmt cfg env fuel st s
    match r.final with
    | none => ⟨r.visited, none⟩
    | some s1 =>
      let q := ExecStmts cfg env fuel rest s1
      ⟨r.visited ++ s1 :: q.visited, q.final⟩

/-- Modelled from the spec: `Line::ExecUntil` is not in the source tree; the body of the
label is run to completion, each of its statements re-entering the scheduler.  The first
argument bounds the depth of nesting. -/
def ExecUntil (cfg : Config) (P : Script) : Nat → LabelRef → State → Run
  | 0, _, _ => ⟨[], none⟩
  | fuel + 1, l, s => ExecStmts cfg (scriptEnv P (ExecUntil cfg P fuel) fuel) fuel (P.body l) s

/-- A script run from the top: the statements `main` with subroutines nested up to depth
`fuel`. -/
def runScript (cfg : Config) (P : Script) (fuel : Nat) (main : List Stmt) (s : State) : Run :=
  ExecStmts cfg (scriptEnv P (ExecUntil cfg P fuel) fuel) fuel main s

/-! ## Sample data -/

/-- Header constants as in the AutoHotkey headers: a poll interval of 10 ms and the reserved
value `INT_MIN + 303` for an unspecified duration. -/
def cfg0 : Config :=
  { SLEEP_INTERVAL := 10, SLEEP_INTERVAL_HALF := 5, INTERVAL_UNSPECIFIED := -2147483345,
    MAX_THREADS_LIMIT := 20, sizeof_ErrorLevel := 4, VK_ESCAPE := 27 }

def g0 : global_struct :=
  { ErrorLevel := [], IsPaused := false, hWndToRestore := 0, settings := [10, 100] }

/-- An idle script with one quasi-thread, a limit of one, no timers, no triggers and nothing
queued. -/
def s0 : State :=
  { g := g0, g_default := g0, g_ErrorLevel := ['0'], g_nThreads := 1, g_nPausedThreads := 0,
    g_MaxThreadsTotal := 1, g_UnpauseWhenResumed := false, g_AllowInterruption := true,
    g_AllowInterruptionForSub := true, g_MainTimerExists := false,
    g_UninterruptibleTimerExists := false, g_AutoExecTimerExists := false,
    g_LastPerformedHotkeyType := 0, g_hWndEdit := 0, g_ClipboardIsOpen := false,
    g_MainWindowIsShown := true, mTimerEnabledCount := 0, mLinesExecutedThisCycle := 0,
    mLastScriptRest := 0, mPriorHotkeyLabel := none, mThisHotkeyLabel := none,
    mPriorHotkeyStartTime := 0, mThisHotkeyStartTime := 0, AutoExecSectionIsRunning := false,
    mFirstTimer := [], hotkeys := [], tickCount := 0, msgQueue := [] }

/-- A script whose labels are all empty; action type 1 is always allowed. -/
def P0 : Script :=
  { body := fun _ => [], ACT_IS_ALWAYS_ALLOWED := fun a => a == 1,
    global_clear_state := fun g => g }

/-- A trigger whose subroutine starts with an always-allowed action. -/
def hk0 : Hotkey :=
  { mLabel := 0, mType := 0, mTypeOfFirstLine := 1, mMaxThreads := 1, mExistingThreads := 0,
    mRunAgainAfterFinished := false }

def msgHotkey0 : MSG := ⟨0, MessageKind.WM_HOTKEY, 0, 0⟩

/-- Collaborators of the script `P0` with subroutines nested up to depth 3. -/
def env0 : Env := scriptEnv P0 (ExecUntil cfg0 P0 3) 3

/-- A subroutine body that overwrites the context and the status text and leaves an un-pause
pending. -/
def clobber (s : State) : State :=
  { s with g := { s.g with settings := [], IsPaused := true },
           g_ErrorLevel := ['x'], g_UnpauseWhenResumed := true }

/-- Collaborators whose trigger subroutine is `clobber`. -/
def envClobber : Env :=
  { env0 with
    PerformID := fun _ s => ⟨[], some (clobber s)⟩
    PerformIsAllowed := fun _ _ => true }

/-- The locals of a call `MsgSleep(-1, RETURN_AFTER_MESSAGES)`. -/
def L0 : Locals := MsgSleep.init cfg0 (-1) MessageMode.RETURN_AFTER_MESSAGES s0


/-- A trigger that is not always allowed, with its own limit saturated as well. -/
def hkBusy : Hotkey :=
  { mLabel := 0, mType := 0, mTypeOfFirstLine := 0, mMaxThreads := 1, mExistingThreads := 1,
    mRunAgainAfterFinished := false }

/-- A suspended thread that is paused, with the status text `abcdef` in `ErrorLevel`, and a
free thread slot. -/
def sPaused : State :=
  { s0 with g := { g0 with IsPaused := true, settings := [7] }, g_ErrorLevel := "abcdef".toList,
            g_MaxThreadsTotal := 10, g_nPausedThreads := 1 }

/-- The events of a loop step that come from handling a message. -/
def PumpEv.fromDispatch : PumpEv → Bool
  | PumpEv.perform _ => true
  | PumpEv.runAgain _ => true
  | _ => false

/-- The events that neither block, nor yield, nor find the queue empty. -/
def PumpEv.quiet : PumpEv → Bool
  | PumpEv.peekFound => true
  | PumpEv.perform _ => true
  | PumpEv.runAgain _ => true
  | _ => false

/-- How the handling of a message may leave the locals: unchanged, or switched to peek mode
with early return allowed; a `return` made there returns `OK`. -/
def Next.fromDispatch (L : Locals) : Next → Prop
  | Next.cont L1 _ =>
    L1 = L ∨ L1 = { L with empty_the_queue_via_peek := true, allow_early_return := true }
  | Next.ret r _ => r = ResultType.OK ∧ L.aSleepDuration > 0
  | Next.hang => True

/-- Whenever the loop is in a state where it peeks, early return is allowed. -/
def Locals.earlyWhenPeeking (L : Locals) : Prop :=
  (L.aSleepDuration ≤ 0 ∨ L.empty_the_queue_via_peek = true) → L.allow_early_return = true

/-- Two timers with periods of 100 ms and 250 ms, both due at tick 500, and a free thread
slot. -/
def sTimers : State :=
  { s0 with g_nThreads := 0, mTimerEnabledCount := 2, tickCount := 500,
            mFirstTimer := [⟨0, 100, 0, 0, true⟩, ⟨1, 250, 0, 0, true⟩] }

/-- The variables the scheduler guards: two states agree on the thread counter, the thread
limit and the timer list. -/
def Frame (s s1 : State) : Prop :=
  s1.g_nThreads = s.g_nThreads ∧ s1.g_MaxThreadsTotal = s.g_MaxThreadsTotal
    ∧ s1.mFirstTimer = s.mFirstTimer

/-- Every state passed through, and the state on return if any, satisfies `I`. -/
def AllStates (I : State → Prop) (visited : List State) (final : Option State) : Prop :=
  (∀ x ∈ visited, I x) ∧ (∀ x, final = some x → I x)

/-- A state predicate that the scheduler's own writes keep: it depends on the guarded
variables only, it survives the rise of `g_nThreads` at an admitted launch and its fall
afterwards, and it survives a write to a timer entry that can be found due. -/
structure SchedulerInvariant (cfg : Config) (alwaysAllowed : ActionTypeType → Bool)
    (I : State → Prop) : Prop where
  frame : ∀ s s1, I s → Frame s s1 → I s1
  riseTimer : ∀ s, I s → s.g_nThreads < s.g_MaxThreadsTotal →
    I { s with g_nThreads := s.g_nThreads + 1 }
  riseHotkey : ∀ s a, I s →
    (s.g_nThreads < s.g_MaxThreadsTotal
      ∨ (alwaysAllowed a = true ∧ s.g_nThreads < cfg.MAX_THREADS_LIMIT)) →
    I { s with g_nThreads := s.g_nThreads + 1 }
  release : ∀ s, I s → I { s with g_nThreads := s.g_nThreads - 1 }
  timer : ∀ s j t, I s → s.mFirstTimer[j]? = some t → t.mExistingThreads < 1 →
    ∀ s1 f, I s1 → I { s1 with mFirstTimer := modifyTimer f j s1.mFirstTimer }

/-- The collaborators keep the predicate `I`. -/
structure EnvKeeps (env : Env) (I : State → Prop) : Prop where
  PerformID : ∀ id s, I s → AllStates I (env.PerformID id s).visited (env.PerformID id s).final
  ExecUntil : ∀ l s, I s → AllStates I (env.ExecUntil l s).visited (env.ExecUntil l s).final
  ExitApp : ∀ s, I s → I (env.ExitApp s)
  DispatchGeneric : ∀ m s, I s → I (env.DispatchGeneric m s)
  RunAgainAfterFinished : ∀ id s, I s → I (env.RunAgainAfterFinished id s)

/-- The state in which a loop step ends, when it ends. -/
def Next.state? : Next → Option State
  | Next.cont _ s => some s
  | Next.ret _ s => some s
  | Next.hang => none

/-- One quasi-thread at a limit of one, an always-allowed trigger registered and its
message queued. -/
def sHot : State := { s0 with hotkeys := [hk0], msgQueue := [OsEvent.post msgHotkey0] }

/-- The run of `MsgSleep(-1)` from `sHot`. -/
def sHotRun : Run :=
  runScript cfg0 P0 3 [Stmt.MsgSleep (-1) MessageMode.RETURN_AFTER_MESSAGES] sHot

/-- A script in which the body of every label waits without sleeping and then has the
timers checked. -/
def P1 : Script :=
  { body := fun _ => [Stmt.MsgSleep (-1) MessageMode.RETURN_AFTER_MESSAGES, Stmt.CheckScriptTimers],
    ACT_IS_ALWAYS_ALLOWED := fun _ => false, global_clear_state := fun g => g }

/-- The state `sTimers` with the message of the grace-window timer queued. -/
def sTimersGrace : State :=
  { sTimers with msgQueue := [OsEvent.post ⟨0, MessageKind.WM_TIMER, 0, 3⟩] }

/-- Nothing is queued at first; a trigger message arrives during the yield.  The thread limit
is reached, so the trigger is dropped. -/
def sYield : State := { s0 with msgQueue := [OsEvent.empty, OsEvent.post msgHotkey0] }

/-- Two due timers while the thread limit is reached. -/
def sTimersFull : State := { sTimers with g_nThreads := 1 }

/-- Collaborators whose `global_clear_state` resets the paused flag of a context. -/
def envClear : Env := { env0 with global_clear_state := fun g => { g with IsPaused := false } }

/-- The startup section is still running, with a paused live context that differs from the
default template. -/
def sStartup : State :=
  { s0 with AutoExecSectionIsRunning := true, g_AutoExecTimerExists := true,
            g_AllowInterruptionForSub := false,
            g := { g0 with IsPaused := true, settings := [42] } }

/-- The startup section has finished; the message of its timer is delivered late. -/
def sStarted : State :=
  { s0 with AutoExecSectionIsRunning := false, g_AutoExecTimerExists := false,
            g := { g0 with settings := [42] } }

/-- The tick counter 2^31 + 200 ms (about 24.9 days) after a start tick of 0. -/
def sLate : State := { s0 with tickCount := 2147483848 }

/-- A paused suspended thread with an un-pause pending. -/
def sUnpause : State := { sPaused with g_UnpauseWhenResumed := true }

/-- Two quasi-threads allowed, one running, and a trigger whose own limit of one is
saturated. -/
def sBusy : State := { s0 with g_MaxThreadsTotal := 2, hotkeys := [hkBusy] }

/-- The collaborators `env` with a check at every start of a timer subroutine: a subroutine
started in a state that fails `ok` is not run and never returns. -/
def Env.checkingStart (ok : State → Bool) (env : Env) : Env :=
  { env with ExecUntil := fun l s => if ok s then env.ExecUntil l s else ⟨[], none⟩ }

/-- Collaborators whose timer subroutines take 200 ms each and change nothing else. -/
def envSlow : Env :=
  { env0 with ExecUntil := fun _ s => ⟨[], some { s with tickCount := s.tickCount + 200 }⟩ }

/-! ## MsgSleep with the calls of `IsCycleComplete` made through a parameter

The definitions below repeat `MsgSleep.resume`, `MsgSleep.hotkey`, `MsgSleep.dispatch`,
`MsgSleep.iteration`, `MsgSleep.loop` and `MsgSleep` with one change: each of the three calls
of `IsCycleComplete` (lines 290, 236 and 436) goes through the parameter `orc`.  With
`IsCycleComplete cfg` for `orc` they are the functions above; a call whose outcome is the same
for every `orc` is one in which `IsCycleComplete` is never called. -/

/-- The type of `IsCycleComplete` once the header constants are given. -/
abbrev Oracle := Int → Nat → Bool → State → ResultType × State

/-- Lines 408-453 with the call of line 436 made through `orc`. -/
def MsgSleep.resumeWith (orc : Oracle) (L : Locals) (global_saved : global_struct)
    (s : State) : Next :=
  if L.aMode = MessageMode.RETURN_AFTER_MESSAGES then
    let s := RESUME_UNDERLYING_THREAD global_saved s
    let r := orc L.aSleepDuration L.start_time L.allow_early_return s
    if r.1 = ResultType.OK then
      Next.cont { L with empty_the_queue_via_peek := true, allow_early_return := true } r.2
    else
      Next.cont L (if L.we_turned_on_main_timer then SET_MAIN_TIMER r.2 else r.2)
  else Next.cont L s

/-- Lines 300-453 with the call of line 436 made through `orc`. -/
def MsgSleep.hotkeyWith (orc : Oracle) (cfg : Config) (env : Env) (L : Locals) (msg : MSG)
    (s : State) : Iter :=
  if MsgSleep.overLimit cfg env msg s then ⟨[], [], Next.cont L s⟩
  else if !env.PerformIsAllowed msg.wParam s then
    ⟨[PumpEv.runAgain msg.wParam], [], Next.cont L (env.RunAgainAfterFinished msg.wParam s)⟩
  else
    let p := MsgSleep.launch cfg env L.aMode msg s
    let r := env.PerformID msg.wParam p.2
    match r.final with
    | none => ⟨[PumpEv.perform msg.wParam], p.2 :: r.visited, Next.hang⟩
    | some s1 =>
      let s2 := MsgSleep.afterPerform env msg s1
      let n := MsgSleep.resumeWith orc L p.1 s2
      ⟨[PumpEv.perform msg.wParam], p.2 :: (r.visited ++ [s2]), n⟩

/-- Lines 254-516 with the calls of lines 290 and 436 made through `orc`. -/
def MsgSleep.dispatchWith (orc : Oracle) (cfg : Config) (env : Env) (fuel : Nat) (L : Locals)
    (msg : MSG) (s : State) : Iter :=
  match msg.message with
  | MessageKind.WM_QUIT => ⟨[], [], Next.cont L (env.ExitApp s)⟩
  | MessageKind.WM_TIMER =>
    if msg.lParam ≠ 0 then ⟨[], [], Next.cont L (env.DispatchGeneric msg s)⟩
    else
      let t := CHECK_SCRIPT_TIMERS_IF_NEEDED cfg env fuel s
      match t.final with
      | none => ⟨[], t.visited, Next.hang⟩
      | some s1 =>
        if L.aMode = MessageMode.WAIT_FOR_MESSAGES then ⟨[], t.visited, Next.cont L s1⟩
        else if L.aSleepDuration ≤ 0 then ⟨[], t.visited, Next.cont L s1⟩
        else
          let r := orc L.aSleepDuration L.start_time L.allow_early_return s1
          if r.1 = ResultType.OK then ⟨[], t.visited, Next.ret ResultType.OK r.2⟩
          else ⟨[], t.visited, Next.cont L r.2⟩
  | MessageKind.WM_HOTKEY => MsgSleep.hotkeyWith orc cfg env L msg s
  | MessageKind.AHK_HOOK_HOTKEY => MsgSleep.hotkeyWith orc cfg env L msg s
  | MessageKind.WM_KEYDOWN =>
    if msg.hwnd = s.g_hWndEdit ∧ msg.wParam = cfg.VK_ESCAPE then
      ⟨[], [], Next.cont L { s with g_MainWindowIsShown := false }⟩
    else ⟨[], [], Next.cont L (env.DispatchGeneric msg s)⟩
  | MessageKind.other _ => ⟨[], [], Next.cont L (env.DispatchGeneric msg s)⟩

/-- Lines 191-517, one pass, with the three calls of `IsCycleComplete` made through `orc`. -/
def MsgSleep.iterationWith (orc : Oracle) (cfg : Config) (env : Env) (fuel : Nat) (L : Locals)
    (s : State) : Iter :=
  if L.aSleepDuration > 0 ∧ L.empty_the_queue_via_peek = false then
    match GetMessage s with
    | none => ⟨[PumpEv.getMessage], [], Next.hang⟩
    | some (none, s1) => ⟨[PumpEv.getMessage], [], Next.cont L s1⟩
    | some (some msg, s1) =>
      let d := MsgSleep.dispatchWith orc cfg env fuel L msg s1
      ⟨PumpEv.getMessage :: d.events, d.visited, d.next⟩
  else
    match PeekMessage s with
    | (none, s1) =>
      if L.aSleepDuration = 0 ∧ L.sleep0_was_done = false then
        ⟨[PumpEv.peekEmpty, PumpEv.sleep0], [], Next.cont { L with sleep0_was_done := true } s1⟩
      else
        let r := orc L.aSleepDuration L.start_time L.allow_early_return s1
        ⟨[PumpEv.peekEmpty], [], Next.ret r.1 r.2⟩
    | (some msg, s1) =>
      let d := MsgSleep.dispatchWith orc cfg env fuel L msg s1
      ⟨PumpEv.peekFound :: d.events, d.visited, d.next⟩

/-- The `for (;;)` of lines 191-517 with `IsCycleComplete` called through `orc`. -/
def MsgSleep.loopWith (orc : Oracle) (cfg : Config) (env : Env) : Nat → Locals → State → Pump
  | 0, _, _ => ⟨[], [], none⟩
  | fuel + 1, L, s =>
    let it := MsgSleep.iterationWith orc cfg env fuel L s
    match it.next with
    | Next.cont L1 s1 =>
      let p := MsgSleep.loopWith orc cfg env fuel L1 s1
      ⟨it.events ++ p.events, it.visited ++ s1 :: p.visited, p.result⟩
    | Next.ret r s1 => ⟨it.events, it.visited ++ [s1], some (r, s1)⟩
    | Next.hang => ⟨it.events, it.visited, none⟩

/-- The function `MsgSleep` (lines 25-518) with `IsCycleComplete` called through `orc`. -/
def MsgSleepWith (orc : Oracle) (cfg : Config) (env : Env) (fuel : Nat) (aSleepDuration : Int)
    (aMode : MessageMode) (s : State) : Pump :=
  let s := CLOSE_CLIPBOARD_IF_OPEN s
  let L := MsgSleep.init cfg aSleepDuration aMode s
  let t := CHECK_SCRIPT_TIMERS_IF_NEEDED cfg env fuel s
  match t.final with
  | none => ⟨[], t.visited, none⟩
  | some s1 =>
    let we_turned_on_main_timer := decide (L.aSleepDuration > 0)
      && decide (aMode = MessageMode.RETURN_AFTER_MESSAGES) && !s1.g_MainTimerExists
    let s2 := if we_turned_on_main_timer then SET_MAIN_TIMER s1 else s1
    let p := MsgSleep.loopWith orc cfg env fuel
      { L with we_turned_on_main_timer := we_turned_on_main_timer } s2
    ⟨p.events, t.visited ++ s2 :: p.visited, p.result⟩

/-- An oracle that answers `OK` at once, whatever the time. -/
def orcAlways : Oracle := fun _ _ _ s => (ResultType.OK, s)

/-- A state with one trigger message, one timer tick and one generic message queued, and a
free thread slot. -/
def sWait : State :=
  { s0 with g_nThreads := 0, hotkeys := [hk0],
            msgQueue := [OsEvent.post msgHotkey0, OsEvent.elapse 50,
              OsEvent.post ⟨0, MessageKind.WM_TIMER, 0, 0⟩,
              OsEvent.post ⟨0, MessageKind.other 7, 0, 0⟩] }

/-- How a loop step of a waiting call goes on: with the same locals, or never. -/
def Next.waits (L : Locals) : Next → Prop
  | Next.cont L1 _ => L1 = L
  | Next.ret _ _ => False
  | Next.hang => True

/-- Header constants with a hard ceiling of two quasi-threads. -/
def cfgTight : Config := { cfg0 with MAX_THREADS_LIMIT := 2 }

/-- A script in which every action type is always allowed and the body of every label pumps
the message queue once without sleeping. -/
def P2 : Script :=
  { body := fun _ => [Stmt.MsgSleep (-1) MessageMode.RETURN_AFTER_MESSAGES],
    ACT_IS_ALWAYS_ALLOWED := fun _ => true, global_clear_state := fun g => g }

/-- One quasi-thread at a configured maximum of one, and three messages queued for a trigger
that allows five instances of itself. -/
def sCeil : State :=
  { s0 with hotkeys := [{ hk0 with mMaxThreads := 5 }],
            msgQueue := [OsEvent.post msgHotkey0, OsEvent.post msgHotkey0,
              OsEvent.post msgHotkey0] }

/-! ## Theorems -/

theorem toInt32_range (x : Int) : -2147483648 ≤ toInt32 x ∧ toInt32 x < 2147483648 := by
  unfold toInt32
  omega

theorem toInt32_modEq (x : Int) : (toInt32 x - x) % 4294967296 = 0 := by
  unfold toInt32
  omega

/-- C7: `IsCycleComplete` answers FAIL exactly when early return is disallowed and the
remaining time, the 32-bit value `(int)(aSleepDuration - (tick_now - aStartTime))`, exceeds
`SLEEP_INTERVAL_HALF`; with early return allowed it answers OK for every duration and start
tick.  The remaining time is the `int` congruent to `aSleepDuration - (tick_now - aStartTime)`
modulo 2^32. -/
theorem IsCycleComplete_FAIL_iff (cfg : Config) (aSleepDuration : Int) (aStartTime : Nat)
    (aAllowEarlyReturn : Bool) (s : State) :
    ((IsCycleComplete cfg aSleepDuration aStartTime aAllowEarlyReturn s).1 = ResultType.FAIL ↔
        (aAllowEarlyReturn = false ∧
          remainingTime aSleepDuration (GetTickCount s) aStartTime > cfg.SLEEP_INTERVAL_HALF))
      ∧ (IsCycleComplete cfg aSleepDuration aStartTime true s).1 = ResultType.OK
      ∧ (remainingTime aSleepDuration (GetTickCount s) aStartTime
            - (aSleepDuration - ((GetTickCount s : Int) - (aStartTime : Int)))) % 4294967296 = 0
      ∧ -2147483648 ≤ remainingTime aSleepDuration (GetTickCount s) aStartTime
      ∧ remainingTime aSleepDuration (GetTickCount s) aStartTime < 2147483648 := by
  refine ⟨?_, ?_, ?_, (toInt32_range _).1, (toInt32_range _).2⟩
  · unfold IsCycleComplete
    by_cases h : remainingTime aSleepDuration (GetTickCount s) aStartTime > cfg.SLEEP_INTERVAL_HALF
    · cases aAllowEarlyReturn <;> simp [h]
    · cases aAllowEarlyReturn <;> simp [h]
  · simp [IsCycleComplete]
  · unfold remainingTime toInt32 toDWORD
    omega

/-- C8: when the runtime is not interruptible, or a quasi-thread is paused, or the thread
limit is reached, `CheckScriptTimers` looks at no timer entry, starts no subroutine and
returns with every variable as it was, for every bound on its loop. -/
theorem CheckScriptTimers_guard (cfg : Config) (env : Env) (fuel : Nat) (s : State)
    (h : INTERRUPTIBLE s = false ∨ s.g_nPausedThreads > 0
      ∨ s.g_nThreads ≥ s.g_MaxThreadsTotal) :
    CheckScriptTimers cfg env fuel s = ⟨[], [], some s⟩ := by
  unfold CheckScriptTimers
  rcases h with h | h | h <;> simp [h]

theorem CheckScriptTimers_guard_witness :
    sTimersFull.g_nThreads ≥ sTimersFull.g_MaxThreadsTotal
    ∧ CheckScriptTimers cfg0 env0 0 sTimersFull = ⟨[], [], some sTimersFull⟩ :=
  ⟨by decide, CheckScriptTimers_guard cfg0 env0 0 sTimersFull (Or.inr (Or.inr (by decide)))⟩

/-- C3: a trigger message handled while `g_nThreads >= g_MaxThreadsTotal`, whose first action
is not always allowed, is dropped.  The loop step does nothing of its own (no subroutine is
performed, no re-fire is requested, whatever the per-trigger check would say) and goes on
with the same locals and the same state, so `g`, `g_nThreads` and the hotkey bookkeeping are
as before. -/
theorem MsgSleep_drops_trigger_at_limit (cfg : Config) (env : Env) (fuel : Nat) (L : Locals)
    (msg : MSG) (s : State)
    (hm : msg.message = MessageKind.WM_HOTKEY ∨ msg.message = MessageKind.AHK_HOOK_HOTKEY)
    (hn : s.g_nThreads ≥ s.g_MaxThreadsTotal)
    (ha : env.ACT_IS_ALWAYS_ALLOWED (env.GetTypeOfFirstLine msg.wParam s) = false) :
    MsgSleep.dispatch cfg env fuel L msg s = ⟨[], [], Next.cont L s⟩ := by
  have ho : MsgSleep.overLimit cfg env msg s = true := by
    simp [MsgSleep.overLimit, hn, ha]
  rcases hm with hm | hm <;> simp [MsgSleep.dispatch, hm, MsgSleep.hotkey, ho]

theorem MsgSleep_drops_trigger_at_limit_witness :
    Hotkey.PerformIsAllowed 0 { s0 with hotkeys := [hkBusy] } = false ∧
      MsgSleep.dispatch cfg0 env0 3 L0 msgHotkey0 { s0 with hotkeys := [hkBusy] }
        = ⟨[], [], Next.cont L0 { s0 with hotkeys := [hkBusy] }⟩ :=
  ⟨by decide,
    MsgSleep_drops_trigger_at_limit cfg0 env0 3 L0 msgHotkey0 _ (Or.inl rfl) (by decide)
      (by decide)⟩

/-! ### Frame lemmas for the small transitions -/

theorem RESUME_UNDERLYING_THREAD_g (saved : global_struct) (s : State) :
    (RESUME_UNDERLYING_THREAD saved s).g
      = { saved with IsPaused := saved.IsPaused && !s.g_UnpauseWhenResumed } := by
  unfold RESUME_UNDERLYING_THREAD
  cases hp : saved.IsPaused <;> cases hu : s.g_UnpauseWhenResumed <;> simp [hp, hu]
  all_goals (cases saved; simp_all)

theorem IsCycleComplete_complete_g (d : Int) (t : Nat) (s : State) :
    (IsCycleComplete.complete d t s).g = s.g := by
  by_cases h1 : d ≥ 0 <;> by_cases h2 : s.mTimerEnabledCount = 0 <;>
    simp [IsCycleComplete.complete, KILL_MAIN_TIMER, h1, h2]

theorem IsCycleComplete_cases (cfg : Config) (d : Int) (t : Nat) (a : Bool) (s : State) :
    IsCycleComplete cfg d t a s = (ResultType.FAIL, s) ∨
      IsCycleComplete cfg d t a s
        = (ResultType.OK, IsCycleComplete.complete d (GetTickCount s) s) := by
  simp only [IsCycleComplete]
  split
  · exact Or.inl rfl
  · exact Or.inr rfl

theorem IsCycleComplete_g (cfg : Config) (d : Int) (t : Nat) (a : Bool) (s : State) :
    (IsCycleComplete cfg d t a s).2.g = s.g := by
  rcases IsCycleComplete_cases cfg d t a s with h | h <;> rw [h]
  exact IsCycleComplete_complete_g _ _ _

theorem MsgSleep_launch_saved (cfg : Config) (env : Env) (msg : MSG) (s : State) :
    (MsgSleep.launch cfg env MessageMode.RETURN_AFTER_MESSAGES msg s).1
      = { s.g with ErrorLevel := strlcpy s.g_ErrorLevel cfg.sizeof_ErrorLevel } := by
  by_cases h : s.mTimerEnabledCount = 0 <;> simp [MsgSleep.launch, h, KILL_MAIN_TIMER]

theorem MsgSleep_afterPerform_unpause (env : Env) (msg : MSG) (s : State) :
    (MsgSleep.afterPerform env msg s).g_UnpauseWhenResumed = s.g_UnpauseWhenResumed := rfl

theorem MsgSleep_resume_g (cfg : Config) (L : Locals) (saved : global_struct) (s : State)
    (hmode : L.aMode = MessageMode.RETURN_AFTER_MESSAGES) :
    ∃ L1 s2, MsgSleep.resume cfg L saved s = Next.cont L1 s2 ∧
      s2.g = { saved with IsPaused := saved.IsPaused && !s.g_UnpauseWhenResumed } := by
  unfold MsgSleep.resume
  simp only [hmode, if_true]
  split
  · exact ⟨_, _, rfl, by rw [IsCycleComplete_g, RESUME_UNDERLYING_THREAD_g]⟩
  · refine ⟨_, _, rfl, ?_⟩
    split
    · show (IsCycleComplete _ _ _ _ _).2.g = _
      rw [IsCycleComplete_g, RESUME_UNDERLYING_THREAD_g]
    · rw [IsCycleComplete_g, RESUME_UNDERLYING_THREAD_g]

/-- C1: a trigger admitted in mode `RETURN_AFTER_MESSAGES` whose subroutine returns, in
whatever state `s1`: the loop step goes on in a state whose `g` is the snapshot taken before
`g` was overwritten with `g_default` (the old `g` with the status text copied into
`ErrorLevel`), in every field except `IsPaused`, which is the snapshot's value unless an
un-pause is pending, when it is false. -/
theorem MsgSleep_restores_context (cfg : Config) (env : Env) (L : Locals) (msg : MSG)
    (s s1 : State)
    (hmode : L.aMode = MessageMode.RETURN_AFTER_MESSAGES)
    (hin : MsgSleep.overLimit cfg env msg s = false)
    (hallow : env.PerformIsAllowed msg.wParam s = true)
    (hret : (env.PerformID msg.wParam (MsgSleep.launch cfg env L.aMode msg s).2).final = some s1) :
    ∃ L1 s2, (MsgSleep.hotkey cfg env L msg s).next = Next.cont L1 s2 ∧
      s2.g = { ErrorLevel := strlcpy s.g_ErrorLevel cfg.sizeof_ErrorLevel
               IsPaused := s.g.IsPaused && !s1.g_UnpauseWhenResumed
               hWndToRestore := s.g.hWndToRestore
               settings := s.g.settings } := by
  unfold MsgSleep.hotkey
  simp only [hin, hallow, hret]
  obtain ⟨L1, s2, h1, h2⟩ := MsgSleep_resume_g cfg L
    (MsgSleep.launch cfg env L.aMode msg s).1 (MsgSleep.afterPerform env msg s1) hmode
  refine ⟨L1, s2, ?_, ?_⟩
  · simpa using h1
  · rw [h2, MsgSleep_afterPerform_unpause, hmode, MsgSleep_launch_saved]

theorem MsgSleep_restores_context_witness :
    ∃ L1 s2, (MsgSleep.hotkey cfg0 envClobber L0 msgHotkey0 sPaused).next = Next.cont L1 s2 ∧
      s2.g = { ErrorLevel := ['a', 'b', 'c'], IsPaused := false, hWndToRestore := 0,
               settings := [7] } :=
  MsgSleep_restores_context cfg0 envClobber L0 msgHotkey0 sPaused
    (clobber (MsgSleep.launch cfg0 envClobber L0.aMode msgHotkey0 sPaused).2)
    rfl (by decide) rfl rfl

/-! ### One loop step of `MsgSleep` -/

theorem MsgSleep_resume_fromDispatch (cfg : Config) (L : Locals) (saved : global_struct)
    (s : State) : Next.fromDispatch L (MsgSleep.resume cfg L saved s) := by
  unfold MsgSleep.resume
  dsimp only
  split_ifs <;> first | exact Or.inl rfl | exact Or.inr rfl

theorem MsgSleep_hotkey_shape (cfg : Config) (env : Env) (L : Locals) (msg : MSG) (s : State) :
    (∀ e ∈ (MsgSleep.hotkey cfg env L msg s).events, e.fromDispatch = true) ∧
      Next.fromDispatch L (MsgSleep.hotkey cfg env L msg s).next := by
  unfold MsgSleep.hotkey
  dsimp only
  split_ifs
  · exact ⟨by simp, Or.inl rfl⟩
  · exact ⟨by simp [PumpEv.fromDispatch], Or.inl rfl⟩
  · split
    · exact ⟨by simp [PumpEv.fromDispatch], trivial⟩
    · exact ⟨by simp [PumpEv.fromDispatch], MsgSleep_resume_fromDispatch _ _ _ _⟩

theorem MsgSleep_timer_shape (cfg : Config) (env : Env) (fuel : Nat) (L : Locals) (msg : MSG)
    (s : State) (hm : msg.message = MessageKind.WM_TIMER) :
    (∀ e ∈ (MsgSleep.dispatch cfg env fuel L msg s).events, e.fromDispatch = true) ∧
      Next.fromDispatch L (MsgSleep.dispatch cfg env fuel L msg s).next := by
  unfold MsgSleep.dispatch
  simp only [hm]
  by_cases h1 : msg.lParam ≠ 0
  · rw [if_pos h1]; exact ⟨by simp, Or.inl rfl⟩
  · rw [if_neg h1]
    cases (CHECK_SCRIPT_TIMERS_IF_NEEDED cfg env fuel s).final with
    | none => exact ⟨by simp, trivial⟩
    | some s1 =>
      dsimp only
      by_cases h2 : L.aMode = MessageMode.WAIT_FOR_MESSAGES
      · rw [if_pos h2]; exact ⟨by simp, Or.inl rfl⟩
      · rw [if_neg h2]
        by_cases h3 : L.aSleepDuration ≤ 0
        · rw [if_pos h3]; exact ⟨by simp, Or.inl rfl⟩
        · rw [if_neg h3]
          split_ifs
          · exact ⟨by simp, rfl, by omega⟩
          · exact ⟨by simp, Or.inl rfl⟩

theorem MsgSleep_dispatch_shape (cfg : Config) (env : Env) (fuel : Nat) (L : Locals) (msg : MSG)
    (s : State) :
    (∀ e ∈ (MsgSleep.dispatch cfg env fuel L msg s).events, e.fromDispatch = true) ∧
      Next.fromDispatch L (MsgSleep.dispatch cfg env fuel L msg s).next := by
  cases hm : msg.message with
  | WM_TIMER => exact MsgSleep_timer_shape cfg env fuel L msg s hm
  | WM_QUIT => simp only [MsgSleep.dispatch, hm]; exact ⟨by simp, Or.inl rfl⟩
  | WM_HOTKEY => simp only [MsgSleep.dispatch, hm]; exact MsgSleep_hotkey_shape _ _ _ _ _
  | AHK_HOOK_HOTKEY => simp only [MsgSleep.dispatch, hm]; exact MsgSleep_hotkey_shape _ _ _ _ _
  | WM_KEYDOWN =>
    simp only [MsgSleep.dispatch, hm]
    split_ifs <;> exact ⟨by simp, Or.inl rfl⟩
  | other c => simp only [MsgSleep.dispatch, hm]; exact ⟨by simp, Or.inl rfl⟩

theorem MsgSleep_iteration_get (cfg : Config) (env : Env) (fuel : Nat) (L : Locals) (s : State)
    (h : L.aSleepDuration > 0 ∧ L.empty_the_queue_via_peek = false) :
    ∃ ev, (MsgSleep.iteration cfg env fuel L s).events = PumpEv.getMessage :: ev ∧
      (∀ e ∈ ev, e.fromDispatch = true) ∧
      Next.fromDispatch L (MsgSleep.iteration cfg env fuel L s).next := by
  unfold MsgSleep.iteration
  rw [if_pos h]
  split
  · exact ⟨[], rfl, by simp, trivial⟩
  · exact ⟨[], rfl, by simp, Or.inl rfl⟩
  · exact ⟨_, rfl, (MsgSleep_dispatch_shape _ _ _ _ _ _).1, (MsgSleep_dispatch_shape _ _ _ _ _ _).2⟩

theorem MsgSleep_iteration_peek (cfg : Config) (env : Env) (fuel : Nat) (L : Locals) (s : State)
    (h : ¬ (L.aSleepDuration > 0 ∧ L.empty_the_queue_via_peek = false)) :
    (∃ ev, (MsgSleep.iteration cfg env fuel L s).events = PumpEv.peekFound :: ev ∧
        (∀ e ∈ ev, e.fromDispatch = true) ∧
        Next.fromDispatch L (MsgSleep.iteration cfg env fuel L s).next)
    ∨ (L.aSleepDuration = 0 ∧ L.sleep0_was_done = false ∧
        (MsgSleep.iteration cfg env fuel L s).events = [PumpEv.peekEmpty, PumpEv.sleep0] ∧
        (MsgSleep.iteration cfg env fuel L s).next
          = Next.cont { L with sleep0_was_done := true } (PeekMessage s).2)
    ∨ (¬ (L.aSleepDuration = 0 ∧ L.sleep0_was_done = false) ∧
        (MsgSleep.iteration cfg env fuel L s).events = [PumpEv.peekEmpty] ∧
        (MsgSleep.iteration cfg env fuel L s).next
          = Next.ret
            (IsCycleComplete cfg L.aSleepDuration L.start_time L.allow_early_return
              (PeekMessage s).2).1
            (IsCycleComplete cfg L.aSleepDuration L.start_time L.allow_early_return
              (PeekMessage s).2).2) := by
  unfold MsgSleep.iteration
  rw [if_neg h]
  split
  · rename_i s1 hp
    by_cases h0 : L.aSleepDuration = 0 ∧ L.sleep0_was_done = false
    · rw [if_pos h0]
      exact Or.inr (Or.inl ⟨h0.1, h0.2, rfl, by rw [hp]⟩)
    · rw [if_neg h0]
      exact Or.inr (Or.inr ⟨h0, rfl, by rw [hp]⟩)
  · exact Or.inl ⟨_, rfl, (MsgSleep_dispatch_shape _ _ _ _ _ _).1,
      (MsgSleep_dispatch_shape _ _ _ _ _ _).2⟩

/-! ### The loop of `MsgSleep` -/

theorem MsgSleep_loop_cont (cfg : Config) (env : Env) (fuel : Nat) (L L1 : Locals)
    (s s1 : State) (h : (MsgSleep.iteration cfg env fuel L s).next = Next.cont L1 s1) :
    (MsgSleep.loop cfg env (fuel + 1) L s).events
        = (MsgSleep.iteration cfg env fuel L s).events ++ (MsgSleep.loop cfg env fuel L1 s1).events
      ∧ (MsgSleep.loop cfg env (fuel + 1) L s).visited
        = (MsgSleep.iteration cfg env fuel L s).visited
            ++ s1 :: (MsgSleep.loop cfg env fuel L1 s1).visited
      ∧ (MsgSleep.loop cfg env (fuel + 1) L s).result
        = (MsgSleep.loop cfg env fuel L1 s1).result := by
  simp only [MsgSleep.loop, h, and_self]

theorem MsgSleep_loop_ret (cfg : Config) (env : Env) (fuel : Nat) (L : Locals)
    (s s1 : State) (r : ResultType)
    (h : (MsgSleep.iteration cfg env fuel L s).next = Next.ret r s1) :
    MsgSleep.loop cfg env (fuel + 1) L s
      = ⟨(MsgSleep.iteration cfg env fuel L s).events,
          (MsgSleep.iteration cfg env fuel L s).visited ++ [s1], some (r, s1)⟩ := by
  simp only [MsgSleep.loop, h]

theorem MsgSleep_loop_hang (cfg : Config) (env : Env) (fuel : Nat) (L : Locals) (s : State)
    (h : (MsgSleep.iteration cfg env fuel L s).next = Next.hang) :
    MsgSleep.loop cfg env (fuel + 1) L s
      = ⟨(MsgSleep.iteration cfg env fuel L s).events,
          (MsgSleep.iteration cfg env fuel L s).visited, none⟩ := by
  simp only [MsgSleep.loop, h]

theorem quiet_of_fromDispatch (ev : List PumpEv) (h : ∀ e ∈ ev, e.fromDispatch = true) :
    ∀ e ∈ ev, e.quiet = true := by
  intro e he
  have := h e he
  cases e <;> simp_all [PumpEv.fromDispatch, PumpEv.quiet]

/-- Once the duration is negative, or zero with the yield done, the loop only peeks: its
events are quiet ones, closed by the empty check at which it returns. -/
theorem MsgSleep_loop_drain (cfg : Config) (env : Env) :
    ∀ (fuel : Nat) (L : Locals) (s : State),
      L.aSleepDuration ≤ 0 → ¬ (L.aSleepDuration = 0 ∧ L.sleep0_was_done = false) →
      ∃ front, (∀ e ∈ front, e.quiet = true) ∧
        (((MsgSleep.loop cfg env fuel L s).events = front
            ∧ (MsgSleep.loop cfg env fuel L s).result = none)
          ∨ ((MsgSleep.loop cfg env fuel L s).events = front ++ [PumpEv.peekEmpty]
            ∧ ∃ r, (MsgSleep.loop cfg env fuel L s).result = some r)) := by
  intro fuel
  induction fuel with
  | zero =>
    intro L s _ _
    exact ⟨[], by simp, Or.inl ⟨rfl, rfl⟩⟩
  | succ n ih =>
    intro L s hd hs
    have hpeek : ¬ (L.aSleepDuration > 0 ∧ L.empty_the_queue_via_peek = false) := by
      intro h; omega
    rcases MsgSleep_iteration_peek cfg env n L s hpeek with
      ⟨ev, hev, hq, hn⟩ | ⟨h0, h1, _, _⟩ | ⟨_, hev, hn⟩
    · cases hnx : (MsgSleep.iteration cfg env n L s).next with
      | cont L1 s1 =>
        rw [hnx] at hn
        have hL1 : L1.aSleepDuration ≤ 0
            ∧ ¬ (L1.aSleepDuration = 0 ∧ L1.sleep0_was_done = false) := by
          rcases hn with h | h <;> subst h
          · exact ⟨hd, hs⟩
          · exact ⟨hd, hs⟩
        obtain ⟨front, hf, hcase⟩ := ih L1 s1 hL1.1 hL1.2
        obtain ⟨he, _, hr⟩ := MsgSleep_loop_cont cfg env n L L1 s s1 hnx
        refine ⟨PumpEv.peekFound :: ev ++ front, ?_, ?_⟩
        · intro e he'
          simp only [List.cons_append, List.mem_cons, List.mem_append] at he'
          rcases he' with h | h | h
          · subst h; rfl
          · exact quiet_of_fromDispatch ev hq e h
          · exact hf e h
        · rw [he, hr, hev]
          rcases hcase with ⟨h1, h2⟩ | ⟨h1, h2⟩
          · exact Or.inl ⟨by rw [h1], h2⟩
          · exact Or.inr ⟨by rw [h1]; simp, h2⟩
      | ret r s1 =>
        rw [hnx] at hn
        exact absurd hn.2 (by omega)
      | hang =>
        rw [MsgSleep_loop_hang cfg env n L s hnx]
        refine ⟨PumpEv.peekFound :: ev, ?_, Or.inl ⟨hev, rfl⟩⟩
        intro e he'
        simp only [List.mem_cons] at he'
        rcases he' with h | h
        · subst h; rfl
        · exact quiet_of_fromDispatch ev hq e h
    · exact absurd ⟨h0, h1⟩ hs
    · rw [MsgSleep_loop_ret cfg env n L s _ _ hn]
      exact ⟨[], by simp, Or.inr ⟨by simpa using hev, _, rfl⟩⟩

theorem IsCycleComplete_OK_of_allow (cfg : Config) (d : Int) (t : Nat) (s : State) :
    (IsCycleComplete cfg d t true s).1 = ResultType.OK := by
  simp [IsCycleComplete]

theorem earlyWhenPeeking_fromDispatch (L L1 : Locals) (s1 : State) (h : L.earlyWhenPeeking)
    (hn : Next.fromDispatch L (Next.cont L1 s1)) : L1.earlyWhenPeeking := by
  rcases hn with h1 | h1 <;> subst h1
  · exact h
  · intro _; rfl

theorem MsgSleep_loop_OK (cfg : Config) (env : Env) :
    ∀ (fuel : Nat) (L : Locals) (s : State), L.earlyWhenPeeking →
      ∀ r s1, (MsgSleep.loop cfg env fuel L s).result = some (r, s1) → r = ResultType.OK := by
  intro fuel
  induction fuel with
  | zero => intro L s _ r s1 h; simp [MsgSleep.loop] at h
  | succ n ih =>
    intro L s hL r s1 hres
    have key : ∀ (hfd : Next.fromDispatch L (MsgSleep.iteration cfg env n L s).next),
        r = ResultType.OK := by
      intro hfd
      cases hnx : (MsgSleep.iteration cfg env n L s).next with
      | cont L1 s2 =>
        rw [hnx] at hfd
        rw [(MsgSleep_loop_cont cfg env n L L1 s s2 hnx).2.2] at hres
        exact ih L1 s2 (earlyWhenPeeking_fromDispatch L L1 s2 hL hfd) r s1 hres
      | ret r2 s2 =>
        rw [hnx] at hfd
        rw [MsgSleep_loop_ret cfg env n L s s2 r2 hnx] at hres
        simp only [Option.some.injEq, Prod.mk.injEq] at hres
        rw [← hres.1]; exact hfd.1
      | hang =>
        rw [MsgSleep_loop_hang cfg env n L s hnx] at hres
        simp at hres
    by_cases hg : L.aSleepDuration > 0 ∧ L.empty_the_queue_via_peek = false
    · obtain ⟨_, _, _, hn⟩ := MsgSleep_iteration_get cfg env n L s hg
      exact key hn
    · rcases MsgSleep_iteration_peek cfg env n L s hg with
        ⟨_, _, _, hn⟩ | ⟨_, _, _, hn⟩ | ⟨_, _, hn⟩
      · exact key hn
      · rw [(MsgSleep_loop_cont cfg env n L _ s _ hn).2.2] at hres
        exact ih _ _ (by intro h; exact hL h) r s1 hres
      · rw [MsgSleep_loop_ret cfg env n L s _ _ hn] at hres
        simp only [Option.some.injEq, Prod.mk.injEq] at hres
        have ha : L.allow_early_return = true := by
          apply hL
          by_cases h1 : L.aSleepDuration ≤ 0
          · exact Or.inl h1
          · right
            by_contra h2
            exact hg ⟨by omega, by simpa using h2⟩
        rw [← hres.1, ha]
        exact IsCycleComplete_OK_of_allow _ _ _ _

/-! ### The whole call -/

theorem MsgSleep_entry (cfg : Config) (env : Env) (fuel : Nat) (d : Int) (m : MessageMode)
    (s : State) :
    ((MsgSleep cfg env fuel d m s).events = [] ∧ (MsgSleep cfg env fuel d m s).result = none)
    ∨ ∃ L s2,
      (MsgSleep cfg env fuel d m s).events = (MsgSleep.loop cfg env fuel L s2).events
      ∧ (MsgSleep cfg env fuel d m s).result = (MsgSleep.loop cfg env fuel L s2).result
      ∧ L.aSleepDuration = (MsgSleep.init cfg d m (CLOSE_CLIPBOARD_IF_OPEN s)).aSleepDuration
      ∧ L.allow_early_return
          = (MsgSleep.init cfg d m (CLOSE_CLIPBOARD_IF_OPEN s)).allow_early_return
      ∧ L.sleep0_was_done = false ∧ L.empty_the_queue_via_peek = false ∧ L.aMode = m := by
  unfold MsgSleep
  dsimp only
  split
  · exact Or.inl ⟨rfl, rfl⟩
  · exact Or.inr ⟨_, _, rfl, rfl, rfl, rfl, rfl, rfl, rfl⟩

theorem MsgSleep_init_specified (cfg : Config) (d : Int) (m : MessageMode) (s : State)
    (h : d ≠ cfg.INTERVAL_UNSPECIFIED) :
    (MsgSleep.init cfg d m s).aSleepDuration = d
      ∧ (MsgSleep.init cfg d m s).allow_early_return
          = decide (d ≤ cfg.SLEEP_INTERVAL_HALF) := by
  simp [MsgSleep.init, h]

theorem MsgSleep_init_early (cfg : Config) (d : Int) (m : MessageMode) (s : State)
    (h : 0 ≤ cfg.SLEEP_INTERVAL_HALF) :
    (MsgSleep.init cfg d m s).aSleepDuration ≤ 0 →
      (MsgSleep.init cfg d m s).allow_early_return = true := by
  unfold MsgSleep.init
  by_cases hu : d = cfg.INTERVAL_UNSPECIFIED
  · simp [hu]
  · simp only [hu, if_false, decide_eq_true_eq]
    intro hc
    omega

/-- C6: with `SLEEP_INTERVAL_HALF >= 0`, a call of `MsgSleep` that returns, for whatever
duration, mode, collaborators and events, returns `OK`. -/
theorem MsgSleep_returns_OK (cfg : Config) (env : Env) (fuel : Nat) (aSleepDuration : Int)
    (aMode : MessageMode) (s : State) (hhalf : 0 ≤ cfg.SLEEP_INTERVAL_HALF)
    (hret : (MsgSleep cfg env fuel aSleepDuration aMode s).result.isSome = true) :
    (MsgSleep cfg env fuel aSleepDuration aMode s).result.map Prod.fst
      = some ResultType.OK := by
  rcases MsgSleep_entry cfg env fuel aSleepDuration aMode s with
    ⟨_, h⟩ | ⟨L, s2, _, h, hd, ha, _, hp, _⟩
  · rw [h] at hret; simp at hret
  · rw [h] at hret ⊢
    have hL : L.earlyWhenPeeking := by
      intro hc
      rcases hc with hc | hc
      · rw [ha]; exact MsgSleep_init_early cfg _ _ _ hhalf (by rw [← hd]; exact hc)
      · rw [hp] at hc; simp at hc
    cases hr : (MsgSleep.loop cfg env fuel L s2).result with
    | none => rw [hr] at hret; simp at hret
    | some p =>
      obtain ⟨r, s1⟩ := p
      have := MsgSleep_loop_OK cfg env fuel L s2 hL r s1 hr
      simp [this]

theorem MsgSleep_returns_OK_witness :
    (MsgSleep cfg0 env0 3 100 MessageMode.RETURN_AFTER_MESSAGES
        { s0 with msgQueue := [OsEvent.elapse 120, OsEvent.post ⟨0, MessageKind.WM_TIMER, 0, 0⟩] }
      ).result.isSome = true
    ∧ (MsgSleep cfg0 env0 3 100 MessageMode.RETURN_AFTER_MESSAGES
        { s0 with msgQueue := [OsEvent.elapse 120, OsEvent.post ⟨0, MessageKind.WM_TIMER, 0, 0⟩] }
      ).result.map Prod.fst = some ResultType.OK :=
  ⟨by decide,
    MsgSleep_returns_OK cfg0 env0 3 100 MessageMode.RETURN_AFTER_MESSAGES _ (by decide)
      (by decide)⟩

theorem not_mem_of_quiet (front : List PumpEv) (h : ∀ e ∈ front, e.quiet = true) :
    PumpEv.getMessage ∉ front ∧ PumpEv.sleep0 ∉ front ∧ PumpEv.peekEmpty ∉ front := by
  refine ⟨?_, ?_, ?_⟩ <;> intro hm <;> have := h _ hm <;> simp [PumpEv.quiet] at this

/-- C4 as stated fails for the reserved duration: with the header constants `cfg0`, the
negative value `INTERVAL_UNSPECIFIED` passed as duration makes the call wait in
`GetMessage`; on an empty queue it never returns. -/
theorem MsgSleep_unspecified_blocks :
    cfg0.INTERVAL_UNSPECIFIED < 0
    ∧ (MsgSleep cfg0 env0 3 cfg0.INTERVAL_UNSPECIFIED MessageMode.RETURN_AFTER_MESSAGES s0).events
        = [PumpEv.getMessage]
    ∧ (MsgSleep cfg0 env0 3 cfg0.INTERVAL_UNSPECIFIED MessageMode.RETURN_AFTER_MESSAGES s0).result
        = none := by
  decide

/-- C4 (amended): for every duration below zero other than the reserved value
`INTERVAL_UNSPECIFIED`, in either mode and for every queue, the call never uses
`GetMessage` and never does `Sleep(0)`; its events are non-blocking checks that found a
message (with their handling), closed by the first check that finds the queue empty, at
which the call returns. -/
theorem MsgSleep_negative_never_blocks (cfg : Config) (env : Env) (fuel : Nat)
    (aSleepDuration : Int) (aMode : MessageMode) (s : State)
    (hneg : aSleepDuration < 0) (hspec : aSleepDuration ≠ cfg.INTERVAL_UNSPECIFIED) :
    PumpEv.getMessage ∉ (MsgSleep cfg env fuel aSleepDuration aMode s).events
    ∧ PumpEv.sleep0 ∉ (MsgSleep cfg env fuel aSleepDuration aMode s).events
    ∧ ∃ front, PumpEv.peekEmpty ∉ front ∧
        (((MsgSleep cfg env fuel aSleepDuration aMode s).events = front
            ∧ (MsgSleep cfg env fuel aSleepDuration aMode s).result = none)
          ∨ ((MsgSleep cfg env fuel aSleepDuration aMode s).events = front ++ [PumpEv.peekEmpty]
            ∧ ∃ r, (MsgSleep cfg env fuel aSleepDuration aMode s).result = some r)) := by
  rcases MsgSleep_entry cfg env fuel aSleepDuration aMode s with
    ⟨he, hr⟩ | ⟨L, s2, he, hr, hd, _, _, _, _⟩
  · rw [he, hr]
    exact ⟨by simp, by simp, [], by simp, Or.inl ⟨rfl, rfl⟩⟩
  · rw [(MsgSleep_init_specified cfg aSleepDuration aMode _ hspec).1] at hd
    obtain ⟨front, hq, hcase⟩ := MsgSleep_loop_drain cfg env fuel L s2
      (by rw [hd]; omega) (by intro h; rw [hd] at h; omega)
    obtain ⟨hg, hsl, hpe⟩ := not_mem_of_quiet front hq
    rw [he, hr]
    rcases hcase with ⟨h1, h2⟩ | ⟨h1, h2⟩
    · rw [h1]
      exact ⟨hg, hsl, front, hpe, Or.inl ⟨rfl, h2⟩⟩
    · rw [h1]
      refine ⟨?_, ?_, front, hpe, Or.inr ⟨rfl, h2⟩⟩
      · simpa using hg
      · simpa using hsl

theorem MsgSleep_negative_never_blocks_witness :
    PumpEv.getMessage ∉ (MsgSleep cfg0 env0 3 (-1) MessageMode.WAIT_FOR_MESSAGES
        { s0 with msgQueue := [OsEvent.post msgHotkey0] }).events
    ∧ PumpEv.sleep0 ∉ (MsgSleep cfg0 env0 3 (-1) MessageMode.WAIT_FOR_MESSAGES
        { s0 with msgQueue := [OsEvent.post msgHotkey0] }).events
    ∧ ∃ front, PumpEv.peekEmpty ∉ front ∧
        (((MsgSleep cfg0 env0 3 (-1) MessageMode.WAIT_FOR_MESSAGES
              { s0 with msgQueue := [OsEvent.post msgHotkey0] }).events = front
            ∧ (MsgSleep cfg0 env0 3 (-1) MessageMode.WAIT_FOR_MESSAGES
              { s0 with msgQueue := [OsEvent.post msgHotkey0] }).result = none)
          ∨ ((MsgSleep cfg0 env0 3 (-1) MessageMode.WAIT_FOR_MESSAGES
              { s0 with msgQueue := [OsEvent.post msgHotkey0] }).events
                = front ++ [PumpEv.peekEmpty]
            ∧ ∃ r, (MsgSleep cfg0 env0 3 (-1) MessageMode.WAIT_FOR_MESSAGES
              { s0 with msgQueue := [OsEvent.post msgHotkey0] }).result = some r)) :=
  MsgSleep_negative_never_blocks cfg0 env0 3 (-1) MessageMode.WAIT_FOR_MESSAGES _
    (by decide) (by decide)

/-- With a duration of zero and the yield not yet done, the loop peeks, yields once at the
first empty check and then drains. -/
theorem MsgSleep_loop_zero (cfg : Config) (env : Env) :
    ∀ (fuel : Nat) (L : Locals) (s : State),
      L.aSleepDuration = 0 → L.sleep0_was_done = false →
      ∃ f1 f2, (∀ e ∈ f1, e.quiet = true) ∧ (∀ e ∈ f2, e.quiet = true) ∧
        (((MsgSleep.loop cfg env fuel L s).events = f1
            ∧ (MsgSleep.loop cfg env fuel L s).result = none)
          ∨ ((MsgSleep.loop cfg env fuel L s).events
                = f1 ++ [PumpEv.peekEmpty, PumpEv.sleep0] ++ f2
            ∧ (MsgSleep.loop cfg env fuel L s).result = none)
          ∨ ((MsgSleep.loop cfg env fuel L s).events
                = f1 ++ [PumpEv.peekEmpty, PumpEv.sleep0] ++ f2 ++ [PumpEv.peekEmpty]
            ∧ ∃ r, (MsgSleep.loop cfg env fuel L s).result = some r)) := by
  intro fuel
  induction fuel with
  | zero =>
    intro L s _ _
    exact ⟨[], [], by simp, by simp, Or.inl ⟨rfl, rfl⟩⟩
  | succ n ih =>
    intro L s hd hs
    have hpeek : ¬ (L.aSleepDuration > 0 ∧ L.empty_the_queue_via_peek = false) := by
      intro h; omega
    rcases MsgSleep_iteration_peek cfg env n L s hpeek with
      ⟨ev, hev, hq, hn⟩ | ⟨_, _, hev, hn⟩ | ⟨h0, _, _⟩
    · have hq1 : ∀ e ∈ PumpEv.peekFound :: ev, e.quiet = true := by
        intro e he'
        simp only [List.mem_cons] at he'
        rcases he' with h | h
        · subst h; rfl
        · exact quiet_of_fromDispatch ev hq e h
      cases hnx : (MsgSleep.iteration cfg env n L s).next with
      | cont L1 s1 =>
        rw [hnx] at hn
        have hL1 : L1.aSleepDuration = 0 ∧ L1.sleep0_was_done = false := by
          rcases hn with h | h <;> subst h
          · exact ⟨hd, hs⟩
          · exact ⟨hd, hs⟩
        obtain ⟨f1, f2, hf1, hf2, hcase⟩ := ih L1 s1 hL1.1 hL1.2
        obtain ⟨he, _, hr⟩ := MsgSleep_loop_cont cfg env n L L1 s s1 hnx
        refine ⟨(PumpEv.peekFound :: ev) ++ f1, f2, ?_, hf2, ?_⟩
        · intro e he'
          rcases List.mem_append.1 he' with h | h
          · exact hq1 e h
          · exact hf1 e h
        · rw [he, hr, hev]
          rcases hcase with ⟨h1, h2⟩ | ⟨h1, h2⟩ | ⟨h1, h2⟩
          · exact Or.inl ⟨by rw [h1], h2⟩
          · exact Or.inr (Or.inl ⟨by rw [h1]; simp, h2⟩)
          · exact Or.inr (Or.inr ⟨by rw [h1]; simp, h2⟩)
      | ret r s1 =>
        rw [hnx] at hn
        exact absurd hn.2 (by omega)
      | hang =>
        rw [MsgSleep_loop_hang cfg env n L s hnx]
        exact ⟨PumpEv.peekFound :: ev, [], hq1, by simp, Or.inl ⟨hev, rfl⟩⟩
    · obtain ⟨he, _, hr⟩ := MsgSleep_loop_cont cfg env n L _ s _ hn
      obtain ⟨front, hf, hcase⟩ := MsgSleep_loop_drain cfg env n
        { L with sleep0_was_done := true } (PeekMessage s).2 (by show L.aSleepDuration ≤ 0; omega)
        (by intro h; exact absurd h.2 (by simp))
      refine ⟨[], front, by simp, hf, ?_⟩
      rw [he, hr, hev]
      rcases hcase with ⟨h1, h2⟩ | ⟨h1, h2⟩
      · exact Or.inr (Or.inl ⟨by rw [h1]; simp, h2⟩)
      · exact Or.inr (Or.inr ⟨by rw [h1]; simp, h2⟩)
    · exact absurd ⟨hd, hs⟩ h0

theorem count_of_fromDispatch (ev : List PumpEv) (h : ∀ e ∈ ev, e.fromDispatch = true) :
    ev.count PumpEv.sleep0 = 0 ∧ ev.count PumpEv.peekEmpty = 0 := by
  constructor <;> apply List.count_eq_zero_of_not_mem <;> intro hm <;>
    have := h _ hm <;> simp [PumpEv.fromDispatch] at this

/-- For every state of the locals: the loop yields at most once, and only with a duration of
zero and the yield not yet done; it finds the queue empty at most once more than it yields,
and when it does it returns. -/
theorem MsgSleep_loop_counts (cfg : Config) (env : Env) :
    ∀ (fuel : Nat) (L : Locals) (s : State),
      (MsgSleep.loop cfg env fuel L s).events.count PumpEv.sleep0
          ≤ (if L.aSleepDuration = 0 ∧ L.sleep0_was_done = false then 1 else 0)
      ∧ (MsgSleep.loop cfg env fuel L s).events.count PumpEv.peekEmpty
          ≤ (MsgSleep.loop cfg env fuel L s).events.count PumpEv.sleep0 + 1
      ∧ ((MsgSleep.loop cfg env fuel L s).events.count PumpEv.peekEmpty
            = (MsgSleep.loop cfg env fuel L s).events.count PumpEv.sleep0 + 1 →
          ∃ r, (MsgSleep.loop cfg env fuel L s).result = some r) := by
  intro fuel
  induction fuel with
  | zero => intro L s; simp [MsgSleep.loop]
  | succ n ih =>
    intro L s
    have key : ∀ (c : PumpEv) (ev : List PumpEv),
        (MsgSleep.iteration cfg env n L s).events = c :: ev →
        c ≠ PumpEv.sleep0 → c ≠ PumpEv.peekEmpty →
        (∀ e ∈ ev, e.fromDispatch = true) →
        Next.fromDispatch L (MsgSleep.iteration cfg env n L s).next →
        (MsgSleep.loop cfg env (n + 1) L s).events.count PumpEv.sleep0
            ≤ (if L.aSleepDuration = 0 ∧ L.sleep0_was_done = false then 1 else 0)
        ∧ (MsgSleep.loop cfg env (n + 1) L s).events.count PumpEv.peekEmpty
            ≤ (MsgSleep.loop cfg env (n + 1) L s).events.count PumpEv.sleep0 + 1
        ∧ ((MsgSleep.loop cfg env (n + 1) L s).events.count PumpEv.peekEmpty
              = (MsgSleep.loop cfg env (n + 1) L s).events.count PumpEv.sleep0 + 1 →
            ∃ r, (MsgSleep.loop cfg env (n + 1) L s).result = some r) := by
      intro c ev hev hc1 hc2 hq hn
      obtain ⟨z1, z2⟩ := count_of_fromDispatch ev hq
      have y1 : (c :: ev).count PumpEv.sleep0 = 0 := by
        rw [List.count_cons_of_ne (Ne.symm hc1)]; exact z1
      have y2 : (c :: ev).count PumpEv.peekEmpty = 0 := by
        rw [List.count_cons_of_ne (Ne.symm hc2)]; exact z2
      cases hnx : (MsgSleep.iteration cfg env n L s).next with
      | cont L1 s1 =>
        rw [hnx] at hn
        obtain ⟨he, _, hr⟩ := MsgSleep_loop_cont cfg env n L L1 s s1 hnx
        have hsame : (if L1.aSleepDuration = 0 ∧ L1.sleep0_was_done = false then 1 else 0)
            = (if L.aSleepDuration = 0 ∧ L.sleep0_was_done = false then 1 else 0) := by
          rcases hn with h | h <;> subst h <;> rfl
        obtain ⟨a1, a2, a3⟩ := ih L1 s1
        rw [he, hr, hev, List.count_append, List.count_append, y1, y2, Nat.zero_add,
          Nat.zero_add, ← hsame]
        exact ⟨a1, a2, a3⟩
      | ret r s1 =>
        rw [MsgSleep_loop_ret cfg env n L s s1 r hnx, hev, y1, y2]
        exact ⟨Nat.zero_le _, Nat.zero_le _, fun h => absurd h (by omega)⟩
      | hang =>
        rw [MsgSleep_loop_hang cfg env n L s hnx, hev, y1, y2]
        exact ⟨Nat.zero_le _, Nat.zero_le _, fun h => absurd h (by omega)⟩
    by_cases hg : L.aSleepDuration > 0 ∧ L.empty_the_queue_via_peek = false
    · obtain ⟨ev, hev, hq, hn⟩ := MsgSleep_iteration_get cfg env n L s hg
      exact key _ ev hev (by simp) (by simp) hq hn
    · rcases MsgSleep_iteration_peek cfg env n L s hg with
        ⟨ev, hev, hq, hn⟩ | ⟨h0, h1, hev, hn⟩ | ⟨h0, hev, hn⟩
      · exact key _ ev hev (by simp) (by simp) hq hn
      · obtain ⟨he, _, hr⟩ := MsgSleep_loop_cont cfg env n L _ s _ hn
        obtain ⟨a1, a2, a3⟩ := ih { L with sleep0_was_done := true } (PeekMessage s).2
        have hz : (if ({ L with sleep0_was_done := true } : Locals).aSleepDuration = 0
            ∧ ({ L with sleep0_was_done := true } : Locals).sleep0_was_done = false
            then 1 else 0) = 0 := by simp
        rw [hz] at a1
        rw [he, hr, hev, List.count_append, List.count_append, if_pos ⟨h0, h1⟩]
        have e1 : [PumpEv.peekEmpty, PumpEv.sleep0].count PumpEv.sleep0 = 1 := by decide
        have e2 : [PumpEv.peekEmpty, PumpEv.sleep0].count PumpEv.peekEmpty = 1 := by decide
        rw [e1, e2]
        refine ⟨by omega, by omega, ?_⟩
        intro h
        exact a3 (by omega)
      · rw [MsgSleep_loop_ret cfg env n L s _ _ hn, hev]
        have e1 : [PumpEv.peekEmpty].count PumpEv.sleep0 = 0 := by decide
        have e2 : [PumpEv.peekEmpty].count PumpEv.peekEmpty = 1 := by decide
        rw [e1, e2]
        exact ⟨Nat.zero_le _, le_refl _, fun _ => ⟨_, rfl⟩⟩

/-- C5: a call of `MsgSleep` with a duration of zero does `Sleep(0)` at most once, and the
non-blocking check finds the queue empty at most twice; at the second time the call returns.
When the reserved value `INTERVAL_UNSPECIFIED` is not zero, the events of the call are: checks
that found a message, then an empty check followed by the single `Sleep(0)`, then again
checks that found a message, closed by the second empty check, at which the call returns. -/
theorem MsgSleep_zero_yields_once (cfg : Config) (env : Env) (fuel : Nat) (aMode : MessageMode)
    (s : State) :
    (MsgSleep cfg env fuel 0 aMode s).events.count PumpEv.sleep0 ≤ 1
    ∧ (MsgSleep cfg env fuel 0 aMode s).events.count PumpEv.peekEmpty ≤ 2
    ∧ ((MsgSleep cfg env fuel 0 aMode s).events.count PumpEv.peekEmpty = 2 →
        ∃ r, (MsgSleep cfg env fuel 0 aMode s).result = some r)
    ∧ (cfg.INTERVAL_UNSPECIFIED ≠ 0 →
      ∃ f1 f2, (PumpEv.peekEmpty ∉ f1 ∧ PumpEv.sleep0 ∉ f1) ∧
        (PumpEv.peekEmpty ∉ f2 ∧ PumpEv.sleep0 ∉ f2) ∧
        (((MsgSleep cfg env fuel 0 aMode s).events = f1
            ∧ (MsgSleep cfg env fuel 0 aMode s).result = none)
          ∨ ((MsgSleep cfg env fuel 0 aMode s).events
                = f1 ++ [PumpEv.peekEmpty, PumpEv.sleep0] ++ f2
            ∧ (MsgSleep cfg env fuel 0 aMode s).result = none)
          ∨ ((MsgSleep cfg env fuel 0 aMode s).events
                = f1 ++ [PumpEv.peekEmpty, PumpEv.sleep0] ++ f2 ++ [PumpEv.peekEmpty]
            ∧ ∃ r, (MsgSleep cfg env fuel 0 aMode s).result = some r))) := by
  rcases MsgSleep_entry cfg env fuel 0 aMode s with
    ⟨he, hr⟩ | ⟨L, s2, he, hr, hd, _, hs0, _, _⟩
  · rw [he, hr]
    refine ⟨by simp, by simp, by simp, ?_⟩
    intro _
    exact ⟨[], [], by simp, by simp, Or.inl ⟨rfl, rfl⟩⟩
  · obtain ⟨a1, a2, a3⟩ := MsgSleep_loop_counts cfg env fuel L s2
    have hle : (MsgSleep.loop cfg env fuel L s2).events.count PumpEv.sleep0 ≤ 1 := by
      refine le_trans a1 ?_
      split <;> omega
    rw [he, hr]
    refine ⟨hle, by omega, ?_, ?_⟩
    · intro h2
      exact a3 (by omega)
    · intro hspec
      rw [(MsgSleep_init_specified cfg 0 aMode _ (fun h => hspec h.symm)).1] at hd
      obtain ⟨f1, f2, hq1, hq2, hcase⟩ := MsgSleep_loop_zero cfg env fuel L s2 hd hs0
      obtain ⟨_, hs1, hp1⟩ := not_mem_of_quiet f1 hq1
      obtain ⟨_, hs2, hp2⟩ := not_mem_of_quiet f2 hq2
      exact ⟨f1, f2, ⟨hp1, hs1⟩, ⟨hp2, hs2⟩, hcase⟩

/-- An instance of C5: the queue is empty at the first check and holds a trigger message at
the check after the yield. -/
theorem MsgSleep_zero_yields_once_witness :
    (MsgSleep cfg0 env0 3 0 MessageMode.RETURN_AFTER_MESSAGES sYield).events
      = [PumpEv.peekEmpty, PumpEv.sleep0, PumpEv.peekFound, PumpEv.peekEmpty]
    ∧ (MsgSleep cfg0 env0 3 0 MessageMode.RETURN_AFTER_MESSAGES sYield).events.count
        PumpEv.sleep0 ≤ 1
    ∧ ((MsgSleep cfg0 env0 3 0 MessageMode.RETURN_AFTER_MESSAGES sYield).events.count
          PumpEv.peekEmpty = 2 →
        ∃ r, (MsgSleep cfg0 env0 3 0 MessageMode.RETURN_AFTER_MESSAGES sYield).result = some r) :=
  ⟨by decide,
    (MsgSleep_zero_yields_once cfg0 env0 3 MessageMode.RETURN_AFTER_MESSAGES sYield).1,
    (MsgSleep_zero_yields_once cfg0 env0 3 MessageMode.RETURN_AFTER_MESSAGES sYield).2.2.1⟩

/-! ### The loop of `CheckScriptTimers` -/

theorem CheckScriptTimers_loop_end (cfg : Config) (env : Env) (fuel i n : Nat)
    (saved : Option global_struct) (s : State) (h : s.mFirstTimer[i]? = none) :
    CheckScriptTimers.loop cfg env (fuel + 1) i n saved s
      = ⟨[], [], some (CheckScriptTimers.epilogue n saved s)⟩ := by
  simp only [CheckScriptTimers.loop, h]

theorem CheckScriptTimers_loop_skip (cfg : Config) (env : Env) (fuel i n : Nat)
    (saved : Option global_struct) (s : State) (timer : ScriptTimer)
    (h : s.mFirstTimer[i]? = some timer) (hd : timerIsDue timer (GetTickCount s) = false) :
    CheckScriptTimers.loop cfg env (fuel + 1) i n saved s
      = ⟨⟨i, timer, GetTickCount s, false⟩
            :: (CheckScriptTimers.loop cfg env fuel (i + 1) n saved s).visits,
          (CheckScriptTimers.loop cfg env fuel (i + 1) n saved s).visited,
          (CheckScriptTimers.loop cfg env fuel (i + 1) n saved s).final⟩ := by
  simp [CheckScriptTimers.loop, h, hd]

theorem CheckScriptTimers_loop_fire_hang (cfg : Config) (env : Env) (fuel i n : Nat)
    (saved : Option global_struct) (s : State) (timer : ScriptTimer)
    (h : s.mFirstTimer[i]? = some timer) (hd : timerIsDue timer (GetTickCount s) = true)
    (hr : (env.ExecUntil timer.mLabel
      (CheckScriptTimers.launch i (CheckScriptTimers.prepare cfg n saved s).2)).final = none) :
    CheckScriptTimers.loop cfg env (fuel + 1) i n saved s
      = ⟨[⟨i, timer, GetTickCount s, true⟩],
          CheckScriptTimers.launch i (CheckScriptTimers.prepare cfg n saved s).2
            :: (env.ExecUntil timer.mLabel
              (CheckScriptTimers.launch i (CheckScriptTimers.prepare cfg n saved s).2)).visited,
          none⟩ := by
  simp [CheckScriptTimers.loop, h, hd, hr]

theorem CheckScriptTimers_loop_fire (cfg : Config) (env : Env) (fuel i n : Nat)
    (saved : Option global_struct) (s s2 : State) (timer : ScriptTimer)
    (h : s.mFirstTimer[i]? = some timer) (hd : timerIsDue timer (GetTickCount s) = true)
    (hr : (env.ExecUntil timer.mLabel
      (CheckScriptTimers.launch i (CheckScriptTimers.prepare cfg n saved s).2)).final = some s2) :
    CheckScriptTimers.loop cfg env (fuel + 1) i n saved s
      = ⟨⟨i, timer, GetTickCount s, true⟩
            :: (CheckScriptTimers.loop cfg env fuel (i + 1) (n + 1)
                (CheckScriptTimers.prepare cfg n saved s).1
                (CheckScriptTimers.finish i (GetTickCount s) s2)).visits,
          CheckScriptTimers.launch i (CheckScriptTimers.prepare cfg n saved s).2
            :: ((env.ExecUntil timer.mLabel
                (CheckScriptTimers.launch i (CheckScriptTimers.prepare cfg n saved s).2)).visited
              ++ CheckScriptTimers.finish i (GetTickCount s) s2
                :: (CheckScriptTimers.loop cfg env fuel (i + 1) (n + 1)
                    (CheckScriptTimers.prepare cfg n saved s).1
                    (CheckScriptTimers.finish i (GetTickCount s) s2)).visited),
          (CheckScriptTimers.loop cfg env fuel (i + 1) (n + 1)
            (CheckScriptTimers.prepare cfg n saved s).1
            (CheckScriptTimers.finish i (GetTickCount s) s2)).final⟩ := by
  simp [CheckScriptTimers.loop, h, hd, hr]

/-- The four ways one step of the loop of `CheckScriptTimers` can go. -/
theorem CheckScriptTimers_loop_cases (cfg : Config) (env : Env) (fuel i n : Nat)
    (saved : Option global_struct) (s : State) :
    (s.mFirstTimer[i]? = none ∧
      CheckScriptTimers.loop cfg env (fuel + 1) i n saved s
        = ⟨[], [], some (CheckScriptTimers.epilogue n saved s)⟩)
    ∨ (∃ timer, s.mFirstTimer[i]? = some timer ∧ timerIsDue timer (GetTickCount s) = false ∧
      CheckScriptTimers.loop cfg env (fuel + 1) i n saved s
        = ⟨⟨i, timer, GetTickCount s, false⟩
              :: (CheckScriptTimers.loop cfg env fuel (i + 1) n saved s).visits,
            (CheckScriptTimers.loop cfg env fuel (i + 1) n saved s).visited,
            (CheckScriptTimers.loop cfg env fuel (i + 1) n saved s).final⟩)
    ∨ (∃ timer, s.mFirstTimer[i]? = some timer ∧ timerIsDue timer (GetTickCount s) = true ∧
      (env.ExecUntil timer.mLabel
        (CheckScriptTimers.launch i (CheckScriptTimers.prepare cfg n saved s).2)).final = none ∧
      CheckScriptTimers.loop cfg env (fuel + 1) i n saved s
        = ⟨[⟨i, timer, GetTickCount s, true⟩],
            CheckScriptTimers.launch i (CheckScriptTimers.prepare cfg n saved s).2
              :: (env.ExecUntil timer.mLabel
                (CheckScriptTimers.launch i (CheckScriptTimers.prepare cfg n saved s).2)).visited,
            none⟩)
    ∨ (∃ timer s2, s.mFirstTimer[i]? = some timer ∧ timerIsDue timer (GetTickCount s) = true ∧
      (env.ExecUntil timer.mLabel
        (CheckScriptTimers.launch i (CheckScriptTimers.prepare cfg n saved s).2)).final
          = some s2 ∧
      CheckScriptTimers.loop cfg env (fuel + 1) i n saved s
        = ⟨⟨i, timer, GetTickCount s, true⟩
              :: (CheckScriptTimers.loop cfg env fuel (i + 1) (n + 1)
                  (CheckScriptTimers.prepare cfg n saved s).1
                  (CheckScriptTimers.finish i (GetTickCount s) s2)).visits,
            CheckScriptTimers.launch i (CheckScriptTimers.prepare cfg n saved s).2
              :: ((env.ExecUntil timer.mLabel
                  (CheckScriptTimers.launch i (CheckScriptTimers.prepare cfg n saved s).2)).visited
                ++ CheckScriptTimers.finish i (GetTickCount s) s2
                  :: (CheckScriptTimers.loop cfg env fuel (i + 1) (n + 1)
                      (CheckScriptTimers.prepare cfg n saved s).1
                      (CheckScriptTimers.finish i (GetTickCount s) s2)).visited),
            (CheckScriptTimers.loop cfg env fuel (i + 1) (n + 1)
              (CheckScriptTimers.prepare cfg n saved s).1
              (CheckScriptTimers.finish i (GetTickCount s) s2)).final⟩) := by
  cases h : s.mFirstTimer[i]? with
  | none => exact Or.inl ⟨rfl, CheckScriptTimers_loop_end cfg env fuel i n saved s h⟩
  | some timer =>
    cases hd : timerIsDue timer (GetTickCount s) with
    | false =>
      exact Or.inr (Or.inl ⟨timer, rfl, hd, CheckScriptTimers_loop_skip _ _ _ _ _ _ _ _ h hd⟩)
    | true =>
      cases hr : (env.ExecUntil timer.mLabel
        (CheckScriptTimers.launch i (CheckScriptTimers.prepare cfg n saved s).2)).final with
      | none =>
        exact Or.inr (Or.inr (Or.inl ⟨timer, rfl, hd, hr,
          CheckScriptTimers_loop_fire_hang _ _ _ _ _ _ _ _ h hd hr⟩))
      | some s2 =>
        exact Or.inr (Or.inr (Or.inr ⟨timer, s2, rfl, hd, hr,
          CheckScriptTimers_loop_fire _ _ _ _ _ _ _ _ _ h hd hr⟩))

theorem modifyTimer_length (f : ScriptTimer → ScriptTimer) :
    ∀ (i : Nat) (l : List ScriptTimer), (modifyTimer f i l).length = l.length := by
  intro i l
  induction l generalizing i with
  | nil => cases i <;> rfl
  | cons t ts ih =>
    cases i with
    | zero => rfl
    | succ j => simp [modifyTimer, ih]

theorem CheckScriptTimers_prepare_timers (cfg : Config) (n : Nat)
    (saved : Option global_struct) (s : State) :
    (CheckScriptTimers.prepare cfg n saved s).2.mFirstTimer = s.mFirstTimer := by
  unfold CheckScriptTimers.prepare
  split <;> rfl

theorem CheckScriptTimers_launch_length (i : Nat) (s : State) :
    (CheckScriptTimers.launch i s).mFirstTimer.length = s.mFirstTimer.length := by
  simp [CheckScriptTimers.launch, ENABLE_UNINTERRUPTIBLE_SUB, modifyTimer_length]

theorem CheckScriptTimers_finish_length (i t : Nat) (s : State) :
    (CheckScriptTimers.finish i t s).mFirstTimer.length = s.mFirstTimer.length := by
  simp [CheckScriptTimers.finish, DISABLE_UNINTERRUPTIBLE_SUB, KILL_UNINTERRUPTIBLE_TIMER,
    modifyTimer_length]

theorem CheckScriptTimers_loop_indices (cfg : Config) (env : Env) :
    ∀ (fuel i n : Nat) (saved : Option global_struct) (s : State),
      (CheckScriptTimers.loop cfg env fuel i n saved s).visits.map Visit.index
        = List.range' i (CheckScriptTimers.loop cfg env fuel i n saved s).visits.length := by
  intro fuel
  induction fuel with
  | zero => intro i n saved s; rfl
  | succ k ih =>
    intro i n saved s
    rcases CheckScriptTimers_loop_cases cfg env k i n saved s with
      ⟨_, h⟩ | ⟨t, _, _, h⟩ | ⟨t, _, _, _, h⟩ | ⟨t, s2, _, _, _, h⟩ <;> rw [h]
    · rfl
    · simp [List.range', ih]
    · rfl
    · simp [List.range', ih]

theorem CheckScriptTimers_loop_fired (cfg : Config) (env : Env) :
    ∀ (fuel i n : Nat) (saved : Option global_struct) (s : State),
      ∀ v ∈ (CheckScriptTimers.loop cfg env fuel i n saved s).visits,
        v.fired = timerIsDue v.timer v.tick := by
  intro fuel
  induction fuel with
  | zero => intro i n saved s v hv; simp [CheckScriptTimers.loop] at hv
  | succ k ih =>
    intro i n saved s v hv
    rcases CheckScriptTimers_loop_cases cfg env k i n saved s with
      ⟨_, h⟩ | ⟨t, _, hd, h⟩ | ⟨t, _, hd, _, h⟩ | ⟨t, s2, _, hd, _, h⟩ <;> rw [h] at hv
    · simp at hv
    · rcases List.mem_cons.1 hv with h1 | h1
      · subst h1; exact hd.symm
      · exact ih _ _ _ _ v h1
    · rcases List.mem_cons.1 hv with h1 | h1
      · subst h1; exact hd.symm
      · simp at h1
    · rcases List.mem_cons.1 hv with h1 | h1
      · subst h1; exact hd.symm
      · exact ih _ _ _ _ v h1

theorem CheckScriptTimers_epilogue_timers (n : Nat) (saved : Option global_struct) (s : State) :
    (CheckScriptTimers.epilogue n saved s).mFirstTimer = s.mFirstTimer := by
  unfold CheckScriptTimers.epilogue RESUME_UNDERLYING_THREAD
  split
  · split
    · dsimp only; split <;> rfl
    · rfl
  · rfl

theorem CheckScriptTimers_loop_returns (cfg : Config) (env : Env)
    (hExec : ∀ l st, ∃ st1, (env.ExecUntil l st).final = some st1
      ∧ st1.mFirstTimer.length = st.mFirstTimer.length) :
    ∀ (fuel i n : Nat) (saved : Option global_struct) (s : State),
      i ≤ s.mFirstTimer.length → s.mFirstTimer.length < i + fuel →
      ∃ s1, (CheckScriptTimers.loop cfg env fuel i n saved s).final = some s1
        ∧ s1.mFirstTimer.length = s.mFirstTimer.length
        ∧ i + (CheckScriptTimers.loop cfg env fuel i n saved s).visits.length
            = s.mFirstTimer.length := by
  intro fuel
  induction fuel with
  | zero => intro i n saved s h1 h2; omega
  | succ k ih =>
    intro i n saved s h1 h2
    rcases CheckScriptTimers_loop_cases cfg env k i n saved s with
      ⟨hn, h⟩ | ⟨t, ht, _, h⟩ | ⟨t, _, _, hr, _⟩ | ⟨t, s2, ht, _, hr, h⟩
    · rw [h]
      have : s.mFirstTimer.length ≤ i := by
        by_contra hc
        have hlt : i < s.mFirstTimer.length := by omega
        rw [List.getElem?_eq_getElem hlt] at hn
        exact Option.noConfusion hn
      exact ⟨_, rfl, by rw [CheckScriptTimers_epilogue_timers], by simp; omega⟩
    · rw [h]
      have hlt : i < s.mFirstTimer.length := by
        by_contra hc
        rw [List.getElem?_eq_none (by omega)] at ht
        exact Option.noConfusion ht
      obtain ⟨s1, e1, e2, e3⟩ := ih (i + 1) n saved s (by omega) (by omega)
      exact ⟨s1, e1, e2, by simp; omega⟩
    · obtain ⟨st1, e, _⟩ := hExec t.mLabel
        (CheckScriptTimers.launch i (CheckScriptTimers.prepare cfg n saved s).2)
      rw [e] at hr
      exact Option.noConfusion hr
    · rw [h]
      have hlt : i < s.mFirstTimer.length := by
        by_contra hc
        rw [List.getElem?_eq_none (by omega)] at ht
        exact Option.noConfusion ht
      obtain ⟨st1, e, hl⟩ := hExec t.mLabel
        (CheckScriptTimers.launch i (CheckScriptTimers.prepare cfg n saved s).2)
      rw [e] at hr
      have hs2 : st1 = s2 := Option.some.inj hr
      subst hs2
      rw [CheckScriptTimers_launch_length, CheckScriptTimers_prepare_timers] at hl
      have hf : (CheckScriptTimers.finish i (GetTickCount s) st1).mFirstTimer.length
          = s.mFirstTimer.length := by
        rw [CheckScriptTimers_finish_length, hl]
      obtain ⟨s1, e1, e2, e3⟩ := ih (i + 1) (n + 1) (CheckScriptTimers.prepare cfg n saved s).1
        (CheckScriptTimers.finish i (GetTickCount s) st1) (by omega) (by omega)
      exact ⟨s1, e1, by rw [e2, hf], by simp; omega⟩

theorem CheckScriptTimers_passes_guard (cfg : Config) (env : Env) (fuel : Nat) (s : State)
    (hI : INTERRUPTIBLE s = true) (hP : s.g_nPausedThreads ≤ 0)
    (hT : s.g_nThreads < s.g_MaxThreadsTotal) :
    CheckScriptTimers cfg env fuel s = CheckScriptTimers.loop cfg env fuel 0 0 none s := by
  unfold CheckScriptTimers
  have h1 : ¬ (s.g_nPausedThreads > 0) := by omega
  have h2 : ¬ (s.g_nThreads ≥ s.g_MaxThreadsTotal) := by omega
  simp [hI, h1, h2]

/-- C9: a call of `CheckScriptTimers` that passes its entry guard looks at the entries at
positions 0, 1, 2, ... in turn, each position once.  An entry is fired exactly when, as
found at its visit, it is enabled, its instance count is below 1 and the `DWORD` difference
of the tick counter at the visit and its last-run tick is at least its period.  When every
subroutine returns and keeps the number of entries, the call returns after as many visits as
there are entries, so every entry is visited exactly once and none is fired twice. -/
theorem CheckScriptTimers_visits_each_once (cfg : Config) (env : Env) (fuel : Nat) (s : State)
    (hI : INTERRUPTIBLE s = true) (hP : s.g_nPausedThreads ≤ 0)
    (hT : s.g_nThreads < s.g_MaxThreadsTotal) :
    (CheckScriptTimers cfg env fuel s).visits.map Visit.index
        = List.range (CheckScriptTimers cfg env fuel s).visits.length
    ∧ (∀ v ∈ (CheckScriptTimers cfg env fuel s).visits,
        (v.fired = true ↔
          (v.timer.mEnabled = true ∧ v.timer.mExistingThreads < 1
            ∧ toDWORD ((v.tick : Int) - (v.timer.mTimeLastRun : Int))
                ≥ toDWORD v.timer.mPeriod)))
    ∧ ((∀ l st, ∃ st1, (env.ExecUntil l st).final = some st1
          ∧ st1.mFirstTimer.length = st.mFirstTimer.length) →
        s.mFirstTimer.length < fuel →
        ∃ s1, (CheckScriptTimers cfg env fuel s).final = some s1
          ∧ (CheckScriptTimers cfg env fuel s).visits.map Visit.index
              = List.range s.mFirstTimer.length) := by
  rw [CheckScriptTimers_passes_guard cfg env fuel s hI hP hT]
  have hidx := CheckScriptTimers_loop_indices cfg env fuel 0 0 none s
  rw [← List.range_eq_range'] at hidx
  refine ⟨hidx, ?_, ?_⟩
  · intro v hv
    rw [CheckScriptTimers_loop_fired cfg env fuel 0 0 none s v hv]
    simp [timerIsDue, and_assoc]
  · intro hExec hfuel
    obtain ⟨s1, e1, _, e3⟩ := CheckScriptTimers_loop_returns cfg env hExec fuel 0 0 none s
      (Nat.zero_le _) (by omega)
    refine ⟨s1, e1, ?_⟩
    rw [hidx]
    congr 1
    omega

theorem CheckScriptTimers_visits_each_once_witness :
    (CheckScriptTimers cfg0 env0 3 sTimers).visits.map Visit.index
        = List.range (CheckScriptTimers cfg0 env0 3 sTimers).visits.length
    ∧ (∀ v ∈ (CheckScriptTimers cfg0 env0 3 sTimers).visits,
        (v.fired = true ↔
          (v.timer.mEnabled = true ∧ v.timer.mExistingThreads < 1
            ∧ toDWORD ((v.tick : Int) - (v.timer.mTimeLastRun : Int))
                ≥ toDWORD v.timer.mPeriod)))
    ∧ (∃ s1, (CheckScriptTimers cfg0 env0 3 sTimers).final = some s1
          ∧ (CheckScriptTimers cfg0 env0 3 sTimers).visits.map Visit.index
              = List.range sTimers.mFirstTimer.length)
    ∧ (CheckScriptTimers cfg0 env0 3 sTimers).visits.map Visit.fired = [true, true] :=
  let h := CheckScriptTimers_visits_each_once cfg0 env0 3 sTimers (by decide) (by decide)
    (by decide)
  ⟨h.1, h.2.1, h.2.2 (fun _ st => ⟨st, rfl, rfl⟩) (by decide), by decide⟩

/-! ### Keeping a scheduler invariant -/

theorem Frame.refl (s : State) : Frame s s := ⟨rfl, rfl, rfl⟩

theorem Frame.trans {a b c : State} (h1 : Frame a b) (h2 : Frame b c) : Frame a c :=
  ⟨h2.1.trans h1.1, h2.2.1.trans h1.2.1, h2.2.2.trans h1.2.2⟩

theorem RESUME_UNDERLYING_THREAD_frame (saved : global_struct) (s : State) :
    Frame s (RESUME_UNDERLYING_THREAD saved s) := by
  unfold RESUME_UNDERLYING_THREAD
  dsimp only
  split_ifs <;> exact ⟨rfl, rfl, rfl⟩

theorem IsCycleComplete_complete_frame (d : Int) (t : Nat) (s : State) :
    Frame s (IsCycleComplete.complete d t s) := by
  unfold IsCycleComplete.complete KILL_MAIN_TIMER
  dsimp only
  split_ifs <;> exact ⟨rfl, rfl, rfl⟩

theorem IsCycleComplete_frame (cfg : Config) (d : Int) (t : Nat) (a : Bool) (s : State) :
    Frame s (IsCycleComplete cfg d t a s).2 := by
  rcases IsCycleComplete_cases cfg d t a s with h | h <;> rw [h]
  · exact Frame.refl s
  · exact IsCycleComplete_complete_frame _ _ _

theorem PeekMessage_frame (s : State) : Frame s (PeekMessage s).2 := ⟨rfl, rfl, rfl⟩

theorem GetMessage_frame (s s1 : State) (m : Option MSG) (h : GetMessage s = some (m, s1)) :
    Frame s s1 := by
  unfold GetMessage at h
  split at h
  · exact Option.noConfusion h
  · simp only [Option.some.injEq, Prod.mk.injEq] at h
    rw [← h.2]
    exact ⟨rfl, rfl, rfl⟩

theorem MsgSleep_launch_frame (cfg : Config) (env : Env) (m : MessageMode) (msg : MSG)
    (s : State) :
    Frame { s with g_nThreads := s.g_nThreads + 1 } (MsgSleep.launch cfg env m msg s).2 := by
  unfold MsgSleep.launch KILL_MAIN_TIMER ENABLE_UNINTERRUPTIBLE_SUB
  dsimp only
  split_ifs <;> exact ⟨rfl, rfl, rfl⟩

theorem MsgSleep_afterPerform_frame (env : Env) (msg : MSG) (s : State) :
    Frame { s with g_nThreads := s.g_nThreads - 1 } (MsgSleep.afterPerform env msg s) :=
  ⟨rfl, rfl, rfl⟩

theorem CheckScriptTimers_firstLaunch_frame (cfg : Config) (s : State) :
    Frame { s with g_nThreads := s.g_nThreads + 1 } (CheckScriptTimers.firstLaunch cfg s).2 :=
  ⟨rfl, rfl, rfl⟩

theorem CheckScriptTimers_launch_frame (i : Nat) (s : State) :
    ∃ f, Frame { s with mFirstTimer := modifyTimer f i s.mFirstTimer }
      (CheckScriptTimers.launch i s) :=
  ⟨_, rfl, rfl, rfl⟩

theorem CheckScriptTimers_finish_frame (i tick : Nat) (s : State) :
    ∃ f h, Frame { s with mFirstTimer := modifyTimer h i (modifyTimer f i s.mFirstTimer) }
      (CheckScriptTimers.finish i tick s) :=
  ⟨_, _, rfl, rfl, rfl⟩

theorem timerIsDue_count (t : ScriptTimer) (tick : Nat) (h : timerIsDue t tick = true) :
    t.mExistingThreads < 1 := by
  simp only [timerIsDue, Bool.and_eq_true, decide_eq_true_eq] at h
  exact h.1.2

section Keeping

variable {cfg : Config} {env : Env} {I : State → Prop}

theorem SchedulerInvariant.prepare (hI : SchedulerInvariant cfg env.ACT_IS_ALWAYS_ALLOWED I)
    (n : Nat) (saved : Option global_struct) (s : State) (hs : I s)
    (hn : n = 0 → s.g_nThreads < s.g_MaxThreadsTotal) :
    I (CheckScriptTimers.prepare cfg n saved s).2 := by
  unfold CheckScriptTimers.prepare
  split
  · rename_i h0
    exact hI.frame _ _ (hI.riseTimer s hs (hn h0)) (CheckScriptTimers_firstLaunch_frame cfg s)
  · exact hs

theorem SchedulerInvariant.epilogue (hI : SchedulerInvariant cfg env.ACT_IS_ALWAYS_ALLOWED I)
    (n : Nat) (saved : Option global_struct) (s : State) (hs : I s) :
    I (CheckScriptTimers.epilogue n saved s) := by
  unfold CheckScriptTimers.epilogue
  split
  · dsimp only
    split
    · exact hI.frame _ _ (hI.release s hs) (RESUME_UNDERLYING_THREAD_frame _ _)
    · exact hI.release s hs
  · exact hs

theorem SchedulerInvariant.timersLoop (hI : SchedulerInvariant cfg env.ACT_IS_ALWAYS_ALLOWED I)
    (hE : EnvKeeps env I) :
    ∀ (fuel i n : Nat) (saved : Option global_struct) (s : State), I s →
      (n = 0 → s.g_nThreads < s.g_MaxThreadsTotal) →
      AllStates I (CheckScriptTimers.loop cfg env fuel i n saved s).visited
        (CheckScriptTimers.loop cfg env fuel i n saved s).final := by
  intro fuel
  induction fuel with
  | zero =>
    intro i n saved s _ _
    exact ⟨by simp [CheckScriptTimers.loop], by simp [CheckScriptTimers.loop]⟩
  | succ k ih =>
    intro i n saved s hs hn
    rcases CheckScriptTimers_loop_cases cfg env k i n saved s with
      ⟨_, h⟩ | ⟨t, _, _, h⟩ | ⟨t, ht, hd, hr, h⟩ | ⟨t, s2, ht, hd, hr, h⟩ <;> rw [h]
    · refine ⟨by simp, ?_⟩
      intro x hx
      simp only [Option.some.injEq] at hx
      rw [← hx]
      exact hI.epilogue n saved s hs
    · exact ih (i + 1) n saved s hs hn
    · have h1 : I (CheckScriptTimers.launch i (CheckScriptTimers.prepare cfg n saved s).2) :=
        (CheckScriptTimers_launch_frame i _).elim fun f hf =>
          hI.frame _ _
            (hI.timer s i t hs ht (timerIsDue_count t _ hd) _ f (hI.prepare n saved s hs hn)) hf
      refine ⟨?_, by simp⟩
      intro x hx
      rcases List.mem_cons.1 hx with e | e
      · rw [e]; exact h1
      · exact (hE.ExecUntil _ _ h1).1 x e
    · have h1 : I (CheckScriptTimers.launch i (CheckScriptTimers.prepare cfg n saved s).2) :=
        (CheckScriptTimers_launch_frame i _).elim fun f hf =>
          hI.frame _ _
            (hI.timer s i t hs ht (timerIsDue_count t _ hd) _ f (hI.prepare n saved s hs hn)) hf
      have h2 : I s2 := (hE.ExecUntil _ _ h1).2 s2 hr
      have h3 : I (CheckScriptTimers.finish i (GetTickCount s) s2) :=
        (CheckScriptTimers_finish_frame i (GetTickCount s) s2).elim fun f hf =>
          hf.elim fun h hh =>
            hI.frame _ _
              (hI.timer s i t hs ht (timerIsDue_count t _ hd) _ h
                (hI.timer s i t hs ht (timerIsDue_count t _ hd) _ f h2)) hh
      have hrest := ih (i + 1) (n + 1) (CheckScriptTimers.prepare cfg n saved s).1 _ h3
        (by intro h0; omega)
      refine ⟨?_, hrest.2⟩
      intro x hx
      rcases List.mem_cons.1 hx with e | e
      · rw [e]; exact h1
      · rcases List.mem_append.1 e with e | e
        · exact (hE.ExecUntil _ _ h1).1 x e
        · rcases List.mem_cons.1 e with e | e
          · rw [e]; exact h3
          · exact hrest.1 x e

theorem SchedulerInvariant.timers (hI : SchedulerInvariant cfg env.ACT_IS_ALWAYS_ALLOWED I)
    (hE : EnvKeeps env I) (fuel : Nat) (s : State) (hs : I s) :
    AllStates I (CheckScriptTimers cfg env fuel s).visited
      (CheckScriptTimers cfg env fuel s).final := by
  unfold CheckScriptTimers
  split
  · refine ⟨by simp, ?_⟩
    intro x hx
    simp only [Option.some.injEq] at hx
    rw [← hx]; exact hs
  · rename_i hg
    simp only [Bool.or_eq_true, Bool.not_eq_true', decide_eq_true_eq, not_or] at hg
    exact hI.timersLoop hE fuel 0 0 none s hs (by intro _; omega)

theorem SchedulerInvariant.timersIfNeeded
    (hI : SchedulerInvariant cfg env.ACT_IS_ALWAYS_ALLOWED I)
    (hE : EnvKeeps env I) (fuel : Nat) (s : State) (hs : I s) :
    AllStates I (CHECK_SCRIPT_TIMERS_IF_NEEDED cfg env fuel s).visited
      (CHECK_SCRIPT_TIMERS_IF_NEEDED cfg env fuel s).final := by
  unfold CHECK_SCRIPT_TIMERS_IF_NEEDED
  split
  · exact hI.timers hE fuel s hs
  · refine ⟨by simp, ?_⟩
    intro x hx
    simp only [Option.some.injEq] at hx
    rw [← hx]; exact hs

end Keeping

theorem AllStates.final_intro {I : State → Prop} (s : State) (hs : I s) :
    AllStates I [] (some s) := by
  refine ⟨by simp, ?_⟩
  intro x hx
  simp only [Option.some.injEq] at hx
  rw [← hx]; exact hs

section KeepingPump

variable {cfg : Config} {env : Env} {I : State → Prop}

theorem SchedulerInvariant.resume (hI : SchedulerInvariant cfg env.ACT_IS_ALWAYS_ALLOWED I)
    (L : Locals) (saved : global_struct) (s : State) (hs : I s) :
    ∀ x, (MsgSleep.resume cfg L saved s).state? = some x → I x := by
  have h1 : I (RESUME_UNDERLYING_THREAD saved s) :=
    hI.frame _ _ hs (RESUME_UNDERLYING_THREAD_frame _ _)
  have h2 : I (IsCycleComplete cfg L.aSleepDuration L.start_time L.allow_early_return
      (RESUME_UNDERLYING_THREAD saved s)).2 :=
    hI.frame _ _ h1 (IsCycleComplete_frame _ _ _ _ _)
  intro x hx
  unfold MsgSleep.resume at hx
  dsimp only at hx
  split_ifs at hx <;> simp only [Next.state?, Option.some.injEq] at hx <;> rw [← hx]
  · exact h2
  · exact hI.frame _ _ h2 ⟨rfl, rfl, rfl⟩
  · exact h2
  · exact hs

theorem MsgSleep_overLimit_false (cfg : Config) (env : Env) (msg : MSG) (s : State)
    (h : MsgSleep.overLimit cfg env msg s = false) :
    s.g_nThreads < s.g_MaxThreadsTotal
      ∨ (env.ACT_IS_ALWAYS_ALLOWED (env.GetTypeOfFirstLine msg.wParam s) = true
          ∧ s.g_nThreads < cfg.MAX_THREADS_LIMIT) := by
  unfold MsgSleep.overLimit at h
  by_cases h1 : s.g_nThreads < s.g_MaxThreadsTotal
  · exact Or.inl h1
  · right
    have h2 : s.g_nThreads ≥ s.g_MaxThreadsTotal := by omega
    simp only [h2, decide_True, Bool.true_and, Bool.not_eq_false', Bool.and_eq_true,
      decide_eq_true_eq] at h
    exact h

theorem SchedulerInvariant.hotkey (hI : SchedulerInvariant cfg env.ACT_IS_ALWAYS_ALLOWED I)
    (hE : EnvKeeps env I) (L : Locals) (msg : MSG) (s : State) (hs : I s) :
    AllStates I (MsgSleep.hotkey cfg env L msg s).visited
      (MsgSleep.hotkey cfg env L msg s).next.state? := by
  unfold MsgSleep.hotkey
  by_cases ho : MsgSleep.overLimit cfg env msg s = true
  · rw [if_pos ho]; exact AllStates.final_intro s hs
  · rw [if_neg ho]
    by_cases ha : (!env.PerformIsAllowed msg.wParam s) = true
    · rw [if_pos ha]; exact AllStates.final_intro _ (hE.RunAgainAfterFinished _ _ hs)
    · rw [if_neg ha]
      have hadm := MsgSleep_overLimit_false cfg env msg s (by simpa using ho)
      have h1 : I (MsgSleep.launch cfg env L.aMode msg s).2 :=
        hI.frame _ _ (hI.riseHotkey s _ hs hadm) (MsgSleep_launch_frame cfg env L.aMode msg s)
      have hP := hE.PerformID msg.wParam _ h1
      dsimp only
      split
      · refine ⟨?_, by simp [Next.state?]⟩
        intro x hx
        rcases List.mem_cons.1 hx with e | e
        · rw [e]; exact h1
        · exact hP.1 x e
      · rename_i s1 hr
        have h2 : I (MsgSleep.afterPerform env msg s1) :=
          hI.frame _ _ (hI.release s1 (hP.2 s1 hr)) (MsgSleep_afterPerform_frame env msg s1)
        refine ⟨?_, hI.resume L _ _ h2⟩
        intro x hx
        rcases List.mem_cons.1 hx with e | e
        · rw [e]; exact h1
        · rcases List.mem_append.1 e with e | e
          · exact hP.1 x e
          · simp only [List.mem_singleton] at e
            rw [e]; exact h2

theorem SchedulerInvariant.timerMsg (hI : SchedulerInvariant cfg env.ACT_IS_ALWAYS_ALLOWED I)
    (hE : EnvKeeps env I) (fuel : Nat) (L : Locals) (msg : MSG) (s : State) (hs : I s)
    (hm : msg.message = MessageKind.WM_TIMER) :
    AllStates I (MsgSleep.dispatch cfg env fuel L msg s).visited
      (MsgSleep.dispatch cfg env fuel L msg s).next.state? := by
  unfold MsgSleep.dispatch
  simp only [hm]
  by_cases h1 : msg.lParam ≠ 0
  · rw [if_pos h1]; exact AllStates.final_intro _ (hE.DispatchGeneric _ _ hs)
  · rw [if_neg h1]
    have ht := hI.timersIfNeeded hE fuel s hs
    cases hf : (CHECK_SCRIPT_TIMERS_IF_NEEDED cfg env fuel s).final with
    | none => exact ⟨ht.1, by simp [Next.state?]⟩
    | some s1 =>
      have hs1 : I s1 := ht.2 s1 hf
      have hc : I (IsCycleComplete cfg L.aSleepDuration L.start_time L.allow_early_return s1).2 :=
        hI.frame _ _ hs1 (IsCycleComplete_frame _ _ _ _ _)
      dsimp only
      split_ifs <;> refine ⟨ht.1, ?_⟩ <;> intro x hx <;>
        simp only [Next.state?, Option.some.injEq] at hx <;> rw [← hx] <;>
        first | exact hs1 | exact hc

theorem SchedulerInvariant.dispatch (hI : SchedulerInvariant cfg env.ACT_IS_ALWAYS_ALLOWED I)
    (hE : EnvKeeps env I) (fuel : Nat) (L : Locals) (msg : MSG) (s : State) (hs : I s) :
    AllStates I (MsgSleep.dispatch cfg env fuel L msg s).visited
      (MsgSleep.dispatch cfg env fuel L msg s).next.state? := by
  cases hm : msg.message with
  | WM_TIMER => exact hI.timerMsg hE fuel L msg s hs hm
  | WM_QUIT =>
    simp only [MsgSleep.dispatch, hm]
    exact AllStates.final_intro _ (hE.ExitApp _ hs)
  | WM_HOTKEY => simp only [MsgSleep.dispatch, hm]; exact hI.hotkey hE L msg s hs
  | AHK_HOOK_HOTKEY => simp only [MsgSleep.dispatch, hm]; exact hI.hotkey hE L msg s hs
  | WM_KEYDOWN =>
    simp only [MsgSleep.dispatch, hm]
    split_ifs
    · exact AllStates.final_intro _ (hI.frame _ _ hs ⟨rfl, rfl, rfl⟩)
    · exact AllStates.final_intro _ (hE.DispatchGeneric _ _ hs)
  | other c =>
    simp only [MsgSleep.dispatch, hm]
    exact AllStates.final_intro _ (hE.DispatchGeneric _ _ hs)

theorem SchedulerInvariant.iteration (hI : SchedulerInvariant cfg env.ACT_IS_ALWAYS_ALLOWED I)
    (hE : EnvKeeps env I) (fuel : Nat) (L : Locals) (s : State) (hs : I s) :
    AllStates I (MsgSleep.iteration cfg env fuel L s).visited
      (MsgSleep.iteration cfg env fuel L s).next.state? := by
  unfold MsgSleep.iteration
  by_cases hgm : L.aSleepDuration > 0 ∧ L.empty_the_queue_via_peek = false
  · rw [if_pos hgm]
    cases hg : GetMessage s with
    | none => exact ⟨by simp, by simp [Next.state?]⟩
    | some p =>
      obtain ⟨m, s1⟩ := p
      have hs1 : I s1 := hI.frame _ _ hs (GetMessage_frame s s1 m hg)
      cases m with
      | none => exact AllStates.final_intro _ hs1
      | some msg => exact hI.dispatch hE fuel L msg s1 hs1
  · rw [if_neg hgm]
    have hs1 : I (PeekMessage s).2 := hI.frame _ _ hs (PeekMessage_frame s)
    cases hp : PeekMessage s with
    | mk m s1 =>
      rw [hp] at hs1
      cases m with
      | none =>
        dsimp only
        split_ifs
        · exact AllStates.final_intro _ hs1
        · exact AllStates.final_intro _ (hI.frame _ _ hs1 (IsCycleComplete_frame _ _ _ _ _))
      | some msg => exact hI.dispatch hE fuel L msg s1 hs1

theorem SchedulerInvariant.pumpLoop (hI : SchedulerInvariant cfg env.ACT_IS_ALWAYS_ALLOWED I)
    (hE : EnvKeeps env I) :
    ∀ (fuel : Nat) (L : Locals) (s : State), I s →
      AllStates I (MsgSleep.loop cfg env fuel L s).visited
        ((MsgSleep.loop cfg env fuel L s).result.map Prod.snd) := by
  intro fuel
  induction fuel with
  | zero => intro L s _; exact ⟨by simp [MsgSleep.loop], by simp [MsgSleep.loop]⟩
  | succ k ih =>
    intro L s hs
    have hit := hI.iteration hE k L s hs
    cases hnx : (MsgSleep.iteration cfg env k L s).next with
    | cont L1 s1 =>
      have hs1 : I s1 := hit.2 s1 (by rw [hnx]; rfl)
      obtain ⟨_, hv, hr⟩ := MsgSleep_loop_cont cfg env k L L1 s s1 hnx
      rw [hv, hr]
      refine ⟨?_, (ih L1 s1 hs1).2⟩
      intro x hx
      rcases List.mem_append.1 hx with e | e
      · exact hit.1 x e
      · rcases List.mem_cons.1 e with e | e
        · rw [e]; exact hs1
        · exact (ih L1 s1 hs1).1 x e
    | ret r s1 =>
      have hs1 : I s1 := hit.2 s1 (by rw [hnx]; rfl)
      rw [MsgSleep_loop_ret cfg env k L s s1 r hnx]
      refine ⟨?_, ?_⟩
      · intro x hx
        rcases List.mem_append.1 hx with e | e
        · exact hit.1 x e
        · simp only [List.mem_singleton] at e
          rw [e]; exact hs1
      · intro x hx
        simp only [Option.map_some', Option.some.injEq] at hx
        rw [← hx]; exact hs1
    | hang =>
      rw [MsgSleep_loop_hang cfg env k L s hnx]
      exact ⟨hit.1, by simp⟩

theorem SchedulerInvariant.pump (hI : SchedulerInvariant cfg env.ACT_IS_ALWAYS_ALLOWED I)
    (hE : EnvKeeps env I) (fuel : Nat) (d : Int) (m : MessageMode) (s : State) (hs : I s) :
    AllStates I (MsgSleep cfg env fuel d m s).visited
      ((MsgSleep cfg env fuel d m s).result.map Prod.snd) := by
  have h0 : I (CLOSE_CLIPBOARD_IF_OPEN s) := hI.frame _ _ hs ⟨rfl, rfl, rfl⟩
  have ht := hI.timersIfNeeded hE fuel _ h0
  unfold MsgSleep
  dsimp only
  split
  · exact ⟨ht.1, by simp⟩
  · rename_i s1 hf
    have hs1 : I s1 := ht.2 s1 hf
    have hs2 : ∀ (b : Bool), I (if b = true then SET_MAIN_TIMER s1 else s1) := by
      intro b
      cases b
      · exact hs1
      · exact hI.frame _ _ hs1 ⟨rfl, rfl, rfl⟩
    have key : ∀ (b : Bool) (L : Locals),
        AllStates I
          (MsgSleep.loop cfg env fuel L (if b = true then SET_MAIN_TIMER s1 else s1)).visited
          ((MsgSleep.loop cfg env fuel L
            (if b = true then SET_MAIN_TIMER s1 else s1)).result.map Prod.snd) :=
      fun b L => hI.pumpLoop hE fuel L _ (hs2 b)
    refine ⟨?_, (key _ _).2⟩
    intro x hx
    rcases List.mem_append.1 hx with e | e
    · exact ht.1 x e
    · rcases List.mem_cons.1 e with e | e
      · rw [e]; exact hs2 _
      · exact (key _ _).1 x e

end KeepingPump

/-! ### Scripts keep a scheduler invariant -/

section KeepingScript

variable {cfg : Config} {I : State → Prop}

theorem Hotkey_PerformID_keeps (hframe : ∀ s s1, I s → Frame s s1 → I s1)
    (exec : LabelRef → State → Run)
    (hx : ∀ l s, I s → AllStates I (exec l s).visited (exec l s).final) :
    ∀ (fuel : Nat) (id : HotkeyIDType) (s : State), I s →
      AllStates I (Hotkey.PerformID exec fuel id s).visited
        (Hotkey.PerformID exec fuel id s).final := by
  intro fuel
  induction fuel with
  | zero => intro id s _; exact ⟨by simp [Hotkey.PerformID], by simp [Hotkey.PerformID]⟩
  | succ k ih =>
    intro id s hs
    unfold Hotkey.PerformID
    split
    · exact AllStates.final_intro s hs
    · rename_i hk _
      dsimp only
      have h1 : I (Hotkey.enter id s) := hframe _ _ hs ⟨rfl, rfl, rfl⟩
      have hr := hx hk.mLabel _ h1
      have hv : ∀ x ∈ Hotkey.enter id s :: (exec hk.mLabel (Hotkey.enter id s)).visited,
          I x := by
        intro x hx'
        rcases List.mem_cons.1 hx' with e | e
        · rw [e]; exact h1
        · exact hr.1 x e
      split
      · exact ⟨hv, by simp⟩
      · rename_i s2 hf
        have h2 : I s2 := hr.2 s2 hf
        have h3 : I (Hotkey.leave id s2) := hframe _ _ h2 ⟨rfl, rfl, rfl⟩
        split_ifs
        · have h4 : I (Hotkey.clearRunAgain id (Hotkey.leave id s2)) :=
            hframe _ _ h3 ⟨rfl, rfl, rfl⟩
          have hagain := ih id _ h4
          refine ⟨?_, hagain.2⟩
          intro x hx'
          rcases List.mem_cons.1 hx' with e | e
          · rw [e]; exact h1
          · rcases List.mem_append.1 e with e | e
            · exact hr.1 x e
            · rcases List.mem_cons.1 e with e | e
              · rw [e]; exact h4
              · exact hagain.1 x e
        · refine ⟨hv, ?_⟩
          intro x hx'
          simp only [Option.some.injEq] at hx'
          rw [← hx']; exact h3

theorem DispatchMessage_frame (env : Env) (msg : MSG) (s : State) :
    Frame s (DispatchMessage env msg s) := by
  unfold DispatchMessage DialogTimeout AutoExecSectionTimeout UninteruptibleTimeout
    KILL_AUTOEXEC_TIMER KILL_UNINTERRUPTIBLE_TIMER
  dsimp only
  split_ifs <;> exact ⟨rfl, rfl, rfl⟩

theorem scriptEnv_keeps (hframe : ∀ s s1, I s → Frame s s1 → I s1) (P : Script)
    (exec : LabelRef → State → Run)
    (hx : ∀ l s, I s → AllStates I (exec l s).visited (exec l s).final) (fuel : Nat) :
    EnvKeeps (scriptEnv P exec fuel) I where
  PerformID := fun id s hs => Hotkey_PerformID_keeps hframe exec hx fuel id s hs
  ExecUntil := hx
  ExitApp := fun _ hs => hs
  DispatchGeneric := fun m s hs => hframe _ _ hs (DispatchMessage_frame _ m s)
  RunAgainAfterFinished := fun _ _ hs => hframe _ _ hs ⟨rfl, rfl, rfl⟩

theorem ExecStmt_keeps {env : Env} (hI : SchedulerInvariant cfg env.ACT_IS_ALWAYS_ALLOWED I)
    (hE : EnvKeeps env I) (fuel : Nat) (st : Stmt) (s : State) (hs : I s) :
    AllStates I (ExecStmt cfg env fuel st s).visited (ExecStmt cfg env fuel st s).final := by
  cases st with
  | MsgSleep d m => exact hI.pump hE fuel d m s hs
  | CheckScriptTimers => exact hI.timers hE fuel s hs

theorem ExecStmts_keeps {env : Env} (hI : SchedulerInvariant cfg env.ACT_IS_ALWAYS_ALLOWED I)
    (hE : EnvKeeps env I) (fuel : Nat) :
    ∀ (body : List Stmt) (s : State), I s →
      AllStates I (ExecStmts cfg env fuel body s).visited
        (ExecStmts cfg env fuel body s).final := by
  intro body
  induction body with
  | nil => intro s hs; exact AllStates.final_intro s hs
  | cons st rest ih =>
    intro s hs
    have h1 := ExecStmt_keeps hI hE fuel st s hs
    unfold ExecStmts
    dsimp only
    split
    · exact ⟨h1.1, by simp⟩
    · rename_i s1 hf
      have hs1 : I s1 := h1.2 s1 hf
      refine ⟨?_, (ih s1 hs1).2⟩
      intro x hx
      rcases List.mem_append.1 hx with e | e
      · exact h1.1 x e
      · rcases List.mem_cons.1 e with e | e
        · rw [e]; exact hs1
        · exact (ih s1 hs1).1 x e

theorem ExecUntil_keeps (P : Script) (hI : SchedulerInvariant cfg P.ACT_IS_ALWAYS_ALLOWED I) :
    ∀ (depth : Nat) (l : LabelRef) (s : State), I s →
      AllStates I (ExecUntil cfg P depth l s).visited (ExecUntil cfg P depth l s).final := by
  intro depth
  induction depth with
  | zero => intro l s _; exact ⟨by simp [ExecUntil], by simp [ExecUntil]⟩
  | succ k ih =>
    intro l s hs
    unfold ExecUntil
    exact @ExecStmts_keeps cfg I (scriptEnv P (ExecUntil cfg P k) k) hI
      (scriptEnv_keeps hI.frame P _ ih k) k (P.body l) s hs

theorem runScript_keeps (P : Script) (hI : SchedulerInvariant cfg P.ACT_IS_ALWAYS_ALLOWED I)
    (fuel : Nat) (main : List Stmt) (s : State) (hs : I s) :
    AllStates I (runScript cfg P fuel main s).visited (runScript cfg P fuel main s).final := by
  unfold runScript
  exact @ExecStmts_keeps cfg I (scriptEnv P (ExecUntil cfg P fuel) fuel) hI
    (scriptEnv_keeps hI.frame P _ (ExecUntil_keeps P hI fuel) fuel) fuel main s hs

end KeepingScript

/-! ### The bound on the thread counter -/

theorem threadBound_invariant (cfg : Config) (alwaysAllowed : ActionTypeType → Bool)
    (M B : Int) (hMB : M ≤ B)
    (hB : cfg.MAX_THREADS_LIMIT ≤ B ∨ ∀ a, alwaysAllowed a = false) :
    SchedulerInvariant cfg alwaysAllowed
      (fun s => s.g_MaxThreadsTotal = M ∧ s.g_nThreads ≤ B) where
  frame := by
    intro s s1 h hf
    exact ⟨hf.2.1.trans h.1, by rw [hf.1]; exact h.2⟩
  riseTimer := by
    intro s h hlt
    refine ⟨h.1, ?_⟩
    show s.g_nThreads + 1 ≤ B
    have := h.1
    omega
  riseHotkey := by
    intro s a h hadm
    refine ⟨h.1, ?_⟩
    show s.g_nThreads + 1 ≤ B
    have := h.1
    rcases hadm with h1 | ⟨h1, h2⟩
    · omega
    · rcases hB with h3 | h3
      · omega
      · rw [h3 a] at h1; exact Bool.noConfusion h1
  release := by
    intro s h
    refine ⟨h.1, ?_⟩
    show s.g_nThreads - 1 ≤ B
    have := h.2
    omega
  timer := by
    intro _ _ _ _ _ _ s1 _ h
    exact h

/-- C2 as stated fails: with one quasi-thread at a limit of one, a queued trigger whose
first action is always allowed is launched, and `g_nThreads` is 2 while it runs. -/
theorem thread_limit_exceeded :
    sHot.g_nThreads ≤ sHot.g_MaxThreadsTotal
    ∧ ∃ x ∈ (runScript cfg0 P0 3 [Stmt.MsgSleep (-1) MessageMode.RETURN_AFTER_MESSAGES]
          sHot).visited,
        x.g_nThreads > x.g_MaxThreadsTotal := by
  decide

/-- C2 (amended): in every state passed through or returned in by a sequence of `MsgSleep`
and `CheckScriptTimers` calls whose subroutines are nested calls of the same two, started
with `g_nThreads <= g_MaxThreadsTotal`, the limit is unchanged and `g_nThreads` is at most
the larger of `g_MaxThreadsTotal` and `MAX_THREADS_LIMIT`; when no action type is always
allowed it is at most `g_MaxThreadsTotal`. -/
theorem threads_within_limit (cfg : Config) (P : Script) (fuel : Nat) (main : List Stmt)
    (s : State) (h0 : s.g_nThreads ≤ s.g_MaxThreadsTotal) :
    ∀ x, (x ∈ (runScript cfg P fuel main s).visited ∨ (runScript cfg P fuel main s).final = some x) →
      x.g_MaxThreadsTotal = s.g_MaxThreadsTotal
      ∧ x.g_nThreads ≤ max s.g_MaxThreadsTotal cfg.MAX_THREADS_LIMIT
      ∧ ((∀ a, P.ACT_IS_ALWAYS_ALLOWED a = false) → x.g_nThreads ≤ x.g_MaxThreadsTotal) := by
  intro x hx
  have hA := runScript_keeps P
    (threadBound_invariant cfg P.ACT_IS_ALWAYS_ALLOWED s.g_MaxThreadsTotal
      (max s.g_MaxThreadsTotal cfg.MAX_THREADS_LIMIT) (le_max_left _ _)
      (Or.inl (le_max_right _ _)))
    fuel main s ⟨rfl, le_trans h0 (le_max_left _ _)⟩
  have hxA : x.g_MaxThreadsTotal = s.g_MaxThreadsTotal
      ∧ x.g_nThreads ≤ max s.g_MaxThreadsTotal cfg.MAX_THREADS_LIMIT := by
    rcases hx with h | h
    · exact hA.1 x h
    · exact hA.2 x h
  refine ⟨hxA.1, hxA.2, ?_⟩
  intro hnone
  have hB := runScript_keeps P
    (threadBound_invariant cfg P.ACT_IS_ALWAYS_ALLOWED s.g_MaxThreadsTotal
      s.g_MaxThreadsTotal (le_refl _) (Or.inr hnone))
    fuel main s ⟨rfl, h0⟩
  have hxB : x.g_MaxThreadsTotal = s.g_MaxThreadsTotal ∧ x.g_nThreads ≤ s.g_MaxThreadsTotal := by
    rcases hx with h | h
    · exact hB.1 x h
    · exact hB.2 x h
  rw [hxB.1]; exact hxB.2

theorem threads_within_limit_witness :
    sHot.g_nThreads ≤ sHot.g_MaxThreadsTotal
    ∧ (sHotRun.final.getD s0).g_MaxThreadsTotal = sHot.g_MaxThreadsTotal
    ∧ (sHotRun.final.getD s0).g_nThreads ≤ max sHot.g_MaxThreadsTotal cfg0.MAX_THREADS_LIMIT
    ∧ ((∀ a, P0.ACT_IS_ALWAYS_ALLOWED a = false) →
        (sHotRun.final.getD s0).g_nThreads ≤ (sHotRun.final.getD s0).g_MaxThreadsTotal) :=
  ⟨by decide,
    threads_within_limit cfg0 P0 3 [Stmt.MsgSleep (-1) MessageMode.RETURN_AFTER_MESSAGES] sHot
      (by decide) (sHotRun.final.getD s0) (Or.inr (by decide))⟩

/-! ### A running timer entry -/

theorem modifyTimer_getElem?_ne (f : ScriptTimer → ScriptTimer) :
    ∀ (j i : Nat) (l : List ScriptTimer), j ≠ i → (modifyTimer f j l)[i]? = l[i]? := by
  intro j i l
  induction l generalizing j i with
  | nil => intro _; cases j <;> rfl
  | cons t ts ih =>
    intro hne
    cases j with
    | zero =>
      cases i with
      | zero => exact absurd rfl hne
      | succ i => simp [modifyTimer]
    | succ j =>
      cases i with
      | zero => simp [modifyTimer]
      | succ i =>
        simp only [modifyTimer, List.getElem?_cons_succ]
        exact ih j i (by omega)

theorem modifyTimer_getElem?_eq (f : ScriptTimer → ScriptTimer) :
    ∀ (i : Nat) (l : List ScriptTimer), (modifyTimer f i l)[i]? = (l[i]?).map f := by
  intro i l
  induction l generalizing i with
  | nil => cases i <;> rfl
  | cons t ts ih =>
    cases i with
    | zero => simp [modifyTimer]
    | succ i =>
      simp only [modifyTimer, List.getElem?_cons_succ]
      exact ih i

theorem runningEntry_invariant (cfg : Config) (alwaysAllowed : ActionTypeType → Bool)
    (i : Nat) (t1 : ScriptTimer) (h1 : 1 ≤ t1.mExistingThreads) :
    SchedulerInvariant cfg alwaysAllowed (fun s => s.mFirstTimer[i]? = some t1) where
  frame := by
    intro s s1 h hf
    show s1.mFirstTimer[i]? = some t1
    rw [hf.2.2]; exact h
  riseTimer := fun _ h _ => h
  riseHotkey := fun _ _ h _ => h
  release := fun _ h => h
  timer := by
    intro s j t hs hj hlt s1 f hs1
    have hne : j ≠ i := by
      intro e
      subst e
      have hs' : s.mFirstTimer[j]? = some t1 := hs
      rw [hs'] at hj
      have : t1 = t := Option.some.inj hj
      subst this
      omega
    show (modifyTimer f j s1.mFirstTimer)[i]? = some t1
    rw [modifyTimer_getElem?_ne f j i _ hne]
    exact hs1

section Found

variable {cfg : Config} {env : Env} {I : State → Prop}

theorem SchedulerInvariant.visitsFoundLoop
    (hI : SchedulerInvariant cfg env.ACT_IS_ALWAYS_ALLOWED I) (hE : EnvKeeps env I) :
    ∀ (fuel i n : Nat) (saved : Option global_struct) (s : State), I s →
      (n = 0 → s.g_nThreads < s.g_MaxThreadsTotal) →
      ∀ v ∈ (CheckScriptTimers.loop cfg env fuel i n saved s).visits,
        ∃ s1, I s1 ∧ s1.mFirstTimer[v.index]? = some v.timer := by
  intro fuel
  induction fuel with
  | zero => intro i n saved s _ _ v hv; simp [CheckScriptTimers.loop] at hv
  | succ k ih =>
    intro i n saved s hs hn v hv
    rcases CheckScriptTimers_loop_cases cfg env k i n saved s with
      ⟨_, h⟩ | ⟨t, ht, _, h⟩ | ⟨t, ht, _, _, h⟩ | ⟨t, s2, ht, hd, hr, h⟩
    · rw [h] at hv; simp at hv
    · rw [h] at hv
      rcases List.mem_cons.1 hv with e | e
      · subst e; exact ⟨s, hs, ht⟩
      · exact ih _ _ _ _ hs hn v e
    · rw [h] at hv
      rcases List.mem_cons.1 hv with e | e
      · subst e; exact ⟨s, hs, ht⟩
      · simp at e
    · have hall := hI.timersLoop hE (k + 1) i n saved s hs hn
      rw [h] at hall hv
      have h3 : I (CheckScriptTimers.finish i (GetTickCount s) s2) :=
        hall.1 _ (by simp)
      rcases List.mem_cons.1 hv with e | e
      · subst e; exact ⟨s, hs, ht⟩
      · exact ih _ _ _ _ h3 (by intro h0; omega) v e

theorem SchedulerInvariant.visitsFound
    (hI : SchedulerInvariant cfg env.ACT_IS_ALWAYS_ALLOWED I) (hE : EnvKeeps env I)
    (fuel : Nat) (s : State) (hs : I s) :
    ∀ v ∈ (CheckScriptTimers cfg env fuel s).visits,
      ∃ s1, I s1 ∧ s1.mFirstTimer[v.index]? = some v.timer := by
  unfold CheckScriptTimers
  split
  · intro v hv; simp at hv
  · rename_i hg
    simp only [Bool.or_eq_true, Bool.not_eq_true', decide_eq_true_eq, not_or] at hg
    exact hI.visitsFoundLoop hE fuel 0 0 none s hs (by intro _; omega)

end Found

theorem CheckScriptTimers_launch_entry (i : Nat) (s : State) :
    (CheckScriptTimers.launch i s).mFirstTimer[i]?
      = (s.mFirstTimer[i]?).map
          (fun t => { t with mExistingThreads := t.mExistingThreads + 1 }) := by
  show (modifyTimer _ i s.mFirstTimer)[i]? = _
  rw [modifyTimer_getElem?_eq]

theorem CheckScriptTimers_finish_entry (i tick : Nat) (s : State) :
    (CheckScriptTimers.finish i tick s).mFirstTimer[i]?
      = (s.mFirstTimer[i]?).map
          (fun t => { t with mExistingThreads := t.mExistingThreads - 1, mTimeLastRun := tick }) := by
  show (modifyTimer _ i (modifyTimer _ i s.mFirstTimer))[i]? = _
  rw [modifyTimer_getElem?_eq, modifyTimer_getElem?_eq]
  cases s.mFirstTimer[i]? <;> rfl

/-- C10: a timer entry, found at position `i` with a count of at least 0, is started with its
count raised by one, so at least 1.  While its subroutine runs (a body of nested `MsgSleep`
and `CheckScriptTimers` calls), the entry is the same in every state passed through: the
count stays, the last-run tick stays, and no pass of `CheckScriptTimers` started from such a
state fires position `i` or changes the entry.  When the subroutine has returned, the count
is back to its old value and the last-run tick is the start tick. -/
theorem running_timer_not_reentered (cfg : Config) (P : Script) (depth i : Nat) (s : State)
    (timer : ScriptTimer) (hfound : s.mFirstTimer[i]? = some timer)
    (hcount : 0 ≤ timer.mExistingThreads) :
    (CheckScriptTimers.launch i s).mFirstTimer[i]?
        = some { timer with mExistingThreads := timer.mExistingThreads + 1 }
    ∧ 1 ≤ timer.mExistingThreads + 1
    ∧ (∀ x, (x ∈ (ExecUntil cfg P depth timer.mLabel (CheckScriptTimers.launch i s)).visited
          ∨ (ExecUntil cfg P depth timer.mLabel (CheckScriptTimers.launch i s)).final = some x) →
        x.mFirstTimer[i]? = some { timer with mExistingThreads := timer.mExistingThreads + 1 }
        ∧ ∀ fuel d,
            (∀ v ∈ (CheckScriptTimers cfg (scriptEnv P (ExecUntil cfg P d) d) fuel x).visits,
              v.index = i → v.fired = false)
            ∧ (∀ y, (y ∈ (CheckScriptTimers cfg (scriptEnv P (ExecUntil cfg P d) d) fuel x).visited
                ∨ (CheckScriptTimers cfg (scriptEnv P (ExecUntil cfg P d) d) fuel x).final = some y) →
              y.mFirstTimer[i]?
                = some { timer with mExistingThreads := timer.mExistingThreads + 1 }))
    ∧ (∀ s2 tick,
        (ExecUntil cfg P depth timer.mLabel (CheckScriptTimers.launch i s)).final = some s2 →
        (CheckScriptTimers.finish i tick s2).mFirstTimer[i]?
          = some { timer with mTimeLastRun := tick }) := by
  have hI := runningEntry_invariant cfg P.ACT_IS_ALWAYS_ALLOWED i
    { timer with mExistingThreads := timer.mExistingThreads + 1 }
    (by show 1 ≤ timer.mExistingThreads + 1; omega)
  have hstart : (CheckScriptTimers.launch i s).mFirstTimer[i]?
      = some { timer with mExistingThreads := timer.mExistingThreads + 1 } := by
    rw [CheckScriptTimers_launch_entry, hfound]; rfl
  have hbody := ExecUntil_keeps P hI depth timer.mLabel _ hstart
  refine ⟨hstart, by omega, ?_, ?_⟩
  · intro x hx
    have hxI : x.mFirstTimer[i]?
        = some { timer with mExistingThreads := timer.mExistingThreads + 1 } := by
      rcases hx with h | h
      · exact hbody.1 x h
      · exact hbody.2 x h
    refine ⟨hxI, ?_⟩
    intro fuel d
    have hE : EnvKeeps (scriptEnv P (ExecUntil cfg P d) d)
        (fun s => s.mFirstTimer[i]?
          = some { timer with mExistingThreads := timer.mExistingThreads + 1 }) :=
      scriptEnv_keeps hI.frame P _ (ExecUntil_keeps P hI d) d
    constructor
    · intro v hv hvi
      obtain ⟨s1, hs1, hs1v⟩ :=
        @SchedulerInvariant.visitsFound cfg (scriptEnv P (ExecUntil cfg P d) d) _ hI hE fuel x
          hxI v hv
      rw [hvi] at hs1v
      have hs1' : s1.mFirstTimer[i]?
          = some { timer with mExistingThreads := timer.mExistingThreads + 1 } := hs1
      rw [hs1'] at hs1v
      have hvt : v.timer = { timer with mExistingThreads := timer.mExistingThreads + 1 } :=
        (Option.some.inj hs1v).symm
      have hf := CheckScriptTimers_loop_fired cfg (scriptEnv P (ExecUntil cfg P d) d)
      cases hfired : v.fired with
      | false => rfl
      | true =>
        exfalso
        have hdue : timerIsDue v.timer v.tick = true := by
          have hpass : ∀ v ∈ (CheckScriptTimers cfg (scriptEnv P (ExecUntil cfg P d) d) fuel
              x).visits, v.fired = timerIsDue v.timer v.tick := by
            unfold CheckScriptTimers
            split
            · intro v hv; simp at hv
            · exact hf fuel 0 0 none x
          rw [← hpass v hv]; exact hfired
        have := timerIsDue_count _ _ hdue
        rw [hvt] at this
        have h1 : timer.mExistingThreads + 1 < 1 := this
        omega
    · intro y hy
      have hall := @SchedulerInvariant.timers cfg (scriptEnv P (ExecUntil cfg P d) d) _ hI hE
        fuel x hxI
      rcases hy with h | h
      · exact hall.1 y h
      · exact hall.2 y h
  · intro s2 tick hs2
    have h2 : s2.mFirstTimer[i]?
        = some { timer with mExistingThreads := timer.mExistingThreads + 1 } := hbody.2 s2 hs2
    rw [CheckScriptTimers_finish_entry, h2]
    simp

theorem running_timer_not_reentered_witness :
    ((CheckScriptTimers.launch 0 sTimersGrace).mFirstTimer[0]?
        = some { (⟨0, 100, 0, 0, true⟩ : ScriptTimer) with mExistingThreads := 0 + 1 }
    ∧ (1 : Int) ≤ 0 + 1
    ∧ (∀ x, (x ∈ (ExecUntil cfg0 P1 6 0 (CheckScriptTimers.launch 0 sTimersGrace)).visited
          ∨ (ExecUntil cfg0 P1 6 0 (CheckScriptTimers.launch 0 sTimersGrace)).final = some x) →
        x.mFirstTimer[0]?
          = some { (⟨0, 100, 0, 0, true⟩ : ScriptTimer) with mExistingThreads := 0 + 1 }
        ∧ ∀ fuel d,
            (∀ v ∈ (CheckScriptTimers cfg0 (scriptEnv P1 (ExecUntil cfg0 P1 d) d) fuel x).visits,
              v.index = 0 → v.fired = false)
            ∧ (∀ y, (y ∈ (CheckScriptTimers cfg0 (scriptEnv P1 (ExecUntil cfg0 P1 d) d) fuel
                    x).visited
                ∨ (CheckScriptTimers cfg0 (scriptEnv P1 (ExecUntil cfg0 P1 d) d) fuel x).final
                    = some y) →
              y.mFirstTimer[0]?
                = some { (⟨0, 100, 0, 0, true⟩ : ScriptTimer) with mExistingThreads := 0 + 1 }))
    ∧ (∀ s2 tick,
        (ExecUntil cfg0 P1 6 0 (CheckScriptTimers.launch 0 sTimersGrace)).final = some s2 →
        (CheckScriptTimers.finish 0 tick s2).mFirstTimer[0]?
          = some { (⟨0, 100, 0, 0, true⟩ : ScriptTimer) with mTimeLastRun := tick }))
    ∧ (ExecUntil cfg0 P1 6 0 (CheckScriptTimers.launch 0 sTimersGrace)).final.map
          (fun x => x.mFirstTimer)
        = some [⟨0, 100, 0, 1, true⟩, ⟨1, 250, 500, 0, true⟩] :=
  ⟨running_timer_not_reentered cfg0 P1 6 0 sTimersGrace ⟨0, 100, 0, 0, true⟩ rfl (by decide),
    by decide⟩

/-! ### The startup-section timer -/

/-- C14 as stated fails: with a `global_clear_state` that resets the paused flag and a
paused live context, the template after the timeout is not the live context. -/
theorem AutoExecSectionTimeout_clears_default :
    sStartup.AutoExecSectionIsRunning = true
    ∧ (AutoExecSectionTimeout envClear sStartup).g_default ≠ sStartup.g := by
  decide

/-- C14 (amended): when `AutoExecSectionTimeout` runs while the startup section is still
running, the template `g_default` becomes `global_clear_state` of the live context `g` as it
was at that instant (so it equals `g` when `global_clear_state` leaves `g` as it is), `g`
itself is unchanged and `g_AllowInterruptionForSub` is true. -/
theorem AutoExecSectionTimeout_running (env : Env) (s : State)
    (h : s.AutoExecSectionIsRunning = true) :
    (AutoExecSectionTimeout env s).g_default = env.global_clear_state s.g
    ∧ (AutoExecSectionTimeout env s).g = s.g
    ∧ (AutoExecSectionTimeout env s).g_AllowInterruptionForSub = true
    ∧ (env.global_clear_state s.g = s.g → (AutoExecSectionTimeout env s).g_default = s.g) := by
  have e : AutoExecSectionTimeout env s
      = { KILL_AUTOEXEC_TIMER s with g_default := env.global_clear_state s.g,
                                     g_AllowInterruptionForSub := true } := by
    simp [AutoExecSectionTimeout, KILL_AUTOEXEC_TIMER, h]
  rw [e]
  exact ⟨rfl, rfl, rfl, fun hc => hc⟩

theorem AutoExecSectionTimeout_running_witness :
    (AutoExecSectionTimeout envClear sStartup).g_default
        = envClear.global_clear_state sStartup.g
    ∧ (AutoExecSectionTimeout envClear sStartup).g = sStartup.g
    ∧ (AutoExecSectionTimeout envClear sStartup).g_AllowInterruptionForSub = true
    ∧ (envClear.global_clear_state sStartup.g = sStartup.g →
        (AutoExecSectionTimeout envClear sStartup).g_default = sStartup.g) :=
  AutoExecSectionTimeout_running envClear sStartup rfl

/-- C15: when `AutoExecSectionTimeout` runs after the startup section has finished, only the
handle of the startup timer is reset: `g_default`, `g`, `g_AllowInterruptionForSub` and every
other variable are as before. -/
theorem AutoExecSectionTimeout_late (env : Env) (s : State)
    (h : s.AutoExecSectionIsRunning = false) :
    AutoExecSectionTimeout env s = { s with g_AutoExecTimerExists := false }
    ∧ (AutoExecSectionTimeout env s).g_default = s.g_default
    ∧ (AutoExecSectionTimeout env s).g = s.g
    ∧ (AutoExecSectionTimeout env s).g_AllowInterruptionForSub = s.g_AllowInterruptionForSub := by
  have e : AutoExecSectionTimeout env s = { s with g_AutoExecTimerExists := false } := by
    simp [AutoExecSectionTimeout, KILL_AUTOEXEC_TIMER, h]
  rw [e]
  exact ⟨rfl, rfl, rfl, rfl⟩

theorem AutoExecSectionTimeout_late_witness :
    AutoExecSectionTimeout envClear sStarted = { sStarted with g_AutoExecTimerExists := false }
    ∧ (AutoExecSectionTimeout envClear sStarted).g_default = sStarted.g_default
    ∧ (AutoExecSectionTimeout envClear sStarted).g = sStarted.g
    ∧ (AutoExecSectionTimeout envClear sStarted).g_AllowInterruptionForSub
        = sStarted.g_AllowInterruptionForSub :=
  AutoExecSectionTimeout_late envClear sStarted rfl

/-! ### IsCycleComplete: what it writes, and its arithmetic -/

theorem IsCycleComplete_complete_writes (d : Int) (t : Nat) (s : State) :
    ∃ a b c, IsCycleComplete.complete d t s
      = { s with mLinesExecutedThisCycle := a, mLastScriptRest := b, g_MainTimerExists := c } := by
  unfold IsCycleComplete.complete KILL_MAIN_TIMER
  dsimp only
  split_ifs
  · exact ⟨0, t, false, rfl⟩
  · exact ⟨0, t, s.g_MainTimerExists, rfl⟩
  · exact ⟨s.mLinesExecutedThisCycle, s.mLastScriptRest, false, rfl⟩
  · exact ⟨s.mLinesExecutedThisCycle, s.mLastScriptRest, s.g_MainTimerExists, rfl⟩

/-- The three variables `IsCycleComplete` may write. -/
theorem IsCycleComplete_writes (cfg : Config) (d : Int) (t : Nat) (a : Bool) (s : State) :
    ∃ x y z, (IsCycleComplete cfg d t a s).2
      = { s with mLinesExecutedThisCycle := x, mLastScriptRest := y, g_MainTimerExists := z } := by
  rcases IsCycleComplete_cases cfg d t a s with h | h <;> rw [h]
  · exact ⟨s.mLinesExecutedThisCycle, s.mLastScriptRest, s.g_MainTimerExists, rfl⟩
  · exact IsCycleComplete_complete_writes _ _ _

theorem IsCycleComplete_complete_rest (d : Int) (t : Nat) (s : State) :
    (0 ≤ d → (IsCycleComplete.complete d t s).mLinesExecutedThisCycle = 0
        ∧ (IsCycleComplete.complete d t s).mLastScriptRest = t)
    ∧ (d < 0 → (IsCycleComplete.complete d t s).mLinesExecutedThisCycle
          = s.mLinesExecutedThisCycle
        ∧ (IsCycleComplete.complete d t s).mLastScriptRest = s.mLastScriptRest) := by
  unfold IsCycleComplete.complete KILL_MAIN_TIMER
  dsimp only
  constructor
  · intro h
    have h' : d ≥ 0 := h
    rw [if_pos h']
    split_ifs <;> exact ⟨rfl, rfl⟩
  · intro h
    have h' : ¬ d ≥ 0 := by omega
    rw [if_neg h']
    split_ifs <;> exact ⟨rfl, rfl⟩

/-- C16: when `IsCycleComplete` answers FAIL it leaves every variable as it was (so the
periodic pulse stays).  When it answers OK with a duration of at least zero, the count of
lines executed this cycle becomes 0 and the last-rest tick becomes the current tick; when it
answers OK with a duration below zero both keep their values.  So the two are written only
on OK with a duration of at least zero. -/
theorem IsCycleComplete_bookkeeping (cfg : Config) (aSleepDuration : Int) (aStartTime : Nat)
    (aAllowEarlyReturn : Bool) (s : State) :
    ((IsCycleComplete cfg aSleepDuration aStartTime aAllowEarlyReturn s).1 = ResultType.FAIL →
        (IsCycleComplete cfg aSleepDuration aStartTime aAllowEarlyReturn s).2 = s)
    ∧ ((IsCycleComplete cfg aSleepDuration aStartTime aAllowEarlyReturn s).1 = ResultType.OK →
        0 ≤ aSleepDuration →
        (IsCycleComplete cfg aSleepDuration aStartTime aAllowEarlyReturn s).2.mLinesExecutedThisCycle
            = 0
        ∧ (IsCycleComplete cfg aSleepDuration aStartTime aAllowEarlyReturn s).2.mLastScriptRest
            = GetTickCount s)
    ∧ ((IsCycleComplete cfg aSleepDuration aStartTime aAllowEarlyReturn s).1 = ResultType.OK →
        aSleepDuration < 0 →
        (IsCycleComplete cfg aSleepDuration aStartTime aAllowEarlyReturn s).2.mLinesExecutedThisCycle
            = s.mLinesExecutedThisCycle
        ∧ (IsCycleComplete cfg aSleepDuration aStartTime aAllowEarlyReturn s).2.mLastScriptRest
            = s.mLastScriptRest)
    ∧ (((IsCycleComplete cfg aSleepDuration aStartTime aAllowEarlyReturn s).2.mLinesExecutedThisCycle
            ≠ s.mLinesExecutedThisCycle
          ∨ (IsCycleComplete cfg aSleepDuration aStartTime aAllowEarlyReturn s).2.mLastScriptRest
            ≠ s.mLastScriptRest) →
        (IsCycleComplete cfg aSleepDuration aStartTime aAllowEarlyReturn s).1 = ResultType.OK
          ∧ 0 ≤ aSleepDuration) := by
  obtain ⟨r1, r2⟩ := IsCycleComplete_complete_rest aSleepDuration (GetTickCount s) s
  rcases IsCycleComplete_cases cfg aSleepDuration aStartTime aAllowEarlyReturn s with h | h <;>
    rw [h]
  · refine ⟨fun _ => rfl, fun hc => ?_, fun hc => ?_, fun hc => ?_⟩
    · exact ResultType.noConfusion hc
    · exact ResultType.noConfusion hc
    · rcases hc with hc | hc <;> exact absurd rfl hc
  · refine ⟨fun hc => ?_, fun _ hd => r1 hd, fun _ hd => r2 hd, fun hc => ⟨rfl, ?_⟩⟩
    · exact ResultType.noConfusion hc
    · by_contra hneg
      have hlt : aSleepDuration < 0 := by omega
      obtain ⟨e1, e2⟩ := r2 hlt
      rcases hc with hc | hc
      · exact hc e1
      · exact hc e2

/-- For an elapsed time `e` below 2^32, the remaining time the code computes is the exact `aSleepDuration - e` whenever that difference fits an `int`. -/
theorem remainingTime_exact (d : Int) (start e : Nat) (he : e < 4294967296) (hlo : -2147483648 ≤ d - e) (hhi : d - e < 2147483648) :
    remainingTime d ((start + e) % 4294967296) start = d - e := by
  unfold remainingTime toInt32 toDWORD
  omega

/-- C19 fails on the code: with a duration of 100 ms, a start tick of 0 and 2^31 + 200 ms
elapsed (the tick counter has not even wrapped), the exact remaining time is negative, yet
`IsCycleComplete` with early return disallowed answers FAIL. -/
theorem IsCycleComplete_wraps_late :
    GetTickCount sLate = (0 + 2147483848) % 4294967296
    ∧ ¬ ((100 : Int) - 2147483848 > cfg0.SLEEP_INTERVAL_HALF)
    ∧ (IsCycleComplete cfg0 100 0 false sLate).1 = ResultType.FAIL := by
  decide

/-! ### Resuming the suspended thread -/

theorem MsgSleep_resume_writes (cfg : Config) (L : Locals) (saved : global_struct) (s : State)
    (hmode : L.aMode = MessageMode.RETURN_AFTER_MESSAGES) :
    ∃ L1 x y z, MsgSleep.resume cfg L saved s
      = Next.cont L1 { RESUME_UNDERLYING_THREAD saved s with
          mLinesExecutedThisCycle := x, mLastScriptRest := y, g_MainTimerExists := z } := by
  obtain ⟨x, y, z, e⟩ := IsCycleComplete_writes cfg L.aSleepDuration L.start_time
    L.allow_early_return (RESUME_UNDERLYING_THREAD saved s)
  unfold MsgSleep.resume
  rw [if_pos hmode]
  dsimp only
  rw [e]
  split_ifs
  · exact ⟨_, x, y, z, rfl⟩
  · exact ⟨_, x, y, true, rfl⟩
  · exact ⟨_, x, y, z, rfl⟩

/-- C17: `RESUME_UNDERLYING_THREAD` copies the snapshot into `g` and the snapshot's status
text into the `ErrorLevel` variable.  If an un-pause is pending and the snapshot is paused,
`IsPaused` becomes false, the pending flag is cleared and `g_nPausedThreads` goes down by one;
otherwise `IsPaused` is the snapshot's, and the flag and `g_nPausedThreads` are as before.
Both uses, after the loop of `CheckScriptTimers` and after a trigger in `MsgSleep`, go through
it. -/
theorem RESUME_UNDERLYING_THREAD_unpause (cfg : Config) (L : Locals)
    (global_saved : global_struct) (s : State) :
    ((s.g_UnpauseWhenResumed = true ∧ global_saved.IsPaused = true) →
        (RESUME_UNDERLYING_THREAD global_saved s).g.IsPaused = false
        ∧ (RESUME_UNDERLYING_THREAD global_saved s).g_UnpauseWhenResumed = false
        ∧ (RESUME_UNDERLYING_THREAD global_saved s).g_nPausedThreads = s.g_nPausedThreads - 1)
    ∧ (¬ (s.g_UnpauseWhenResumed = true ∧ global_saved.IsPaused = true) →
        (RESUME_UNDERLYING_THREAD global_saved s).g.IsPaused = global_saved.IsPaused
        ∧ (RESUME_UNDERLYING_THREAD global_saved s).g_UnpauseWhenResumed
            = s.g_UnpauseWhenResumed
        ∧ (RESUME_UNDERLYING_THREAD global_saved s).g_nPausedThreads = s.g_nPausedThreads)
    ∧ (RESUME_UNDERLYING_THREAD global_saved s).g
        = { global_saved with IsPaused := (RESUME_UNDERLYING_THREAD global_saved s).g.IsPaused }
    ∧ (RESUME_UNDERLYING_THREAD global_saved s).g_ErrorLevel = global_saved.ErrorLevel
    ∧ (∀ n, CheckScriptTimers.epilogue (n + 1) (some global_saved) s
        = RESUME_UNDERLYING_THREAD global_saved { s with g_nThreads := s.g_nThreads - 1 })
    ∧ (L.aMode = MessageMode.RETURN_AFTER_MESSAGES →
        ∃ L1 x y z, MsgSleep.resume cfg L global_saved s
          = Next.cont L1 { RESUME_UNDERLYING_THREAD global_saved s with
              mLinesExecutedThisCycle := x, mLastScriptRest := y, g_MainTimerExists := z }) := by
  refine ⟨?_, ?_, ?_, ?_, ?_, MsgSleep_resume_writes cfg L global_saved s⟩
  · intro h
    simp [RESUME_UNDERLYING_THREAD, h.1, h.2]
  · intro h
    have hc : ¬ ((s.g_UnpauseWhenResumed && global_saved.IsPaused) = true) := by
      simpa using h
    unfold RESUME_UNDERLYING_THREAD
    dsimp only
    rw [if_neg hc]
    exact ⟨rfl, rfl, rfl⟩
  · unfold RESUME_UNDERLYING_THREAD
    dsimp only
    split_ifs <;> rfl
  · unfold RESUME_UNDERLYING_THREAD
    dsimp only
    split_ifs <;> rfl
  · intro n
    simp [CheckScriptTimers.epilogue]

theorem RESUME_UNDERLYING_THREAD_unpause_witness :
    (RESUME_UNDERLYING_THREAD sPaused.g sUnpause).g.IsPaused = false
    ∧ (RESUME_UNDERLYING_THREAD sPaused.g sUnpause).g_UnpauseWhenResumed = false
    ∧ (RESUME_UNDERLYING_THREAD sPaused.g sUnpause).g_nPausedThreads
        = sUnpause.g_nPausedThreads - 1 :=
  (RESUME_UNDERLYING_THREAD_unpause cfg0 L0 sPaused.g sUnpause).1 ⟨rfl, rfl⟩

theorem MsgSleep_resume_ErrorLevel (cfg : Config) (L : Locals) (saved : global_struct)
    (s : State) (hmode : L.aMode = MessageMode.RETURN_AFTER_MESSAGES) :
    ∃ L1 s2, MsgSleep.resume cfg L saved s = Next.cont L1 s2
      ∧ s2.g_ErrorLevel = saved.ErrorLevel := by
  obtain ⟨L1, x, y, z, h⟩ := MsgSleep_resume_writes cfg L saved s hmode
  refine ⟨L1, _, h, ?_⟩
  show (RESUME_UNDERLYING_THREAD saved s).g_ErrorLevel = saved.ErrorLevel
  unfold RESUME_UNDERLYING_THREAD
  dsimp only
  split_ifs <;> rfl

/-- C20: a trigger admitted in mode `RETURN_AFTER_MESSAGES` whose subroutine returns, whatever
it has assigned to `ErrorLevel`: the loop step goes on with the `ErrorLevel` variable holding
its content from before the run cut to at most `sizeof(g.ErrorLevel) - 1` characters, which
is the content itself when it is no longer than that. -/
theorem MsgSleep_restores_ErrorLevel (cfg : Config) (env : Env) (L : Locals) (msg : MSG)
    (s s1 : State)
    (hmode : L.aMode = MessageMode.RETURN_AFTER_MESSAGES)
    (hin : MsgSleep.overLimit cfg env msg s = false)
    (hallow : env.PerformIsAllowed msg.wParam s = true)
    (hret : (env.PerformID msg.wParam (MsgSleep.launch cfg env L.aMode msg s).2).final = some s1) :
    ∃ L1 s2, (MsgSleep.hotkey cfg env L msg s).next = Next.cont L1 s2
      ∧ s2.g_ErrorLevel = s.g_ErrorLevel.take (cfg.sizeof_ErrorLevel - 1)
      ∧ s2.g_ErrorLevel.length ≤ cfg.sizeof_ErrorLevel - 1
      ∧ (s.g_ErrorLevel.length ≤ cfg.sizeof_ErrorLevel - 1 → s2.g_ErrorLevel = s.g_ErrorLevel) := by
  unfold MsgSleep.hotkey
  simp only [hin, hallow, hret]
  obtain ⟨L1, s2, h1, h2⟩ := MsgSleep_resume_ErrorLevel cfg L
    (MsgSleep.launch cfg env L.aMode msg s).1 (MsgSleep.afterPerform env msg s1) hmode
  have he : s2.g_ErrorLevel = s.g_ErrorLevel.take (cfg.sizeof_ErrorLevel - 1) := by
    rw [h2, hmode, MsgSleep_launch_saved]
    rfl
  refine ⟨L1, s2, by simpa using h1, he, ?_, ?_⟩
  · rw [he, List.length_take]
    exact Nat.min_le_left _ _
  · intro hfit
    rw [he]
    exact List.take_of_length_le hfit

theorem MsgSleep_restores_ErrorLevel_witness :
    ∃ L1 s2, (MsgSleep.hotkey cfg0 envClobber L0 msgHotkey0 sPaused).next = Next.cont L1 s2
      ∧ s2.g_ErrorLevel = sPaused.g_ErrorLevel.take (cfg0.sizeof_ErrorLevel - 1)
      ∧ s2.g_ErrorLevel.length ≤ cfg0.sizeof_ErrorLevel - 1
      ∧ (sPaused.g_ErrorLevel.length ≤ cfg0.sizeof_ErrorLevel - 1 →
          s2.g_ErrorLevel = sPaused.g_ErrorLevel) :=
  MsgSleep_restores_ErrorLevel cfg0 envClobber L0 msgHotkey0 sPaused
    (clobber (MsgSleep.launch cfg0 envClobber L0.aMode msgHotkey0 sPaused).2)
    rfl (by decide) rfl rfl

/-! ### The coalesced re-fire -/

theorem modifyHotkey_getElem? (f : Hotkey → Hotkey) :
    ∀ (i j : Nat) (l : List Hotkey),
      (modifyHotkey f i l)[j]? = (l[j]?).map (fun h => if j = i then f h else h) := by
  intro i j l
  induction l generalizing i j with
  | nil => cases i <;> rfl
  | cons t ts ih =>
    cases i with
    | zero =>
      cases j with
      | zero => simp [modifyHotkey]
      | succ j => simp [modifyHotkey]
    | succ i =>
      cases j with
      | zero => simp [modifyHotkey]
      | succ j =>
        simp only [modifyHotkey, List.getElem?_cons_succ]
        rw [ih i j]
        simp

theorem modifyHotkey_idem (f : Hotkey → Hotkey) (hf : ∀ h, f (f h) = f h) :
    ∀ (i : Nat) (l : List Hotkey), modifyHotkey f i (modifyHotkey f i l) = modifyHotkey f i l := by
  intro i l
  induction l generalizing i with
  | nil => cases i <;> rfl
  | cons t ts ih =>
    cases i with
    | zero => simp [modifyHotkey, hf]
    | succ i => simp [modifyHotkey, ih]

theorem Hotkey_RunAgainAfterFinished_idem (id : HotkeyIDType) (s : State) :
    Hotkey.RunAgainAfterFinished id (Hotkey.RunAgainAfterFinished id s)
      = Hotkey.RunAgainAfterFinished id s := by
  have h := modifyHotkey_idem (fun (hk : Hotkey) => { hk with mRunAgainAfterFinished := true })
    (fun _ => rfl) id s.hotkeys
  unfold Hotkey.RunAgainAfterFinished
  dsimp only
  rw [h]

theorem Hotkey_RunAgainAfterFinished_entry (id j : HotkeyIDType) (s : State) :
    (Hotkey.RunAgainAfterFinished id s).hotkeys[j]?
      = (s.hotkeys[j]?).map
          (fun h => if j = id then { h with mRunAgainAfterFinished := true } else h) := by
  show (modifyHotkey _ id s.hotkeys)[j]? = _
  rw [modifyHotkey_getElem?]

theorem Hotkey_PerformIsAllowed_RunAgain (id j : HotkeyIDType) (s : State) :
    Hotkey.PerformIsAllowed j (Hotkey.RunAgainAfterFinished id s)
      = Hotkey.PerformIsAllowed j s := by
  unfold Hotkey.PerformIsAllowed
  rw [Hotkey_RunAgainAfterFinished_entry]
  cases s.hotkeys[j]? with
  | none => rfl
  | some h => by_cases e : j = id <;> simp [e]

theorem Hotkey_GetTypeOfFirstLine_RunAgain (id j : HotkeyIDType) (s : State) :
    Hotkey.GetTypeOfFirstLine j (Hotkey.RunAgainAfterFinished id s)
      = Hotkey.GetTypeOfFirstLine j s := by
  unfold Hotkey.GetTypeOfFirstLine
  rw [Hotkey_RunAgainAfterFinished_entry]
  cases s.hotkeys[j]? with
  | none => rfl
  | some h => by_cases e : j = id <;> simp [e]

theorem Hotkey_runAgainPending_RunAgain (id : HotkeyIDType) (s : State) (h : Hotkey)
    (hk : s.hotkeys[id]? = some h) :
    Hotkey.runAgainPending id (Hotkey.RunAgainAfterFinished id s) = true := by
  unfold Hotkey.runAgainPending
  rw [Hotkey_RunAgainAfterFinished_entry, hk]
  simp

theorem MsgSleep_hotkey_busy (cfg : Config) (env : Env) (L : Locals) (msg : MSG) (s : State)
    (hin : MsgSleep.overLimit cfg env msg s = false)
    (hbusy : env.PerformIsAllowed msg.wParam s = false) :
    MsgSleep.hotkey cfg env L msg s
      = ⟨[PumpEv.runAgain msg.wParam], [],
          Next.cont L (env.RunAgainAfterFinished msg.wParam s)⟩ := by
  simp [MsgSleep.hotkey, hin, hbusy]

theorem MsgSleep_dispatch_hotkey (cfg : Config) (env : Env) (fuel : Nat) (L : Locals)
    (msg : MSG) (s : State)
    (hm : msg.message = MessageKind.WM_HOTKEY ∨ msg.message = MessageKind.AHK_HOOK_HOTKEY) :
    MsgSleep.dispatch cfg env fuel L msg s = MsgSleep.hotkey cfg env L msg s := by
  rcases hm with hm | hm <;> simp only [MsgSleep.dispatch, hm]

/-- C13: a trigger message that passes the test of the thread limit but fails
`Hotkey::PerformIsAllowed` makes the loop step request the re-fire of that trigger once and do
nothing else: no subroutine is performed, the locals stay, and the state is the one that
`RunAgainAfterFinished` returns.  With the request modelled as a pending flag of the
trigger, that state differs from the old one in the flag only (so `g`, `g_nThreads` and the
hotkey bookkeeping are as before), the flag is set, and a second such arrival leaves the
state of the first. -/
theorem MsgSleep_coalesces_refire (cfg : Config) (env : Env) (fuel : Nat) (L : Locals)
    (msg : MSG) (s : State)
    (hm : msg.message = MessageKind.WM_HOTKEY ∨ msg.message = MessageKind.AHK_HOOK_HOTKEY)
    (hin : MsgSleep.overLimit cfg env msg s = false)
    (hbusy : env.PerformIsAllowed msg.wParam s = false) :
    MsgSleep.dispatch cfg env fuel L msg s
        = ⟨[PumpEv.runAgain msg.wParam], [],
            Next.cont L (env.RunAgainAfterFinished msg.wParam s)⟩
    ∧ Hotkey.RunAgainAfterFinished msg.wParam s
        = { s with hotkeys := (Hotkey.RunAgainAfterFinished msg.wParam s).hotkeys }
    ∧ (∀ j, (Hotkey.RunAgainAfterFinished msg.wParam s).hotkeys[j]?
        = (s.hotkeys[j]?).map
            (fun h => if j = msg.wParam then { h with mRunAgainAfterFinished := true } else h))
    ∧ Hotkey.RunAgainAfterFinished msg.wParam (Hotkey.RunAgainAfterFinished msg.wParam s)
        = Hotkey.RunAgainAfterFinished msg.wParam s
    ∧ (∀ P exec n, MsgSleep.overLimit cfg (scriptEnv P exec n) msg s = false →
        Hotkey.PerformIsAllowed msg.wParam s = false →
        MsgSleep.dispatch cfg (scriptEnv P exec n) fuel L msg s
            = ⟨[PumpEv.runAgain msg.wParam], [],
                Next.cont L (Hotkey.RunAgainAfterFinished msg.wParam s)⟩
        ∧ MsgSleep.dispatch cfg (scriptEnv P exec n) fuel L msg
              (Hotkey.RunAgainAfterFinished msg.wParam s)
            = ⟨[PumpEv.runAgain msg.wParam], [],
                Next.cont L (Hotkey.RunAgainAfterFinished msg.wParam s)⟩) := by
  refine ⟨?_, rfl, fun j => Hotkey_RunAgainAfterFinished_entry _ j s,
    Hotkey_RunAgainAfterFinished_idem _ s, ?_⟩
  · rw [MsgSleep_dispatch_hotkey cfg env fuel L msg s hm]
    exact MsgSleep_hotkey_busy cfg env L msg s hin hbusy
  · intro P exec n hin2 hbusy2
    constructor
    · rw [MsgSleep_dispatch_hotkey cfg _ fuel L msg s hm]
      exact MsgSleep_hotkey_busy cfg (scriptEnv P exec n) L msg s hin2 hbusy2
    · rw [MsgSleep_dispatch_hotkey cfg _ fuel L msg _ hm]
      have h1 : MsgSleep.overLimit cfg (scriptEnv P exec n) msg
          (Hotkey.RunAgainAfterFinished msg.wParam s) = false := by
        rw [← hin2]
        show (decide _ && !(P.ACT_IS_ALWAYS_ALLOWED (Hotkey.GetTypeOfFirstLine msg.wParam
          (Hotkey.RunAgainAfterFinished msg.wParam s)) && decide _)) = _
        rw [Hotkey_GetTypeOfFirstLine_RunAgain]
        rfl
      have h2 : (scriptEnv P exec n).PerformIsAllowed msg.wParam
          (Hotkey.RunAgainAfterFinished msg.wParam s) = false := by
        show Hotkey.PerformIsAllowed _ _ = false
        rw [Hotkey_PerformIsAllowed_RunAgain]; exact hbusy2
      have h3 := MsgSleep_hotkey_busy cfg (scriptEnv P exec n) L msg
        (Hotkey.RunAgainAfterFinished msg.wParam s) h1 h2
      have e : (scriptEnv P exec n).RunAgainAfterFinished msg.wParam
          (Hotkey.RunAgainAfterFinished msg.wParam s)
          = Hotkey.RunAgainAfterFinished msg.wParam s :=
        Hotkey_RunAgainAfterFinished_idem _ s
      rw [h3, e]

theorem MsgSleep_coalesces_refire_witness :
    (MsgSleep.dispatch cfg0 env0 3 L0 msgHotkey0 sBusy
        = ⟨[PumpEv.runAgain msgHotkey0.wParam], [],
            Next.cont L0 (env0.RunAgainAfterFinished msgHotkey0.wParam sBusy)⟩
    ∧ Hotkey.RunAgainAfterFinished msgHotkey0.wParam sBusy
        = { sBusy with hotkeys := (Hotkey.RunAgainAfterFinished msgHotkey0.wParam sBusy).hotkeys }
    ∧ (∀ j, (Hotkey.RunAgainAfterFinished msgHotkey0.wParam sBusy).hotkeys[j]?
        = (sBusy.hotkeys[j]?).map
            (fun h => if j = msgHotkey0.wParam then { h with mRunAgainAfterFinished := true }
              else h))
    ∧ Hotkey.RunAgainAfterFinished msgHotkey0.wParam
          (Hotkey.RunAgainAfterFinished msgHotkey0.wParam sBusy)
        = Hotkey.RunAgainAfterFinished msgHotkey0.wParam sBusy
    ∧ (∀ P exec n, MsgSleep.overLimit cfg0 (scriptEnv P exec n) msgHotkey0 sBusy = false →
        Hotkey.PerformIsAllowed msgHotkey0.wParam sBusy = false →
        MsgSleep.dispatch cfg0 (scriptEnv P exec n) 3 L0 msgHotkey0 sBusy
            = ⟨[PumpEv.runAgain msgHotkey0.wParam], [],
                Next.cont L0 (Hotkey.RunAgainAfterFinished msgHotkey0.wParam sBusy)⟩
        ∧ MsgSleep.dispatch cfg0 (scriptEnv P exec n) 3 L0 msgHotkey0
              (Hotkey.RunAgainAfterFinished msgHotkey0.wParam sBusy)
            = ⟨[PumpEv.runAgain msgHotkey0.wParam], [],
                Next.cont L0 (Hotkey.RunAgainAfterFinished msgHotkey0.wParam sBusy)⟩))
    ∧ (Hotkey.RunAgainAfterFinished 0 sBusy).hotkeys
        = [{ hkBusy with mRunAgainAfterFinished := true }] :=
  ⟨MsgSleep_coalesces_refire cfg0 env0 3 L0 msgHotkey0 sBusy (Or.inl rfl) (by decide)
    (by decide), by decide⟩

/-! ### One pass of `CheckScriptTimers`: the thread counter and the last-run ticks -/

theorem CheckScriptTimers_prepare_nThreads (cfg : Config) (n : Nat)
    (saved : Option global_struct) (s : State) :
    (CheckScriptTimers.prepare cfg n saved s).2.g_nThreads
      = if n = 0 then s.g_nThreads + 1 else s.g_nThreads := by
  unfold CheckScriptTimers.prepare
  split <;> rfl

theorem CheckScriptTimers_epilogue_nThreads (n : Nat) (saved : Option global_struct)
    (s : State) :
    (CheckScriptTimers.epilogue n saved s).g_nThreads
      = if n = 0 then s.g_nThreads else s.g_nThreads - 1 := by
  unfold CheckScriptTimers.epilogue
  by_cases h : n = 0
  · simp [h]
  · rw [if_pos h, if_neg h]
    dsimp only
    cases saved with
    | none => rfl
    | some g => exact (RESUME_UNDERLYING_THREAD_frame g _).1

/-- With subroutines that leave `g_nThreads` balanced, every subroutine of the loop is started
with the counter at `N + 1`, where `N` is the value on entry, and the call returns with `N`.
The counter is `N` until the first firing and `N + 1` after it. -/
theorem CheckScriptTimers_loop_counter (cfg : Config) (env : Env) (N : Int)
    (hbal : ∀ l x y, (env.ExecUntil l x).final = some y → y.g_nThreads = x.g_nThreads) :
    ∀ (fuel i n : Nat) (saved : Option global_struct) (s : State),
      s.g_nThreads = (if n = 0 then N else N + 1) →
      CheckScriptTimers.loop cfg (env.checkingStart (fun x => decide (x.g_nThreads = N + 1)))
          fuel i n saved s
        = CheckScriptTimers.loop cfg env fuel i n saved s
      ∧ ∀ s1, (CheckScriptTimers.loop cfg env fuel i n saved s).final = some s1 →
          s1.g_nThreads = N := by
  intro fuel
  induction fuel with
  | zero => intro i n saved s _; exact ⟨rfl, by simp [CheckScriptTimers.loop]⟩
  | succ k ih =>
    intro i n saved s hs
    have hstart : (CheckScriptTimers.launch i (CheckScriptTimers.prepare cfg n saved s).2).g_nThreads
        = N + 1 := by
      obtain ⟨f, hf⟩ := CheckScriptTimers_launch_frame i (CheckScriptTimers.prepare cfg n saved s).2
      rw [hf.1]
      show (CheckScriptTimers.prepare cfg n saved s).2.g_nThreads = N + 1
      rw [CheckScriptTimers_prepare_nThreads, hs]
      split <;> rfl
    have hsame : ∀ l, (env.checkingStart (fun x => decide (x.g_nThreads = N + 1))).ExecUntil l
        (CheckScriptTimers.launch i (CheckScriptTimers.prepare cfg n saved s).2)
        = env.ExecUntil l
          (CheckScriptTimers.launch i (CheckScriptTimers.prepare cfg n saved s).2) := by
      intro l
      simp [Env.checkingStart, hstart]
    rcases CheckScriptTimers_loop_cases cfg env k i n saved s with
      ⟨hn, h⟩ | ⟨t, ht, hd, h⟩ | ⟨t, ht, hd, hr, h⟩ | ⟨t, s2, ht, hd, hr, h⟩
    · rw [h, CheckScriptTimers_loop_end cfg _ k i n saved s hn]
      refine ⟨rfl, ?_⟩
      intro s1 hs1
      simp only [Option.some.injEq] at hs1
      rw [← hs1, CheckScriptTimers_epilogue_nThreads, hs]
      split <;> simp
    · obtain ⟨e1, e2⟩ := ih (i + 1) n saved s hs
      rw [h, CheckScriptTimers_loop_skip cfg _ k i n saved s t ht hd, e1]
      exact ⟨rfl, e2⟩
    · rw [h, CheckScriptTimers_loop_fire_hang cfg _ k i n saved s t ht hd
        (by rw [hsame]; exact hr), hsame]
      exact ⟨rfl, by simp⟩
    · have h3 : (CheckScriptTimers.finish i (GetTickCount s) s2).g_nThreads = N + 1 := by
        obtain ⟨f, g, hf⟩ := CheckScriptTimers_finish_frame i (GetTickCount s) s2
        rw [hf.1]
        show s2.g_nThreads = N + 1
        rw [hbal _ _ _ hr, hstart]
      obtain ⟨e1, e2⟩ := ih (i + 1) (n + 1) (CheckScriptTimers.prepare cfg n saved s).1
        (CheckScriptTimers.finish i (GetTickCount s) s2) (by rw [h3]; simp)
      rw [h, CheckScriptTimers_loop_fire cfg _ k i n saved s s2 t ht hd
        (by rw [hsame]; exact hr), hsame, e1]
      exact ⟨rfl, e2⟩

/-- C11: with subroutines that leave `g_nThreads` balanced, in one call of `CheckScriptTimers`
every fired subroutine is started with `g_nThreads` at the value on entry plus 1 (checking
this at every start changes nothing), however many timers are fired, and the call returns
with `g_nThreads` at the value on entry. -/
theorem CheckScriptTimers_counts_one_thread (cfg : Config) (env : Env) (fuel : Nat) (s : State)
    (hbal : ∀ l x y, (env.ExecUntil l x).final = some y → y.g_nThreads = x.g_nThreads) :
    CheckScriptTimers cfg
        (env.checkingStart (fun x => decide (x.g_nThreads = s.g_nThreads + 1))) fuel s
      = CheckScriptTimers cfg env fuel s
    ∧ ∀ s1, (CheckScriptTimers cfg env fuel s).final = some s1 →
        s1.g_nThreads = s.g_nThreads := by
  obtain ⟨e1, e2⟩ := CheckScriptTimers_loop_counter cfg env s.g_nThreads hbal fuel 0 0 none s
    (by simp)
  unfold CheckScriptTimers
  split
  · refine ⟨rfl, ?_⟩
    intro s1 hs1
    simp only [Option.some.injEq] at hs1
    rw [← hs1]
  · exact ⟨e1, e2⟩

theorem CheckScriptTimers_counts_one_thread_witness :
    (CheckScriptTimers cfg0
        (envSlow.checkingStart (fun x => decide (x.g_nThreads = sTimers.g_nThreads + 1))) 3
        sTimers
      = CheckScriptTimers cfg0 envSlow 3 sTimers
    ∧ ∀ s1, (CheckScriptTimers cfg0 envSlow 3 sTimers).final = some s1 →
        s1.g_nThreads = sTimers.g_nThreads)
    ∧ (CheckScriptTimers cfg0 envSlow 3 sTimers).visits.map Visit.fired = [true, true]
    ∧ (CheckScriptTimers cfg0 envSlow 3 sTimers).visited.map (fun x => x.g_nThreads)
        = [1, 1, 1, 1]
    ∧ (CheckScriptTimers cfg0 envSlow 3 sTimers).final.map (fun x => x.g_nThreads) = some 0 :=
  ⟨CheckScriptTimers_counts_one_thread cfg0 envSlow 3 sTimers (fun _ _ _ h => by
      simp only [envSlow, Option.some.injEq] at h
      rw [← h]),
    by decide, by decide, by decide⟩

theorem CheckScriptTimers_launch_tick (cfg : Config) (i n : Nat)
    (saved : Option global_struct) (s : State) :
    GetTickCount (CheckScriptTimers.launch i (CheckScriptTimers.prepare cfg n saved s).2)
      = GetTickCount s := by
  unfold CheckScriptTimers.prepare
  split <;> rfl

theorem CheckScriptTimers_finish_others (i tick j : Nat) (s : State) (h : j ≠ i) :
    (CheckScriptTimers.finish i tick s).mFirstTimer[j]? = s.mFirstTimer[j]? := by
  show (modifyTimer _ i (modifyTimer _ i s.mFirstTimer))[j]? = _
  rw [modifyTimer_getElem?_ne _ i j _ (Ne.symm h), modifyTimer_getElem?_ne _ i j _ (Ne.symm h)]

/-- Every fired step of the loop has its subroutine started in a visited state `s1` whose
tick counter is the tick of the step; when that subroutine returns `s2`, the loop goes on
from `CheckScriptTimers.finish` applied to the tick of the step and `s2`. -/
theorem CheckScriptTimers_loop_start_tick (cfg : Config) (env : Env) :
    ∀ (fuel i n : Nat) (saved : Option global_struct) (s : State) (v : Visit),
      v ∈ (CheckScriptTimers.loop cfg env fuel i n saved s).visits → v.fired = true →
      ∃ s1 ∈ (CheckScriptTimers.loop cfg env fuel i n saved s).visited,
        GetTickCount s1 = v.tick ∧
        ∀ s2, (env.ExecUntil v.timer.mLabel s1).final = some s2 →
          CheckScriptTimers.finish v.index v.tick s2
            ∈ (CheckScriptTimers.loop cfg env fuel i n saved s).visited := by
  intro fuel
  induction fuel with
  | zero => intro i n saved s v hv; simp [CheckScriptTimers.loop] at hv
  | succ k ih =>
    intro i n saved s v hv hf
    rcases CheckScriptTimers_loop_cases cfg env k i n saved s with
      ⟨_, h⟩ | ⟨t, _, _, h⟩ | ⟨t, _, _, hr, h⟩ | ⟨t, s2, _, _, hr, h⟩
    · rw [h] at hv; simp at hv
    · rw [h] at hv ⊢
      rcases List.mem_cons.1 hv with e | hv1
      · rw [e] at hf; cases hf
      · exact ih (i + 1) n saved s v hv1 hf
    · rw [h] at hv ⊢
      have e : v = ⟨i, t, GetTickCount s, true⟩ := by simpa using hv
      subst e
      refine ⟨_, List.mem_cons_self _ _, CheckScriptTimers_launch_tick cfg i n saved s, ?_⟩
      intro s2 hs2
      rw [hr] at hs2; cases hs2
    · rw [h] at hv ⊢
      rcases List.mem_cons.1 hv with e | hv1
      · subst e
        refine ⟨_, List.mem_cons_self _ _, CheckScriptTimers_launch_tick cfg i n saved s, ?_⟩
        intro s3 hs3
        rw [hr] at hs3
        simp only [Option.some.injEq] at hs3
        subst hs3
        simp
      · obtain ⟨s1, hs1, ht, hfin⟩ := ih (i + 1) (n + 1) _ _ v hv1 hf
        refine ⟨s1, ?_, ht, ?_⟩
        · simp [hs1]
        · intro s3 hs3
          have := hfin s3 hs3
          simp [this]

/-- C12: in a call of `CheckScriptTimers`, for every fired step `v` (entry `v.index`, found
due at the tick `v.tick`) the subroutine is started in a state `s1` whose tick counter reads
`v.tick`; whatever state `s2` the subroutine returns, after any time and any nested calls,
the call goes on from `CheckScriptTimers.finish v.index v.tick s2`, in which the last-run tick
of entry `v.index` is `v.tick` and every other entry is as the subroutine left it. -/
theorem CheckScriptTimers_records_start_tick (cfg : Config) (env : Env) (fuel : Nat)
    (s : State) (v : Visit)
    (hv : v ∈ (CheckScriptTimers cfg env fuel s).visits) (hf : v.fired = true) :
    ∃ s1 ∈ (CheckScriptTimers cfg env fuel s).visited,
      GetTickCount s1 = v.tick ∧
      ∀ s2, (env.ExecUntil v.timer.mLabel s1).final = some s2 →
        CheckScriptTimers.finish v.index v.tick s2 ∈ (CheckScriptTimers cfg env fuel s).visited
        ∧ (∀ t2, s2.mFirstTimer[v.index]? = some t2 →
            (CheckScriptTimers.finish v.index v.tick s2).mFirstTimer[v.index]?
              = some { t2 with mExistingThreads := t2.mExistingThreads - 1,
                               mTimeLastRun := v.tick })
        ∧ (∀ j, j ≠ v.index →
            (CheckScriptTimers.finish v.index v.tick s2).mFirstTimer[j]?
              = s2.mFirstTimer[j]?) := by
  unfold CheckScriptTimers at hv ⊢
  split at hv
  · simp at hv
  · rename_i hg
    rw [if_neg hg]
    obtain ⟨s1, hs1, ht, hfin⟩ := CheckScriptTimers_loop_start_tick cfg env fuel 0 0 none s v hv hf
    refine ⟨s1, hs1, ht, ?_⟩
    intro s2 hs2
    refine ⟨hfin s2 hs2, ?_, ?_⟩
    · intro t2 ht2
      rw [CheckScriptTimers_finish_entry, ht2]
      rfl
    · intro j hj
      exact CheckScriptTimers_finish_others _ _ j s2 hj

theorem CheckScriptTimers_records_start_tick_witness :
    ((CheckScriptTimers cfg0 envSlow 3 sTimers).visits
        = [⟨0, ⟨0, 100, 0, 0, true⟩, 500, true⟩, ⟨1, ⟨1, 250, 0, 0, true⟩, 700, true⟩]
      ∧ (CheckScriptTimers cfg0 envSlow 3 sTimers).final.map (fun x => x.mFirstTimer)
        = some [⟨0, 100, 500, 0, true⟩, ⟨1, 250, 700, 0, true⟩])
    ∧ ∃ s1 ∈ (CheckScriptTimers cfg0 envSlow 3 sTimers).visited,
      GetTickCount s1 = 700 ∧
      ∀ s2, (envSlow.ExecUntil 1 s1).final = some s2 →
        CheckScriptTimers.finish 1 700 s2 ∈ (CheckScriptTimers cfg0 envSlow 3 sTimers).visited
        ∧ (∀ t2, s2.mFirstTimer[1]? = some t2 →
            (CheckScriptTimers.finish 1 700 s2).mFirstTimer[1]?
              = some { t2 with mExistingThreads := t2.mExistingThreads - 1,
                               mTimeLastRun := 700 })
        ∧ (∀ j, j ≠ 1 →
            (CheckScriptTimers.finish 1 700 s2).mFirstTimer[j]? = s2.mFirstTimer[j]?) :=
  ⟨⟨by decide, by decide⟩,
    CheckScriptTimers_records_start_tick cfg0 envSlow 3 sTimers
      ⟨1, ⟨1, 250, 0, 0, true⟩, 700, true⟩ (by decide) rfl⟩

/-! ### `MsgSleep` in mode `WAIT_FOR_MESSAGES` -/

theorem MsgSleep_resumeWith_eq (cfg : Config) (L : Locals) (saved : global_struct) (s : State) :
    MsgSleep.resumeWith (IsCycleComplete cfg) L saved s = MsgSleep.resume cfg L saved s := rfl

theorem MsgSleep_hotkeyWith_eq (cfg : Config) (env : Env) (L : Locals) (msg : MSG) (s : State) :
    MsgSleep.hotkeyWith (IsCycleComplete cfg) cfg env L msg s = MsgSleep.hotkey cfg env L msg s :=
  rfl

theorem MsgSleep_dispatchWith_eq (cfg : Config) (env : Env) (fuel : Nat) (L : Locals) (msg : MSG)
    (s : State) :
    MsgSleep.dispatchWith (IsCycleComplete cfg) cfg env fuel L msg s
      = MsgSleep.dispatch cfg env fuel L msg s := rfl

theorem MsgSleep_iterationWith_eq (cfg : Config) (env : Env) (fuel : Nat) (L : Locals)
    (s : State) :
    MsgSleep.iterationWith (IsCycleComplete cfg) cfg env fuel L s
      = MsgSleep.iteration cfg env fuel L s := rfl

theorem MsgSleep_loopWith_eq (cfg : Config) (env : Env) :
    ∀ (fuel : Nat) (L : Locals) (s : State),
      MsgSleep.loopWith (IsCycleComplete cfg) cfg env fuel L s = MsgSleep.loop cfg env fuel L s := by
  intro fuel
  induction fuel with
  | zero => intro L s; rfl
  | succ k ih =>
    intro L s
    simp only [MsgSleep.loopWith, MsgSleep.loop, MsgSleep_iterationWith_eq, ih]

/-- With `IsCycleComplete` itself for the parameter, `MsgSleepWith` is `MsgSleep`. -/
theorem MsgSleepWith_eq (cfg : Config) (env : Env) (fuel : Nat) (d : Int) (m : MessageMode)
    (s : State) :
    MsgSleepWith (IsCycleComplete cfg) cfg env fuel d m s = MsgSleep cfg env fuel d m s := by
  simp only [MsgSleepWith, MsgSleep, MsgSleep_loopWith_eq]

theorem MsgSleep_resumeWith_wait (orc : Oracle) (L : Locals) (saved : global_struct)
    (s : State) (hw : L.aMode = MessageMode.WAIT_FOR_MESSAGES) :
    MsgSleep.resumeWith orc L saved s = Next.cont L s := by
  unfold MsgSleep.resumeWith
  rw [if_neg (by rw [hw]; decide)]

theorem MsgSleep_hotkeyWith_wait (orc : Oracle) (cfg : Config) (env : Env) (L : Locals)
    (msg : MSG) (s : State) (hw : L.aMode = MessageMode.WAIT_FOR_MESSAGES) :
    MsgSleep.hotkeyWith orc cfg env L msg s = MsgSleep.hotkey cfg env L msg s
    ∧ (∀ e ∈ (MsgSleep.hotkey cfg env L msg s).events, e.fromDispatch = true)
    ∧ Next.waits L (MsgSleep.hotkey cfg env L msg s).next := by
  refine ⟨?_, (MsgSleep_hotkey_shape cfg env L msg s).1, ?_⟩
  · rw [← MsgSleep_hotkeyWith_eq]
    simp only [MsgSleep.hotkeyWith, MsgSleep_resumeWith_wait _ _ _ _ hw]
  · rw [← MsgSleep_hotkeyWith_eq]
    unfold MsgSleep.hotkeyWith
    by_cases h1 : MsgSleep.overLimit cfg env msg s = true
    · rw [if_pos h1]; rfl
    · rw [if_neg h1]
      by_cases h2 : (!env.PerformIsAllowed msg.wParam s) = true
      · rw [if_pos h2]; rfl
      · rw [if_neg h2]
        dsimp only
        split
        · trivial
        · rw [MsgSleep_resumeWith_wait _ _ _ _ hw]; rfl

theorem MsgSleep_dispatchWith_wait (orc : Oracle) (cfg : Config) (env : Env) (fuel : Nat)
    (L : Locals) (msg : MSG) (s : State) (hw : L.aMode = MessageMode.WAIT_FOR_MESSAGES) :
    MsgSleep.dispatchWith orc cfg env fuel L msg s = MsgSleep.dispatch cfg env fuel L msg s
    ∧ (∀ e ∈ (MsgSleep.dispatch cfg env fuel L msg s).events, e.fromDispatch = true)
    ∧ Next.waits L (MsgSleep.dispatch cfg env fuel L msg s).next := by
  refine ⟨?_, (MsgSleep_dispatch_shape cfg env fuel L msg s).1, ?_⟩
  · cases hm : msg.message with
    | WM_TIMER =>
      simp only [MsgSleep.dispatchWith, MsgSleep.dispatch, hm, hw, if_true]
    | WM_QUIT => simp only [MsgSleep.dispatchWith, MsgSleep.dispatch, hm]
    | WM_HOTKEY =>
      simp only [MsgSleep.dispatchWith, MsgSleep.dispatch, hm]
      exact (MsgSleep_hotkeyWith_wait orc cfg env L msg s hw).1
    | AHK_HOOK_HOTKEY =>
      simp only [MsgSleep.dispatchWith, MsgSleep.dispatch, hm]
      exact (MsgSleep_hotkeyWith_wait orc cfg env L msg s hw).1
    | WM_KEYDOWN => simp only [MsgSleep.dispatchWith, MsgSleep.dispatch, hm]
    | other c => simp only [MsgSleep.dispatchWith, MsgSleep.dispatch, hm]
  · cases hm : msg.message with
    | WM_TIMER =>
      simp only [MsgSleep.dispatch, hm, hw, if_true]
      split_ifs
      · rfl
      · split
        · trivial
        · rfl
    | WM_QUIT => simp only [MsgSleep.dispatch, hm]; rfl
    | WM_HOTKEY =>
      simp only [MsgSleep.dispatch, hm]
      exact (MsgSleep_hotkeyWith_wait orc cfg env L msg s hw).2.2
    | AHK_HOOK_HOTKEY =>
      simp only [MsgSleep.dispatch, hm]
      exact (MsgSleep_hotkeyWith_wait orc cfg env L msg s hw).2.2
    | WM_KEYDOWN =>
      simp only [MsgSleep.dispatch, hm]
      split_ifs <;> rfl
    | other c => simp only [MsgSleep.dispatch, hm]; rfl

/-- A loop step of a waiting call with a positive duration: it calls `GetMessage`, handles
what it got, never calls `IsCycleComplete`, and goes on with the same locals or never. -/
theorem MsgSleep_iterationWith_wait (orc : Oracle) (cfg : Config) (env : Env) (fuel : Nat)
    (L : Locals) (s : State) (hw : L.aMode = MessageMode.WAIT_FOR_MESSAGES)
    (hd : L.aSleepDuration > 0) (hp : L.empty_the_queue_via_peek = false) :
    MsgSleep.iterationWith orc cfg env fuel L s = MsgSleep.iteration cfg env fuel L s
    ∧ (∃ ev, (MsgSleep.iteration cfg env fuel L s).events = PumpEv.getMessage :: ev
        ∧ ∀ e ∈ ev, e.fromDispatch = true)
    ∧ Next.waits L (MsgSleep.iteration cfg env fuel L s).next := by
  refine ⟨?_, ?_, ?_⟩
  · unfold MsgSleep.iterationWith MsgSleep.iteration
    rw [if_pos ⟨hd, hp⟩, if_pos ⟨hd, hp⟩]
    split
    · rfl
    · rfl
    · dsimp only
      rw [(MsgSleep_dispatchWith_wait orc cfg env fuel L _ _ hw).1]
  · obtain ⟨ev, h1, h2, _⟩ := MsgSleep_iteration_get cfg env fuel L s ⟨hd, hp⟩
    exact ⟨ev, h1, h2⟩
  · unfold MsgSleep.iteration
    rw [if_pos ⟨hd, hp⟩]
    split
    · trivial
    · rfl
    · exact (MsgSleep_dispatchWith_wait orc cfg env fuel L _ _ hw).2.2

theorem MsgSleep_loopWith_wait (orc : Oracle) (cfg : Config) (env : Env) :
    ∀ (fuel : Nat) (L : Locals) (s : State), L.aMode = MessageMode.WAIT_FOR_MESSAGES →
      L.aSleepDuration > 0 → L.empty_the_queue_via_peek = false →
      MsgSleep.loopWith orc cfg env fuel L s = MsgSleep.loop cfg env fuel L s
      ∧ (MsgSleep.loop cfg env fuel L s).result = none
      ∧ ∀ e ∈ (MsgSleep.loop cfg env fuel L s).events,
          e = PumpEv.getMessage ∨ e.fromDispatch = true := by
  intro fuel
  induction fuel with
  | zero => intro L s _ _ _; exact ⟨rfl, rfl, by simp [MsgSleep.loop]⟩
  | succ k ih =>
    intro L s hw hd hp
    obtain ⟨e1, ⟨ev, e2, e3⟩, e4⟩ := MsgSleep_iterationWith_wait orc cfg env k L s hw hd hp
    have hev : ∀ e ∈ (MsgSleep.iteration cfg env k L s).events,
        e = PumpEv.getMessage ∨ e.fromDispatch = true := by
      intro e he
      rw [e2] at he
      rcases List.mem_cons.1 he with h | h
      · exact Or.inl h
      · exact Or.inr (e3 e h)
    cases hn : (MsgSleep.iteration cfg env k L s).next with
    | cont L1 s1 =>
      rw [hn] at e4
      have hL : L1 = L := e4
      subst hL
      obtain ⟨i1, i2, i3⟩ := ih L1 s1 hw hd hp
      obtain ⟨l1, _, l3⟩ := MsgSleep_loop_cont cfg env k L1 L1 s s1 hn
      refine ⟨?_, by rw [l3]; exact i2, ?_⟩
      · simp only [MsgSleep.loopWith, MsgSleep.loop, e1, hn, i1]
      · intro e he
        rw [l1] at he
        rcases List.mem_append.1 he with h | h
        · exact hev e h
        · exact i3 e h
    | ret r s1 => rw [hn] at e4; exact e4.elim
    | hang =>
      rw [MsgSleep_loop_hang cfg env k L s hn]
      refine ⟨?_, rfl, hev⟩
      simp only [MsgSleep.loopWith, e1, hn]

theorem MsgSleep_init_positive (cfg : Config) (d : Int) (m : MessageMode) (s : State)
    (hpos : 0 < cfg.SLEEP_INTERVAL) (hd : 0 < d ∨ d = cfg.INTERVAL_UNSPECIFIED) :
    (MsgSleep.init cfg d m s).aSleepDuration > 0 := by
  unfold MsgSleep.init
  by_cases hu : d = cfg.INTERVAL_UNSPECIFIED
  · simp only [hu, if_true]; exact hpos
  · simp only [hu, if_false]
    rcases hd with h | h
    · exact h
    · exact absurd h hu

/-- C18: with a positive default interval `SLEEP_INTERVAL`, a call of `MsgSleep` in mode
`WAIT_FOR_MESSAGES` with a positive duration or the reserved value `INTERVAL_UNSPECIFIED`
never returns, for every bound on its loops, all collaborators and every event stream; each
of its own events is a `GetMessage` call or the handling of a message (never a peek, never
`Sleep(0)`); and it is the same call whatever is put in the place of `IsCycleComplete`. -/
theorem MsgSleep_wait_mode_never_returns (cfg : Config) (env : Env) (fuel : Nat) (d : Int)
    (s : State) (hpos : 0 < cfg.SLEEP_INTERVAL) (hd : 0 < d ∨ d = cfg.INTERVAL_UNSPECIFIED) :
    (MsgSleep cfg env fuel d MessageMode.WAIT_FOR_MESSAGES s).result = none
    ∧ (∀ e ∈ (MsgSleep cfg env fuel d MessageMode.WAIT_FOR_MESSAGES s).events,
        e = PumpEv.getMessage ∨ e.fromDispatch = true)
    ∧ ∀ orc : Oracle, MsgSleepWith orc cfg env fuel d MessageMode.WAIT_FOR_MESSAGES s
        = MsgSleep cfg env fuel d MessageMode.WAIT_FOR_MESSAGES s := by
  have hL := MsgSleep_init_positive cfg d MessageMode.WAIT_FOR_MESSAGES
    (CLOSE_CLIPBOARD_IF_OPEN s) hpos hd
  unfold MsgSleepWith MsgSleep
  dsimp only
  split
  · exact ⟨rfl, by simp, fun _ => rfl⟩
  · have key := fun (orc : Oracle) (s2 : State) (b : Bool) =>
      MsgSleep_loopWith_wait orc cfg env fuel
        { MsgSleep.init cfg d MessageMode.WAIT_FOR_MESSAGES (CLOSE_CLIPBOARD_IF_OPEN s) with
          we_turned_on_main_timer := b } s2 rfl hL rfl
    refine ⟨(key (IsCycleComplete cfg) _ _).2.1, (key (IsCycleComplete cfg) _ _).2.2, ?_⟩
    intro orc
    rw [(key orc _ _).1]

theorem MsgSleep_wait_mode_never_returns_witness :
    ((0 : Int) < cfg0.SLEEP_INTERVAL ∧ ((0 : Int) < 100 ∨ (100 : Int) = cfg0.INTERVAL_UNSPECIFIED))
    ∧ ((MsgSleep cfg0 env0 6 100 MessageMode.WAIT_FOR_MESSAGES sWait).result = none
      ∧ (∀ e ∈ (MsgSleep cfg0 env0 6 100 MessageMode.WAIT_FOR_MESSAGES sWait).events,
          e = PumpEv.getMessage ∨ e.fromDispatch = true)
      ∧ ∀ orc : Oracle, MsgSleepWith orc cfg0 env0 6 100 MessageMode.WAIT_FOR_MESSAGES sWait
          = MsgSleep cfg0 env0 6 100 MessageMode.WAIT_FOR_MESSAGES sWait)
    ∧ (MsgSleep cfg0 env0 6 100 MessageMode.WAIT_FOR_MESSAGES sWait).events
        = [PumpEv.getMessage, PumpEv.perform 0, PumpEv.getMessage, PumpEv.getMessage,
            PumpEv.getMessage]
    ∧ (MsgSleepWith orcAlways cfg0 env0 6 100 MessageMode.RETURN_AFTER_MESSAGES sWait).result
        ≠ (MsgSleep cfg0 env0 6 100 MessageMode.RETURN_AFTER_MESSAGES sWait).result :=
  ⟨⟨by decide, Or.inl (by decide)⟩,
    MsgSleep_wait_mode_never_returns cfg0 env0 6 100 sWait (by decide) (Or.inl (by decide)),
    by decide, by decide⟩

/-! ### The hard ceiling on the thread counter -/

/-- C21: in every state passed through or returned in by a sequence of `MsgSleep` and
`CheckScriptTimers` calls whose subroutines are nested calls of the same two, started with
`g_MaxThreadsTotal <= MAX_THREADS_LIMIT` and `g_nThreads <= MAX_THREADS_LIMIT`, the configured
maximum is unchanged and `g_nThreads` is at most `MAX_THREADS_LIMIT`, whatever action types
are always allowed. -/
theorem threads_within_hard_ceiling (cfg : Config) (P : Script) (fuel : Nat) (main : List Stmt)
    (s : State) (hmax : s.g_MaxThreadsTotal ≤ cfg.MAX_THREADS_LIMIT)
    (h0 : s.g_nThreads ≤ cfg.MAX_THREADS_LIMIT) :
    (∀ x ∈ (runScript cfg P fuel main s).visited,
        x.g_MaxThreadsTotal = s.g_MaxThreadsTotal ∧ x.g_nThreads ≤ cfg.MAX_THREADS_LIMIT)
    ∧ (∀ x, (runScript cfg P fuel main s).final = some x →
        x.g_MaxThreadsTotal = s.g_MaxThreadsTotal ∧ x.g_nThreads ≤ cfg.MAX_THREADS_LIMIT) := by
  have hA := runScript_keeps P
    (threadBound_invariant cfg P.ACT_IS_ALWAYS_ALLOWED s.g_MaxThreadsTotal
      cfg.MAX_THREADS_LIMIT hmax (Or.inl (le_refl _)))
    fuel main s ⟨rfl, h0⟩
  exact ⟨hA.1, hA.2⟩

theorem threads_within_hard_ceiling_witness :
    (sCeil.g_MaxThreadsTotal ≤ cfgTight.MAX_THREADS_LIMIT
      ∧ sCeil.g_nThreads ≤ cfgTight.MAX_THREADS_LIMIT)
    ∧ ((∀ x ∈ (runScript cfgTight P2 6 [Stmt.MsgSleep (-1) MessageMode.RETURN_AFTER_MESSAGES]
            sCeil).visited,
          x.g_MaxThreadsTotal = sCeil.g_MaxThreadsTotal
            ∧ x.g_nThreads ≤ cfgTight.MAX_THREADS_LIMIT)
      ∧ (∀ x, (runScript cfgTight P2 6 [Stmt.MsgSleep (-1) MessageMode.RETURN_AFTER_MESSAGES]
            sCeil).final = some x →
          x.g_MaxThreadsTotal = sCeil.g_MaxThreadsTotal
            ∧ x.g_nThreads ≤ cfgTight.MAX_THREADS_LIMIT))
    ∧ (∃ x ∈ (runScript cfgTight P2 6 [Stmt.MsgSleep (-1) MessageMode.RETURN_AFTER_MESSAGES]
            sCeil).visited,
        x.g_nThreads = cfgTight.MAX_THREADS_LIMIT ∧ x.g_nThreads > x.g_MaxThreadsTotal)
    ∧ (runScript cfgTight P2 6 [Stmt.MsgSleep (-1) MessageMode.RETURN_AFTER_MESSAGES]
          sCeil).final.map (fun x => (x.g_nThreads, x.msgQueue)) = some (1, []) :=
  ⟨⟨by decide, by decide⟩,
    threads_within_hard_ceiling cfgTight P2 6
      [Stmt.MsgSleep (-1) MessageMode.RETURN_AFTER_MESSAGES] sCeil (by decide) (by decide),
    by decide, by decide⟩

end Application
